import Mathlib

/-!
# AudioVisualization: playback cursor engine, envelope extraction, waveform thumbnail

A shallow embedding of `UImportedSoundWave` (ImportedSoundWave.cpp / ImportedSoundWave.h)
and of the sampler, the spline fitter, the pixel write and the view controls of
ImportedSoundWaveVisualizer.cpp.

Conventions of the embedding.

* Machine integers are mathematical integers; every C++ conversion or wrapping
  operation is written out with `toUInt32`, `toInt32`, `toUInt64`.
* `float` values are rationals (`ℚ`). The seek, the playback time and the frame arithmetic
  of the envelope extraction round every `float` conversion and operation to binary32 with
  `roundToFloat`: there the rounding decides which frame is addressed. The amplitude of the
  envelope is scaled by powers of two only. The thumbnail (sampler, spline, pixel alpha,
  view controls) is modelled over exact rationals.
* The PCM buffer (`PCMBufferInfo.PCMData.GetView()`) is a list of bytes; one float sample
  occupies `sizeof(float) = 4` consecutive bytes.
* `AsyncTask(ENamedThreads::GameThread, ...)` is dispatched in call order: the body of the
  task runs at the point where it is queued, and every broadcast is recorded in a list of
  notifications.
-/

namespace AudioVisualization

/-! ## Machine integers -/

/-- Conversion of an integer value to `uint32` (reduction modulo 2^32). -/
def toUInt32 (x : Int) : Int := x % 4294967296

/-- Conversion of an integer value to `uint64` (reduction modulo 2^64). -/
def toUInt64 (x : Int) : Int := x % 18446744073709551616

/-- Conversion of an integer value to `int32` (two's complement wrap-around). -/
def toInt32 (x : Int) : Int := (x + 2147483648) % 4294967296 - 2147483648

/-- Conversion of a `float` to an integer: truncation toward zero. -/
def truncate (x : ℚ) : Int := if 0 ≤ x then ⌊x⌋ else ⌈x⌉

/-- Conversion of a `float` to `uint32`: truncation toward zero. C++ leaves the conversion
of a value outside the range of `uint32` undefined; here it is reduced modulo 2^32, and no
theorem below depends on that choice. -/
def floatToUInt32 (x : ℚ) : Int := toUInt32 (truncate x)

/-- Conversion of a `float` to `int32`: truncation toward zero. C++ leaves the conversion
of a value outside the range of `int32` undefined; here it wraps around. -/
def floatToInt32 (x : ℚ) : Int := toInt32 (truncate x)

/-- Rounding to the nearest integer, a tie goes to the even one. -/
def roundHalfEven (x : ℚ) : Int :=
  if x - (⌊x⌋ : ℚ) < 1 / 2 then ⌊x⌋
  else if x - (⌊x⌋ : ℚ) > 1 / 2 then ⌊x⌋ + 1
  else if ⌊x⌋ % 2 = 0 then ⌊x⌋ else ⌊x⌋ + 1

/-- The loop of `bitLength`; the first argument bounds the number of passes. -/
def bitLengthLoop : Nat → Nat → Nat
  | 0, _ => 0
  | fuel + 1, n => if n = 0 then 0 else bitLengthLoop fuel (n / 2) + 1

/-- The number of binary digits of a natural number: `⌊log2 n⌋ + 1` for `n >= 1`. -/
def bitLength (n : Nat) : Nat := bitLengthLoop n n

/-- The binary exponent of a value other than zero: the `e` with `2^e <= |x| < 2^(e+1)`.
With `a` and `b` the bit lengths of numerator and denominator, `e` is `a - b` when
`2^(a-b) <= |x|` and `a - b - 1` otherwise. -/
def binaryExponent (x : ℚ) : Int :=
  if x.den * 2 ^ bitLength x.num.natAbs ≤ x.num.natAbs * 2 ^ bitLength x.den then
    (bitLength x.num.natAbs : Int) - (bitLength x.den : Int)
  else (bitLength x.num.natAbs : Int) - (bitLength x.den : Int) - 1

/-- The value of type `float` (IEEE 754 binary32) nearest to `x`, a tie going to the even
significand: 24 significant bits, so the spacing is `2^(e-23)` at the binary exponent `e`,
and `2^(-149)` below `2^(-126)`. This is the result of an integer-to-`float` conversion and
of a `float` operation on the exact result `x`. The overflow to infinity above `2^128` is
not modelled. -/
def roundToFloat (x : ℚ) : ℚ :=
  if x = 0 then 0
  else
    let e := if binaryExponent x < -126 then -126 else binaryExponent x
    let ulp : ℚ :=
      if 23 ≤ e then ((2 ^ (e - 23).toNat : Nat) : ℚ) else 1 / ((2 ^ (23 - e).toNat : Nat) : ℚ)
    (roundHalfEven (x / ulp) : ℚ) * ulp

/-- Values of type `int32`. -/
@[reducible] def InInt32 (x : Int) : Prop := -2147483648 ≤ x ∧ x < 2147483648

/-- Values of type `uint32`. -/
@[reducible] def InUInt32 (x : Int) : Prop := 0 ≤ x ∧ x < 4294967296

/-! ## The sound wave object -/

/-- The fields of `UImportedSoundWave` that the playback cursor engine reads and writes.
`PCMData` and `PCMNumOfFrames` are the members of `PCMBufferInfo`; `NumChannels`,
`SampleRate` and `Duration` are inherited from `USoundWave`. -/
structure UImportedSoundWave where
  /-- The view `PCMBufferInfo.PCMData.GetView()`: the bytes of the interleaved float samples. -/
  PCMData : List Nat
  /-- Member `PCMBufferInfo.PCMNumOfFrames` (`uint32`). -/
  PCMNumOfFrames : Int
  /-- Member `NumChannels` (`int32`). -/
  NumChannels : Int
  /-- Member `SampleRate` (`int32`). -/
  SampleRate : Int
  /-- Member `Duration` (`float`), in seconds. -/
  Duration : ℚ
  /-- Member `CurrentNumOfFrames` (`int32`), initialised to 0. -/
  CurrentNumOfFrames : Int
  /-- Member `PlaybackFinishedBroadcast`, initialised to `false`. -/
  PlaybackFinishedBroadcast : Bool
  deriving DecidableEq

/-- A freshly imported sound wave: the member initialisers of ImportedSoundWave.h give
`CurrentNumOfFrames = 0` and `PlaybackFinishedBroadcast = false`. -/
def newSoundWave (PCMData : List Nat) (PCMNumOfFrames NumChannels SampleRate : Int)
    (Duration : ℚ) : UImportedSoundWave :=
  { PCMData := PCMData, PCMNumOfFrames := PCMNumOfFrames, NumChannels := NumChannels,
    SampleRate := SampleRate, Duration := Duration,
    CurrentNumOfFrames := 0, PlaybackFinishedBroadcast := false }

/-- The playback cursor invariant `0 <= currentFrame <= frameCount`. -/
@[reducible] def CursorInv (w : UImportedSoundWave) : Prop :=
  0 ≤ w.CurrentNumOfFrames ∧ w.CurrentNumOfFrames ≤ w.PCMNumOfFrames

/-- The sample buffer invariant: at least one channel, `frameCount * channelCount` float
samples of four bytes each, and a byte size that an `int32` byte count (the type of
`RetrievedPCMDataSize` and of a `TArray` length) can hold. -/
@[reducible] def BufferInv (w : UImportedSoundWave) : Prop :=
  0 ≤ w.PCMNumOfFrames ∧ 1 ≤ w.NumChannels ∧
  (w.PCMData.length : Int) = w.PCMNumOfFrames * w.NumChannels * 4 ∧
  (w.PCMData.length : Int) < 2147483648

/-! ## Seek -/

/-- Method `UImportedSoundWave::ChangeCurrentFrameCount(const uint32 NumOfFrames)`.
Returns the boolean result and the sound wave after the call. -/
def ChangeCurrentFrameCount (w : UImportedSoundWave) (NumOfFrames : Int) :
    Bool × UImportedSoundWave :=
  if NumOfFrames < 0 ∨ NumOfFrames > w.PCMNumOfFrames then
    (false, w)
  else
    (true, { w with CurrentNumOfFrames := toInt32 NumOfFrames,
                    PlaybackFinishedBroadcast := false })

/-- Method `UImportedSoundWave::RewindPlaybackTime(const float PlaybackTime)`. The product
`PlaybackTime * SampleRate` of line 32 is a `float` product, of `PlaybackTime` and of
`SampleRate` converted to `float`, that the call converts to `uint32`. -/
def RewindPlaybackTime (w : UImportedSoundWave) (PlaybackTime : ℚ) :
    Bool × UImportedSoundWave :=
  if PlaybackTime > w.Duration then
    (false, w)
  else
    ChangeCurrentFrameCount w
      (floatToUInt32 (roundToFloat (PlaybackTime * roundToFloat (w.SampleRate : ℚ))))

/-- Method `UImportedSoundWave::GetPlaybackTime()`: the `float` quotient of line 53, of
`CurrentNumOfFrames` and `SampleRate`, both converted to `float`. -/
def GetPlaybackTime (w : UImportedSoundWave) : ℚ :=
  roundToFloat (roundToFloat (w.CurrentNumOfFrames : ℚ) / roundToFloat (w.SampleRate : ℚ))

/-! ## Chunk delivery -/

/-- The broadcasts of the sound wave. `GeneratePCMData` carries the bytes of the float
array handed to `OnGeneratePCMDataNative` / `OnGeneratePCMData`. -/
inductive Notification where
  | PlaybackFinished
  | GeneratePCMData (data : List Nat)
  deriving DecidableEq

/-- Everything one call of `OnGeneratePCMAudio` produces. -/
structure PullResult where
  /-- The sound wave after the call. -/
  wave : UImportedSoundWave
  /-- The in/out parameter `OutAudio` after the call. -/
  OutAudio : List Nat
  /-- The returned number of samples. -/
  returned : Int
  /-- The broadcasts made by the tasks the call queued. -/
  notifications : List Notification
  deriving DecidableEq

/-- The byte offset `CurrentNumOfFrames * NumChannels * sizeof(float)` of line 182: an
`int32` product converted to `size_t` and multiplied by 4. -/
def retrievedOffset (w : UImportedSoundWave) : Int :=
  toUInt64 (toUInt64 (toInt32 (w.CurrentNumOfFrames * w.NumChannels)) * 4)

/-- The value of `NumSamples` after the clamp of lines 176-179. The division is the one of
`uint32`; a sound wave with `NumChannels = 0`, for which C++ leaves it undefined, is not a
sample buffer, and the theorems on delivered data take `NumChannels >= 1`. -/
def clampedNumSamples (w : UImportedSoundWave) (NumSamples : Int) : Int :=
  if toUInt32 (toUInt32 w.CurrentNumOfFrames
        + toUInt32 NumSamples / toUInt32 w.NumChannels) ≥ w.PCMNumOfFrames then
    toInt32 (toUInt32 (toUInt32 (w.PCMNumOfFrames - toUInt32 w.CurrentNumOfFrames)
        * toUInt32 w.NumChannels))
  else
    NumSamples

/-- The value `RetrievedPCMDataSize` of line 183: `NumSamples * sizeof(float)` computed in `size_t`
and stored in an `int32`. -/
def retrievedSize (NumSamples : Int) : Int :=
  toInt32 (toUInt64 (toUInt64 NumSamples * 4))

/-- Method `UImportedSoundWave::OnGeneratePCMAudio(TArray<uint8>& OutAudio, int32 NumSamples)`. -/
def OnGeneratePCMAudio (w : UImportedSoundWave) (OutAudio : List Nat) (NumSamples : Int) :
    PullResult :=
  if toUInt32 w.CurrentNumOfFrames ≥ w.PCMNumOfFrames then
    -- the queued task: broadcast once, guarded by `PlaybackFinishedBroadcast`
    if !w.PlaybackFinishedBroadcast then
      { wave := { w with PlaybackFinishedBroadcast := true }, OutAudio := OutAudio,
        returned := 0, notifications := [Notification.PlaybackFinished] }
    else
      { wave := w, OutAudio := OutAudio, returned := 0, notifications := [] }
  else
    let NumSamples1 := clampedNumSamples w NumSamples
    let offset := retrievedOffset w
    let RetrievedPCMDataSize := retrievedSize NumSamples1
    -- `RetrievedPCMData == nullptr` only for a null view and a zero offset
    if RetrievedPCMDataSize ≤ 0 ∨ (w.PCMData = [] ∧ offset = 0) then
      { wave := w, OutAudio := OutAudio, returned := 0, notifications := [] }
    else
      { wave := { w with CurrentNumOfFrames :=
                    toInt32 (w.CurrentNumOfFrames + Int.tdiv NumSamples1 w.NumChannels) },
        OutAudio := (w.PCMData.drop offset.toNat).take RetrievedPCMDataSize.toNat,
        returned := NumSamples1,
        notifications :=
          [Notification.GeneratePCMData
            ((w.PCMData.drop offset.toNat).take (NumSamples1 * 4).toNat)] }

/-- The bytes of the float samples `[first, first + count)` of a PCM buffer: sample `k`
occupies the bytes `[4 * k, 4 * k + 4)`. -/
def sampleSlice (PCMData : List Nat) (first count : Int) : List Nat :=
  (PCMData.drop (first * 4).toNat).take (count * 4).toNat

/-! ## Repeated delivery -/

/-- A play-through: `OnGeneratePCMAudio` is called with the same `NumSamples` again and
again until the first call that returns 0; the result is the sum of the returned sample
counts. `fuel` bounds the number of calls; `none` means the bound was reached before a
call returned 0. -/
def playThrough : Nat → UImportedSoundWave → Int → Option Int
  | 0, _, _ => none
  | fuel + 1, w, NumSamples =>
    let r := OnGeneratePCMAudio w [] NumSamples
    if r.returned = 0 then some 0
    else (playThrough fuel r.wave NumSamples).map (fun total => r.returned + total)

/-- One call made on the sound wave by its host. -/
inductive Call where
  | Rewind (PlaybackTime : ℚ)
  | ChangeFrame (NumOfFrames : Int)
  | Generate (OutAudio : List Nat) (NumSamples : Int)
  deriving DecidableEq

/-- What a call did: whether it was a seek that succeeded, whether it was a chunk request
made with the cursor at or past the last frame, and how many "playback finished"
broadcasts it caused. -/
structure Observed where
  seekSucceeded : Bool
  exhausted : Bool
  finished : Nat
  deriving DecidableEq

/-- Run one call: the sound wave after it and what was observed. -/
def perform (w : UImportedSoundWave) : Call → UImportedSoundWave × Observed
  | Call.Rewind t =>
    let r := RewindPlaybackTime w t
    (r.2, { seekSucceeded := r.1, exhausted := false, finished := 0 })
  | Call.ChangeFrame n =>
    let r := ChangeCurrentFrameCount w (toUInt32 n)
    (r.2, { seekSucceeded := r.1, exhausted := false, finished := 0 })
  | Call.Generate OutAudio n =>
    let r := OnGeneratePCMAudio w OutAudio n
    (r.wave,
      { seekSucceeded := false,
        exhausted := decide (toUInt32 w.CurrentNumOfFrames ≥ w.PCMNumOfFrames),
        finished := r.notifications.count Notification.PlaybackFinished })

/-- Run a sequence of calls and summarise every completion cycle, a cycle being the calls
between two successful seeks (the first cycle starts with the sequence, the last one ends
with it). A summary is the number of "playback finished" broadcasts of the cycle and
whether a chunk request of the cycle found the cursor at or past the last frame.
`finished` and `exhausted` accumulate the summary of the cycle in progress. -/
def cycleSummaries (w : UImportedSoundWave) (finished : Nat) (exhausted : Bool) :
    List Call → List (Nat × Bool)
  | [] => [(finished, exhausted)]
  | c :: cs =>
    let r := perform w c
    if r.2.seekSucceeded then
      (finished, exhausted) :: cycleSummaries r.1 0 false cs
    else
      cycleSummaries r.1 (finished + r.2.finished) (exhausted || r.2.exhausted) cs

/-! ## The scenario buffer -/

/-- IEEE-754 single precision `0.0f`, little endian. -/
def floatZero : List Nat := [0, 0, 0, 0]

/-- IEEE-754 single precision `1.0f` (0x3F800000), little endian. -/
def floatOne : List Nat := [0, 0, 128, 63]

/-- IEEE-754 single precision `-1.0f` (0xBF800000), little endian. -/
def floatMinusOne : List Nat := [0, 0, 128, 191]

/-- The mono buffer of 8 frames at sample rate 8 holding `[0,1,0,-1,0,1,0,-1]`, freshly
imported. -/
def scenarioWave : UImportedSoundWave :=
  newSoundWave
    (floatZero ++ floatOne ++ floatZero ++ floatMinusOne
      ++ floatZero ++ floatOne ++ floatZero ++ floatMinusOne)
    8 1 8 1

/-- A stereo buffer of 2 frames (4 samples, 16 bytes) at sample rate 2, freshly imported. -/
def stereoWave : UImportedSoundWave :=
  newSoundWave
    (floatZero ++ floatOne ++ floatMinusOne ++ floatOne)
    2 2 2 1

/-- A mono buffer of ten seconds: 80 frames of silence at sample rate 8. -/
def tenSecondWave : UImportedSoundWave :=
  newSoundWave (List.replicate 320 0) 80 1 8 10

/-- The first chunk request of the scenario: 4 samples from the fresh buffer. -/
def scenarioPull1 : PullResult := OnGeneratePCMAudio scenarioWave [] 4

/-- The second chunk request of the scenario. -/
def scenarioPull2 : PullResult :=
  OnGeneratePCMAudio scenarioPull1.wave scenarioPull1.OutAudio 4

/-- The third chunk request of the scenario. -/
def scenarioPull3 : PullResult :=
  OnGeneratePCMAudio scenarioPull2.wave scenarioPull2.OutAudio 4

/-- A fourth chunk request, after the buffer is exhausted. -/
def scenarioPull4 : PullResult :=
  OnGeneratePCMAudio scenarioPull3.wave scenarioPull3.OutAudio 4

/-- A mono buffer of 2 frames at sample rate 2 whose 8 bytes are all different. -/
def rampWave : UImportedSoundWave :=
  newSoundWave [1, 2, 3, 4, 5, 6, 7, 8] 2 1 2 1

/-- IEEE-754 single precision `0.3f` (0x3E99999A), little endian. -/
def floatPointThree : List Nat := [154, 153, 153, 62]

/-- A mono buffer of 2 frames at sample rate 2, both samples `0.3f`. -/
def pointThreeWave : UImportedSoundWave :=
  newSoundWave (floatPointThree ++ floatPointThree) 2 1 2 1

/-! ## Envelope extraction -/

/-- The ways in which `GetRenderData` leaves defined behaviour. -/
inductive Fault where
  /-- The float division `i / 0.0f` with `i = 0`: the quotient is not a number and its
  conversion to `int32` is undefined. -/
  | DivisionByZero
  /-- An index into the PCM view that is not below its size. -/
  | ReadOutOfBounds
  deriving DecidableEq

deriving instance DecidableEq for Except

/-- The engine's `FMath::Min` on integers. -/
def FMathMin (A B : Int) : Int := if A ≤ B then A else B

/-- The engine's `FMath::Clamp` on integers. -/
def FMathClamp (X Min Max : Int) : Int := if X < Min then Min else if X < Max then X else Max

/-- The value `StartFrame` of lines 88-89: the `float` product of `StartTime` and of
`SampleRate` converted to `float`, converted to `uint32` and clamped. -/
def renderStartFrame (w : UImportedSoundWave) (StartTime : ℚ) : Int :=
  FMathMin (floatToUInt32 (roundToFloat (StartTime * roundToFloat (w.SampleRate : ℚ))))
    (toUInt32 (w.PCMNumOfFrames - 2))

/-- The value `EndFrame` of lines 91-92: the `float` sum and product, converted to `uint32`
and clamped. -/
def renderEndFrame (w : UImportedSoundWave) (StartTime TimeLength : ℚ) : Int :=
  FMathClamp
    (floatToUInt32
      (roundToFloat (roundToFloat (StartTime + TimeLength) * roundToFloat (w.SampleRate : ℚ))))
    (toUInt32 (renderStartFrame w StartTime + 1)) (toUInt32 (w.PCMNumOfFrames - 1))

/-- The value `FrameStep` of line 96: the number of view bytes per frame (`uint64`). -/
def renderFrameStep (w : UImportedSoundWave) : Int :=
  toUInt64 (w.PCMData.length : Int) / w.PCMNumOfFrames

/-- One element of the PCM view, `PCMBufferInfo.PCMData.GetView()[index]`. -/
def readView (w : UImportedSoundWave) (index : Int) : Except Fault Nat :=
  if index < 0 then Except.error Fault.ReadOutOfBounds
  else
    match w.PCMData[index.toNat]? with
    | some b => Except.ok b
    | none => Except.error Fault.ReadOutOfBounds

/-- The body of the loop of lines 103-123 for bucket `i`: the amplitude written to
`OutAmplitudes[i]`. The values `Percent` and `Frame` of lines 105-106 are computed in
`float`: `i`, `AmplitudeBuckets - 1`, `DeltaFrames` and `StartFrame` are converted to
`float`, and the quotient, the product and the sum are rounded. The quotient by `Divisor`
and the product by 128 of lines 115-117 are by powers of two. -/
def bucketAmplitude (w : UImportedSoundWave) (StartFrame DeltaFrames FrameStep : Int)
    (AmplitudeBuckets : Int) (i : Nat) : Except Fault ℚ :=
  if AmplitudeBuckets - 1 = 0 then Except.error Fault.DivisionByZero
  else
    let Percent : ℚ :=
      roundToFloat (roundToFloat (i : ℚ) / roundToFloat ((AmplitudeBuckets - 1 : Int) : ℚ))
    let Frame : Int :=
      floatToInt32 (roundToFloat (roundToFloat (roundToFloat (DeltaFrames : ℚ) * Percent)
        + roundToFloat (StartFrame : ℚ)))
    let PCMIndex : Int := toUInt64 (FrameStep * toUInt64 Frame)
    match readView w PCMIndex, readView w (toUInt64 (PCMIndex + 1)) with
    | Except.ok F1, Except.ok F2 =>
      let FrameData : Nat := (F1 <<< 8) ||| F2
      let AmplitudeValue : ℚ := (FrameData : ℚ) / 32768
      Except.ok (AmplitudeValue * 128)
    | Except.error e, _ => Except.error e
    | _, Except.error e => Except.error e

/-- The loop of lines 103-123 over the bucket indices still to visit. -/
def fillAmplitudes (w : UImportedSoundWave) (StartFrame DeltaFrames FrameStep : Int)
    (AmplitudeBuckets : Int) : List Nat → List ℚ → Except Fault (List ℚ)
  | [], OutAmplitudes => Except.ok OutAmplitudes
  | i :: rest, OutAmplitudes =>
    match bucketAmplitude w StartFrame DeltaFrames FrameStep AmplitudeBuckets i with
    | Except.ok v =>
      fillAmplitudes w StartFrame DeltaFrames FrameStep AmplitudeBuckets rest
        (OutAmplitudes.set i v)
    | Except.error e => Except.error e

/-- Method `UImportedSoundWave::GetRenderData(Channel, StartTime, TimeLength, AmplitudeBuckets,
OutAmplitudes)`: the returned boolean and the in/out parameter `OutAmplitudes` after the
call, or the fault at which the call leaves defined behaviour. -/
def GetRenderData (w : UImportedSoundWave) (Channel : Int) (StartTime TimeLength : ℚ)
    (AmplitudeBuckets : Int) (OutAmplitudes : List ℚ) : Except Fault (Bool × List ℚ) :=
  if Channel < 0 then Except.ok (false, OutAmplitudes)
  else if Channel ≥ w.NumChannels then Except.ok (false, OutAmplitudes)
  else if StartTime < 0 ∨ TimeLength ≤ 0 then Except.ok (false, OutAmplitudes)
  else if w.PCMNumOfFrames < 2 then Except.ok (false, OutAmplitudes)
  else if AmplitudeBuckets < 1 then Except.ok (false, OutAmplitudes)
  else
    let StartFrame := renderStartFrame w StartTime
    let EndFrame := renderEndFrame w StartTime TimeLength
    let DeltaFrames := toUInt32 (EndFrame - StartFrame)
    let FrameStep := renderFrameStep w
    -- `OutAmplitudes.AddZeroed(AmplitudeBuckets)` appends to the array
    let Zeroed := OutAmplitudes ++ List.replicate AmplitudeBuckets.toNat 0
    match fillAmplitudes w StartFrame DeltaFrames FrameStep AmplitudeBuckets
        (List.range (toUInt32 AmplitudeBuckets).toNat) Zeroed with
    | Except.ok out => Except.ok (true, out)
    | Except.error e => Except.error e

/-- Two states of a sound wave over one and the same sample buffer. -/
@[reducible] def SameBuffer (w w1 : UImportedSoundWave) : Prop :=
  w1.PCMData = w.PCMData ∧ w1.PCMNumOfFrames = w.PCMNumOfFrames ∧
  w1.NumChannels = w.NumChannels ∧ w1.SampleRate = w.SampleRate ∧ w1.Duration = w.Duration

/-! ## The waveform thumbnail: sampling (ImportedSoundWaveVisualizer.cpp)

`FMath::Sqrt` is not a rational function: the embedding takes it as the parameter `Sqrt`.
The two-element arrays `Samples[MaxSupportedChannels]` and
`SplineSegments[MaxSupportedChannels]` are pairs of lists. -/

/-- The constant `SmoothingAmount`: the number of pixels between control points. -/
def SmoothingAmount : Nat := 6

/-- The constant `AnimatableAudioEditorConstants::MaxSamplesPerPixel`. -/
def MaxSamplesPerPixel : Int := 60

/-- A column sample, `FAudioSample`; the constructor of the source zeroes every field. -/
structure FAudioSample where
  RMS : ℚ
  Peak : Int
  NumSamples : Int
  deriving DecidableEq

/-- The value `FAudioSample()`. -/
def FAudioSample.zero : FAudioSample := { RMS := 0, Peak := 0, NumSamples := 0 }

/-- The ways in which `SampleAudio` leaves defined behaviour. -/
inductive SampleFault where
  /-- An index into `LookupData` or into `Samples` that is outside the array. -/
  | ReadOutOfBounds
  /-- The sampling loop is still running after `LookupEndIndex - LookupStartIndex`
  iterations: its step is not positive, or its index overflowed. -/
  | NoProgress
  deriving DecidableEq

/-- The engine's `FMath::Max` on integers. -/
def FMathMax (A B : Int) : Int := if A ≥ B then A else B

/-- The value `LookupStartIndex` after line 456: moved down to a channel-0 boundary for
stereo. The operator `%` of C++ truncates toward zero. -/
def alignedStartIndex (NumChannels LookupStartIndex : Int) : Int :=
  if NumChannels = 2 then
    (if Int.tmod LookupStartIndex 2 = 0 then LookupStartIndex
      else toInt32 (LookupStartIndex - 1))
  else LookupStartIndex

/-- The loop bounds and the step of `SampleAudio` after lines 456-474:
`(LookupStartIndex, LookupEndIndex, ModifiedStepSize)`. -/
def sampleWindow (LookupSize NumChannels LookupStartIndex LookupEndIndex : Int) :
    Int × Int × Int :=
  let Start := alignedStartIndex NumChannels LookupStartIndex
  let End := FMathMax LookupEndIndex (toInt32 (Start + 1))
  let StepSize := NumChannels
  let Range := toInt32 (End - Start)
  let SampleCount := Int.tdiv Range StepSize
  if SampleCount > MaxSamplesPerPixel then
    let Adjustment := Int.tmod Start MaxSamplesPerPixel
    (FMathClamp (toInt32 (Start - Adjustment)) 0 LookupSize,
      FMathClamp (toInt32 (End - Adjustment)) 0 LookupSize,
      toInt32 (StepSize * Int.tdiv SampleCount MaxSamplesPerPixel))
  else
    (Start, End, StepSize)

/-- The value `Sample` of line 490 for one data point of the lookup. -/
def amplitudeSample (DataPoint MaxAmplitude : Int) : Int :=
  FMathClamp (floatToInt32 ((|DataPoint| : ℚ) / 32768 * (MaxAmplitude : ℚ))) 0
    (toInt32 (MaxAmplitude - 1))

/-- The loop of lines 480-495 for one channel, started at `Index` with the sample
accumulated so far; the first argument bounds the number of iterations. -/
def sampleLoop (LookupSize : Int) (LookupData : List Int) (MaxAmplitude : Int)
    (ChannelIndex LookupEndIndex ModifiedStepSize : Int) :
    Nat → Int → FAudioSample → Except SampleFault FAudioSample
  | 0, Index, NewSample =>
    if Index < LookupEndIndex then Except.error SampleFault.NoProgress
    else Except.ok NewSample
  | fuel + 1, Index, NewSample =>
    if Index < LookupEndIndex then
      if Index < 0 ∨ Index ≥ LookupSize then
        sampleLoop LookupSize LookupData MaxAmplitude ChannelIndex LookupEndIndex
          ModifiedStepSize fuel (toInt32 (Index + ModifiedStepSize))
          { NewSample with RMS := NewSample.RMS + 0,
                           NumSamples := toInt32 (NewSample.NumSamples + 1) }
      else if toInt32 (Index + ChannelIndex) < 0 then
        Except.error SampleFault.ReadOutOfBounds
      else
        match LookupData[(toInt32 (Index + ChannelIndex)).toNat]? with
        | none => Except.error SampleFault.ReadOutOfBounds
        | some DataPoint =>
          let Sample := amplitudeSample DataPoint MaxAmplitude
          sampleLoop LookupSize LookupData MaxAmplitude ChannelIndex LookupEndIndex
            ModifiedStepSize fuel (toInt32 (Index + ModifiedStepSize))
            { RMS := NewSample.RMS + (Sample : ℚ) ^ 2,
              Peak := FMathMax NewSample.Peak Sample,
              NumSamples := toInt32 (NewSample.NumSamples + 1) }
    else Except.ok NewSample

/-- The sample that `SampleAudio` appends to `Samples[ChannelIndex]`: the loop of lines
480-495 run on a fresh `FAudioSample`, then the root mean square of lines 497-500. -/
def sampleChannel (Sqrt : ℚ → ℚ) (LookupSize : Int) (LookupData : List Int)
    (NumChannels LookupStartIndex LookupEndIndex MaxAmplitude ChannelIndex : Int) :
    Except SampleFault FAudioSample :=
  let window := sampleWindow LookupSize NumChannels LookupStartIndex LookupEndIndex
  match sampleLoop LookupSize LookupData MaxAmplitude ChannelIndex window.2.1 window.2.2
      (window.2.1 - window.1).toNat window.1 FAudioSample.zero with
  | Except.error e => Except.error e
  | Except.ok NewSample =>
    if NewSample.NumSamples ≠ 0 then
      Except.ok { NewSample with RMS := Sqrt (NewSample.RMS / (NewSample.NumSamples : ℚ)) }
    else Except.ok NewSample

/-- Method `FAudioThumbnail::SampleAudio(NumChannels, LookupData, LookupStartIndex,
LookupEndIndex, MaxAmplitude)`: the member `Samples` after the call. -/
def SampleAudio (Sqrt : ℚ → ℚ) (LookupSize : Int)
    (Samples : List FAudioSample × List FAudioSample) (NumChannels : Int)
    (LookupData : List Int) (LookupStartIndex LookupEndIndex MaxAmplitude : Int) :
    Except SampleFault (List FAudioSample × List FAudioSample) :=
  if NumChannels ≤ 0 then Except.ok Samples
  else
    match sampleChannel Sqrt LookupSize LookupData NumChannels LookupStartIndex
        LookupEndIndex MaxAmplitude 0 with
    | Except.error e => Except.error e
    | Except.ok Sample0 =>
      if NumChannels ≤ 1 then Except.ok (Samples.1 ++ [Sample0], Samples.2)
      else
        match sampleChannel Sqrt LookupSize LookupData NumChannels LookupStartIndex
            LookupEndIndex MaxAmplitude 1 with
        | Except.error e => Except.error e
        | Except.ok Sample1 =>
          if NumChannels ≤ 2 then
            Except.ok (Samples.1 ++ [Sample0], Samples.2 ++ [Sample1])
          else Except.error SampleFault.ReadOutOfBounds

/-- A lookup of 100 data points, all zero. -/
def silentLookup : List Int := List.replicate 100 0

/-! ## The waveform thumbnail: spline fitting -/

/-- A segment of the cubic spline, `FSplineSegment`: the coefficients of
`f(x) = A + Bx + Cx^2 + Dx^3`, the width and the x-position of the segment. -/
structure FSplineSegment where
  A : ℚ
  B : ℚ
  C : ℚ
  D : ℚ
  SampleSize : ℚ
  Position : ℚ
  deriving DecidableEq

/-- The value `FSplineSegment()`. -/
def FSplineSegment.zero : FSplineSegment :=
  { A := 0, B := 0, C := 0, D := 0, SampleSize := 0, Position := 0 }

/-- The local `FControlPoint` of `GenerateSpline`. -/
structure FControlPoint where
  Value : ℚ
  Position : ℚ
  SampleSize : Int
  deriving DecidableEq

/-- A zeroed `FControlPoint`, as `AddZeroed` makes it. -/
def FControlPoint.zero : FControlPoint := { Value := 0, Position := 0, SampleSize := 0 }

/-- The local `FMinimalMatrixComponent` of `GenerateSpline`: one row of the system after
elimination. -/
structure FMinimalMatrixComponent where
  DiagComponent : ℚ
  KnownConstant : ℚ
  deriving DecidableEq

/-- A zeroed `FMinimalMatrixComponent`, as `AddZeroed` makes it. -/
def FMinimalMatrixComponent.zero : FMinimalMatrixComponent :=
  { DiagComponent := 0, KnownConstant := 0 }

/-- The control points that one pass of the loop of lines 347-374 adds for the group of
column samples starting at `SampleIndex`. -/
def groupControlPoints (Sqrt : ℚ → ℚ) (Samples : List FAudioSample)
    (SamplePositionOffset : Int) (SampleIndex : Nat) : List FControlPoint :=
  let NumSamples := Samples.length
  let NumAvgs := min SmoothingAmount (NumSamples - SampleIndex)
  let RMS : ℚ := (List.range NumAvgs).foldl
    (fun acc SubIndex => acc + (Samples.getD (SampleIndex + SubIndex) FAudioSample.zero).RMS ^ 2)
    0
  let SegmentSize2 := NumAvgs / 2
  let SegmentSize1 := NumAvgs - SegmentSize2
  let RMS1 := Sqrt (RMS / (NumAvgs : ℚ))
  let StartPoint : FControlPoint :=
    { Value := (Samples.getD SampleIndex FAudioSample.zero).RMS,
      SampleSize := (SegmentSize1 : Int),
      Position := ((SampleIndex : Int) + SamplePositionOffset : Int) }
  if SegmentSize2 > 0 then
    [StartPoint,
      { Value := RMS1,
        SampleSize := (SegmentSize2 : Int),
        Position := ((SampleIndex : Int) + SamplePositionOffset + (SegmentSize1 : Int) : Int) }]
  else [StartPoint]

/-- The loop of lines 347-374 from `SampleIndex` on, with the control points made so far.
The first argument bounds the number of passes; `Samples.length` is always enough, since
every pass moves `SampleIndex` forward by `SmoothingAmount`. -/
def controlPointLoop (Sqrt : ℚ → ℚ) (Samples : List FAudioSample)
    (SamplePositionOffset : Int) : Nat → Nat → List FControlPoint → List FControlPoint
  | 0, _, ControlPoints => ControlPoints
  | fuel + 1, SampleIndex, ControlPoints =>
    if SampleIndex < Samples.length then
      controlPointLoop Sqrt Samples SamplePositionOffset fuel (SampleIndex + SmoothingAmount)
        (ControlPoints ++ groupControlPoints Sqrt Samples SamplePositionOffset SampleIndex)
    else ControlPoints

/-- The array `ControlPoints` of one channel after the loop of lines 347-374. -/
def controlPoints (Sqrt : ℚ → ℚ) (Samples : List FAudioSample)
    (SamplePositionOffset : Int) : List FControlPoint :=
  controlPointLoop Sqrt Samples SamplePositionOffset Samples.length 0 []

/-- The first row of the matrix, lines 402-403. -/
def topLeftRow (ControlPoints : List FControlPoint) : FMinimalMatrixComponent :=
  { KnownConstant := 3 * ((ControlPoints.getD 1 FControlPoint.zero).Value
      - (ControlPoints.getD 0 FControlPoint.zero).Value),
    DiagComponent := 2 }

/-- The row `Index` of the matrix as lines 408-409 compute it from `Previous`, the row
`Index - 1`. -/
def interiorRow (ControlPoints : List FControlPoint) (Previous : FMinimalMatrixComponent)
    (Index : Nat) : FMinimalMatrixComponent :=
  { KnownConstant :=
      3 * ((ControlPoints.getD (Index + 1) FControlPoint.zero).Value
          - (ControlPoints.getD (Index - 1) FControlPoint.zero).Value)
        - Previous.KnownConstant / Previous.DiagComponent,
    DiagComponent := 4 - 1 / Previous.DiagComponent }

/-- The last row of the matrix as lines 413-414 compute it from `Previous`, the row
`LastIndex - 1`. -/
def bottomRightRow (ControlPoints : List FControlPoint) (Previous : FMinimalMatrixComponent)
    (LastIndex : Nat) : FMinimalMatrixComponent :=
  { KnownConstant :=
      3 * ((ControlPoints.getD LastIndex FControlPoint.zero).Value
          - (ControlPoints.getD (LastIndex - 1) FControlPoint.zero).Value)
        - Previous.KnownConstant / Previous.DiagComponent,
    DiagComponent := 2 - 1 / Previous.DiagComponent }

/-- The loop of lines 406-410: `count` passes starting at row `Index`, each one setting
row `Index` from row `Index - 1`. -/
def eliminationLoop (ControlPoints : List FControlPoint) :
    Nat → Nat → List FMinimalMatrixComponent → List FMinimalMatrixComponent
  | 0, _, GaussianCoefficients => GaussianCoefficients
  | count + 1, Index, GaussianCoefficients =>
    eliminationLoop ControlPoints count (Index + 1)
      (GaussianCoefficients.set Index
        (interiorRow ControlPoints
          (GaussianCoefficients.getD (Index - 1) FMinimalMatrixComponent.zero) Index))

/-- The array `GaussianCoefficients` after forward elimination, lines 398-414, for at
least two control points. -/
def forwardElimination (ControlPoints : List FControlPoint) : List FMinimalMatrixComponent :=
  let LastIndex := ControlPoints.length - 1
  let Zeroed := List.replicate ControlPoints.length FMinimalMatrixComponent.zero
  let TopLeft := Zeroed.set 0 (topLeftRow ControlPoints)
  -- `for (Index = 1; Index < Num() - 1; ++Index)`
  let Eliminated := eliminationLoop ControlPoints (TopLeft.length - 2) 1 TopLeft
  Eliminated.set LastIndex
    (bottomRightRow ControlPoints
      (Eliminated.getD (LastIndex - 1) FMinimalMatrixComponent.zero) LastIndex)

/-- The derivative that line 425 computes for a row from the derivative `Next` of the
row after it. -/
def substitutedDerivative (Row : FMinimalMatrixComponent) (Next : ℚ) : ℚ :=
  (Row.KnownConstant - Next) / Row.DiagComponent

/-- The loop of lines 423-426, `for (Index = Num() - 2; Index >= 0; --Index)`: the first
argument is `Index + 1`, the number of rows still to substitute. -/
def backSubstitutionLoop (GaussianCoefficients : List FMinimalMatrixComponent) :
    Nat → List ℚ → List ℚ
  | 0, FirstOrderDerivatives => FirstOrderDerivatives
  | Index + 1, FirstOrderDerivatives =>
    backSubstitutionLoop GaussianCoefficients Index
      (FirstOrderDerivatives.set Index
        (substitutedDerivative
          (GaussianCoefficients.getD Index FMinimalMatrixComponent.zero)
          (FirstOrderDerivatives.getD (Index + 1) 0)))

/-- The array `FirstOrderDerivatives` after back-substitution, lines 418-426. -/
def backSubstitution (GaussianCoefficients : List FMinimalMatrixComponent) : List ℚ :=
  let LastIndex := GaussianCoefficients.length - 1
  let Zeroed : List ℚ := List.replicate GaussianCoefficients.length 0
  backSubstitutionLoop GaussianCoefficients (GaussianCoefficients.length - 1)
    (Zeroed.set LastIndex
      ((GaussianCoefficients.getD LastIndex FMinimalMatrixComponent.zero).KnownConstant
        / (GaussianCoefficients.getD LastIndex FMinimalMatrixComponent.zero).DiagComponent))

/-- The segment that the pass `Index` of the loop of lines 434-444 emplaces. -/
def splineSegment (ControlPoints : List FControlPoint) (FirstOrderDerivatives : List ℚ)
    (Index : Nat) : FSplineSegment :=
  { A := (ControlPoints.getD Index FControlPoint.zero).Value,
    B := FirstOrderDerivatives.getD Index 0,
    C := 3 * ((ControlPoints.getD (Index + 1) FControlPoint.zero).Value
          - (ControlPoints.getD Index FControlPoint.zero).Value)
        - 2 * FirstOrderDerivatives.getD Index 0 - FirstOrderDerivatives.getD (Index + 1) 0,
    D := 2 * ((ControlPoints.getD Index FControlPoint.zero).Value
          - (ControlPoints.getD (Index + 1) FControlPoint.zero).Value)
        + FirstOrderDerivatives.getD Index 0 + FirstOrderDerivatives.getD (Index + 1) 0,
    Position := (ControlPoints.getD Index FControlPoint.zero).Position,
    SampleSize := ((ControlPoints.getD Index FControlPoint.zero).SampleSize : ℚ) }

/-- Everything the body of the channel loop of `GenerateSpline` computes: the local arrays
(empty when the body leaves at the `continue` of line 378 before they are made) and the
channel's member array `SplineSegments[ChannelIndex]` after the pass. -/
structure ChannelSpline where
  ControlPoints : List FControlPoint
  GaussianCoefficients : List FMinimalMatrixComponent
  FirstOrderDerivatives : List ℚ
  Segments : List FSplineSegment
  deriving DecidableEq

/-- Lines 376-444 of `GenerateSpline`: the spline through the control points of one
channel, appended to the channel's `Segments`. -/
def solveSpline (ControlPoints : List FControlPoint) (Segments : List FSplineSegment) :
    ChannelSpline :=
  if ControlPoints.length ≤ 1 then
    { ControlPoints := ControlPoints, GaussianCoefficients := [],
      FirstOrderDerivatives := [], Segments := Segments }
  else
    let GaussianCoefficients := forwardElimination ControlPoints
    let FirstOrderDerivatives := backSubstitution GaussianCoefficients
    -- `for (Index = 0; Index < FirstOrderDerivatives.Num() - 2; ++Index)`
    { ControlPoints := ControlPoints, GaussianCoefficients := GaussianCoefficients,
      FirstOrderDerivatives := FirstOrderDerivatives,
      Segments := Segments ++ (List.range (FirstOrderDerivatives.length - 2)).map
        (splineSegment ControlPoints FirstOrderDerivatives) }

/-- The body of the channel loop of `FAudioThumbnail::GenerateSpline` for one channel. -/
def GenerateSplineChannel (Sqrt : ℚ → ℚ) (Samples : List FAudioSample)
    (SamplePositionOffset : Int) (Segments : List FSplineSegment) : ChannelSpline :=
  solveSpline (controlPoints Sqrt Samples SamplePositionOffset) Segments

/-- Method `FAudioThumbnail::GenerateSpline(NumChannels, SamplePositionOffset)`: the
member `SplineSegments` after the call. The model covers the channels 0 and 1 of the
two-element arrays. -/
def GenerateSpline (Sqrt : ℚ → ℚ) (Samples : List FAudioSample × List FAudioSample)
    (SplineSegments : List FSplineSegment × List FSplineSegment)
    (NumChannels SamplePositionOffset : Int) :
    List FSplineSegment × List FSplineSegment :=
  ((if 0 < NumChannels then
      (GenerateSplineChannel Sqrt Samples.1 SamplePositionOffset SplineSegments.1).Segments
    else SplineSegments.1),
   (if 1 < NumChannels then
      (GenerateSplineChannel Sqrt Samples.2 SamplePositionOffset SplineSegments.2).Segments
    else SplineSegments.2))

/-- The cubic of a segment at the normalised offset `t`: `A + B t + C t^2 + D t^3`. -/
def segmentCubic (Segment : FSplineSegment) (t : ℚ) : ℚ :=
  Segment.A + Segment.B * t + Segment.C * t ^ 2 + Segment.D * t ^ 3

/-- The value `Amplitude` of lines 271-276: the spline of a segment at the pixel
column `X`. -/
def splineAmplitude (Segment : FSplineSegment) (X : Int) : ℚ :=
  let DistBetweenPts := ((X : ℚ) - Segment.Position) / Segment.SampleSize
  Segment.A + Segment.B * DistBetweenPts + Segment.C * DistBetweenPts ^ 2
    + Segment.D * DistBetweenPts ^ 3

/-- The value `ControlPoints[Index].Value`. -/
def controlValue (ControlPoints : List FControlPoint) (Index : Nat) : ℚ :=
  (ControlPoints.getD Index FControlPoint.zero).Value

/-- Control points with the given values, one pixel wide, at the positions 0, 1, 2, ... -/
def controlPointsOfValues (values : List ℚ) : List FControlPoint :=
  (List.range values.length).map fun i =>
    { Value := values.getD i 0, Position := (i : ℚ), SampleSize := 1 }

/-! ## The waveform thumbnail: pixel colour -/

/-- A colour, `FLinearColor`. -/
structure FLinearColor where
  R : ℚ
  G : ℚ
  B : ℚ
  A : ℚ
  deriving DecidableEq

/-- The colour that line 318 hands to `DynamicTexture->SetPixel` for a pixel whose colour
before the alpha step is `Color` and whose alpha is `Alpha`: lines 307-310,
`Color.A = Alpha; Color.R *= Color.R * Alpha;` and the same for `G` and `B`. -/
def writtenColor (Color : FLinearColor) (Alpha : ℚ) : FLinearColor :=
  { A := Alpha,
    R := Color.R * (Color.R * Alpha),
    G := Color.G * (Color.G * Alpha),
    B := Color.B * (Color.B * Alpha) }

/-- The colour pre-multiplied by alpha, as the comment of line 320 and the statements it
keeps in lines 321-324 describe it: every channel times `Alpha`, and `Alpha` itself. -/
def premultipliedColor (Color : FLinearColor) (Alpha : ℚ) : FLinearColor :=
  { A := Alpha, R := Color.R * Alpha, G := Color.G * Alpha, B := Color.B * Alpha }

/-! ## View controls (UImportedSoundWaveVisualizer) -/

/-- The engine's `FMath::Clamp` on floats. -/
def FMathClampFloat (X Min Max : ℚ) : ℚ := if X < Min then Min else if X < Max then X else Max

/-- The value `Frame` of line 106 for bucket `i`, with `Percent` of line 105: every
operand is converted to `float` and every operation is a `float` operation. -/
def bucketFrame (StartFrame DeltaFrames AmplitudeBuckets : Int) (i : Nat) : Int :=
  floatToInt32 (roundToFloat (roundToFloat (roundToFloat (DeltaFrames : ℚ)
      * roundToFloat (roundToFloat (i : ℚ) / roundToFloat ((AmplitudeBuckets - 1 : Int) : ℚ)))
    + roundToFloat (StartFrame : ℚ)))

/-- The value `PCMIndex` of line 108 for a frame. -/
def bucketPCMIndex (FrameStep Frame : Int) : Int :=
  toUInt64 (FrameStep * toUInt64 Frame)

/-! ## The waveform thumbnail: control point layout and spline derivatives -/

/-- The control points tile the pixels from `Position` on: each one starts where the one
before it ends and is at least one pixel wide. -/
def Tiles : Int → List FControlPoint → Prop
  | _, [] => True
  | Position, cp :: rest =>
    cp.Position = (Position : ℚ) ∧ 1 ≤ cp.SampleSize ∧ Tiles (Position + cp.SampleSize) rest

/-- The sum of the group sizes of a list of control points. -/
def totalSampleSize : List FControlPoint → Int
  | [] => 0
  | cp :: rest => cp.SampleSize + totalSampleSize rest

/-- The first derivative of the cubic of a segment in the normalised offset `t`. -/
def segmentCubicDerivative (Segment : FSplineSegment) (t : ℚ) : ℚ :=
  Segment.B + 2 * Segment.C * t + 3 * Segment.D * t ^ 2

/-- The second derivative of the cubic of a segment in the normalised offset `t`. -/
def segmentCubicSecondDerivative (Segment : FSplineSegment) (t : ℚ) : ℚ :=
  2 * Segment.C + 6 * Segment.D * t

/-! ## The waveform thumbnail: rasterising -/

/-- The constant `StrokeBorderSize`. -/
def StrokeBorderSize : Int := 2

/-- The engine's `FMath::Max` on floats. -/
def FMathMaxFloat (A B : ℚ) : ℚ := if A ≥ B then A else B

/-- The value `Alpha` of line 301 for the pixel `PixelIndex` of a column whose spline
amplitude is `Amplitude` and whose sample has the peak `Peak`; `BoundaryEnd` is the value
of line 280 and `PixelCenter` the one of line 286. -/
def pixelAlpha (Amplitude : ℚ) (Peak PixelIndex : Int) : ℚ :=
  let BoundaryEnd := Amplitude + (StrokeBorderSize : ℚ) * (1 / 2)
  let PixelCenter := (PixelIndex : ℚ) + 1 / 2
  FMathMaxFloat (FMathClampFloat (BoundaryEnd - PixelCenter) 0 1)
    (FMathClampFloat ((Peak : ℚ) - (PixelIndex : ℚ) + 1 / 4) 0 1)

/-- The value `MaxAmplitude` of line 216. -/
def maxAmplitude (NumChannels Height : Int) : Int :=
  if NumChannels = 1 then Height else Int.tdiv Height 2

/-- The value `FirstSample` of lines 219-221 for a draw offset in pixels. -/
def firstSample (DrawOffsetPx : Int) : Int :=
  floatToInt32 (-2 * (SmoothingAmount : ℚ) - ((Int.tmod DrawOffsetPx SmoothingAmount : Int) : ℚ))

/-- The row `Y` of lines 312-316 for the pixel `PixelIndex` of a channel. -/
def pixelRow (NumChannels ChannelIndex Height PixelIndex : Int) : Int :=
  if NumChannels = 2 then
    (if ChannelIndex = 0 then toInt32 (Int.tdiv Height 2 - PixelIndex)
      else toInt32 (Int.tdiv Height 2 + PixelIndex))
  else toInt32 (toInt32 (Height - PixelIndex) - 1)

/-- One call `DynamicTexture->SetPixel(X, Y, Color)`. -/
structure PixelWrite where
  X : Int
  Y : Int
  Color : FLinearColor
  deriving DecidableEq

/-- The pixel loop of lines 284-325 for one column, from `PixelIndex` on, with the writes
made so far; the first argument bounds the number of passes. `BaseColor` is the colour of
line 298 for a pixel index before the alpha step: lines 288-298 compute it from the fill
colours, the boundary colour and `FMath::FRand()`, which the embedding takes as given. -/
def pixelLoop (BaseColor : Int → FLinearColor) (NumChannels ChannelIndex Height : Int)
    (MaxAmplitude X : Int) (Amplitude : ℚ) (Peak : Int) :
    Nat → Int → List PixelWrite → List PixelWrite
  | 0, _, writes => writes
  | fuel + 1, PixelIndex, writes =>
    if PixelIndex < MaxAmplitude then
      let Alpha := pixelAlpha Amplitude Peak PixelIndex
      if Alpha ≤ 0 then writes
      else
        pixelLoop BaseColor NumChannels ChannelIndex Height MaxAmplitude X Amplitude Peak
          fuel (toInt32 (PixelIndex + 1))
          (writes ++ [{ X := X, Y := pixelRow NumChannels ChannelIndex Height PixelIndex,
                        Color := writtenColor (BaseColor PixelIndex) Alpha }])
    else writes

/-- The loop of lines 259-263: move the segment cursor forward while the column `X` is at
or past the end of the segment under it. The first argument bounds the number of passes;
`Segments.length - SplineIndex` is always enough. -/
def advanceSplineIndex (Segments : List FSplineSegment) (X : Int) : Nat → Nat → Nat
  | 0, SplineIndex => SplineIndex
  | fuel + 1, SplineIndex =>
    if SplineIndex < Segments.length ∧
        (X : ℚ) ≥ (Segments.getD SplineIndex FSplineSegment.zero).Position
          + (Segments.getD SplineIndex FSplineSegment.zero).SampleSize then
      advanceSplineIndex Segments X fuel (SplineIndex + 1)
    else SplineIndex

/-- The ways in which the render loop leaves defined behaviour. -/
inductive RenderFault where
  /-- The index `X - FirstSample` is outside `Samples[ChannelIndex]`. -/
  | SampleOutOfBounds
  deriving DecidableEq

/-- The column loop of lines 256-326 for one channel, from the column `X` on, with the
segment cursor and the writes made so far; the first argument is the number of columns
left, `Width - X`. -/
def renderColumns (BaseColor : Int → FLinearColor) (Samples : List FAudioSample)
    (Segments : List FSplineSegment) (NumChannels ChannelIndex Height FirstSample : Int) :
    Nat → Int → Nat → List PixelWrite → Except RenderFault (List PixelWrite)
  | 0, _, _, writes => Except.ok writes
  | columns + 1, X, SplineIndex, writes =>
    let SplineIndex1 :=
      advanceSplineIndex Segments X (Segments.length - SplineIndex) SplineIndex
    -- `bOutOfRange`: the rest of the channel stays blank
    if SplineIndex1 ≥ Segments.length then Except.ok writes
    else
      let Amplitude := splineAmplitude (Segments.getD SplineIndex1 FSplineSegment.zero) X
      if toInt32 (X - FirstSample) < 0 then Except.error RenderFault.SampleOutOfBounds
      else
        match Samples[(toInt32 (X - FirstSample)).toNat]? with
        | none => Except.error RenderFault.SampleOutOfBounds
        | some Sample =>
          renderColumns BaseColor Samples Segments NumChannels ChannelIndex Height
            FirstSample columns (toInt32 (X + 1)) SplineIndex1
            (pixelLoop BaseColor NumChannels ChannelIndex Height
              (maxAmplitude NumChannels Height) X Amplitude Sample.Peak
              (maxAmplitude NumChannels Height).toNat 0 writes)

/-- The body of the channel loop of lines 252-327 of `GenerateWaveformPreview`: the pixel
writes made for one channel on a texture of `Width` by `Height` pixels. -/
def renderChannel (BaseColor : Int → FLinearColor) (Samples : List FAudioSample)
    (Segments : List FSplineSegment) (NumChannels ChannelIndex Width Height : Int)
    (FirstSample : Int) : Except RenderFault (List PixelWrite) :=
  renderColumns BaseColor Samples Segments NumChannels ChannelIndex Height FirstSample
    Width.toNat 0 0 []

/-- A colour for every pixel index, to run the render loop on: opaque white. -/
def whitePixels : Int → FLinearColor := fun _ => { R := 1, G := 1, B := 1, A := 1 }

/-- Twenty column samples with the root mean squares 0, 1, ..., 19 and the peak 2. -/
def rampSamples : List FAudioSample :=
  (List.range 20).map fun k => { RMS := (k : ℚ), Peak := 2, NumSamples := 1 }

/-! ## Sampling: the sample count of a column -/

/-- The value `SampleCount` of line 463: the number of samples per channel between the
aligned start index and the end index. -/
def sampleCount (NumChannels LookupStartIndex LookupEndIndex : Int) : Int :=
  let Start := alignedStartIndex NumChannels LookupStartIndex
  let End := FMathMax LookupEndIndex (toInt32 (Start + 1))
  Int.tdiv (toInt32 (End - Start)) NumChannels

/-! ## Long buffers -/

/-- A mono buffer of 700 seconds: 33600000 frames of silence at sample rate 48000. -/
def longWave : UImportedSoundWave :=
  newSoundWave (List.replicate 134400000 0) 33600000 1 48000 700

/-- A mono buffer of 16777220 frames of silence at sample rate 48000; its duration is the
`float` nearest to `16777220 / 48000`. -/
def wideWave : UImportedSoundWave :=
  newSoundWave (List.replicate 67108880 0) 16777220 1 48000 (roundToFloat (16777220 / 48000))

/-! ## Machine integer lemmas -/

/-- A value in the range of `uint32` converts to itself. -/
theorem toUInt32_eq_self {x : Int} (h0 : 0 ≤ x) (h1 : x < 4294967296) : toUInt32 x = x := by
  unfold toUInt32; omega

/-- A value in the range of `uint64` converts to itself. -/
theorem toUInt64_eq_self {x : Int} (h0 : 0 ≤ x) (h1 : x < 18446744073709551616) :
    toUInt64 x = x := by
  unfold toUInt64; omega

/-- A value in the range of `int32` converts to itself. -/
theorem toInt32_eq_self {x : Int} (h0 : -2147483648 ≤ x) (h1 : x < 2147483648) :
    toInt32 x = x := by
  unfold toInt32; omega

/-- The clamp of lines 176-179 never raises `NumSamples`, and keeps it non-negative. -/
theorem clampedNumSamples_bounds (w : UImportedSoundWave) (NumSamples : Int)
    (hF : w.PCMNumOfFrames < 4294967296)
    (hcur0 : 0 ≤ w.CurrentNumOfFrames) (hcurF : w.CurrentNumOfFrames ≤ w.PCMNumOfFrames)
    (hcur : w.CurrentNumOfFrames < 2147483648)
    (hC : 1 ≤ w.NumChannels) (hC32 : w.NumChannels < 2147483648)
    (hN : 0 ≤ NumSamples) (hN32 : NumSamples < 2147483648) :
    0 ≤ clampedNumSamples w NumSamples ∧ clampedNumSamples w NumSamples ≤ NumSamples := by
  unfold clampedNumSamples
  rw [toUInt32_eq_self hcur0 (by omega), toUInt32_eq_self hN (by omega),
    toUInt32_eq_self (by omega : (0 : Int) ≤ w.NumChannels) (by omega)]
  have hq0 : 0 ≤ NumSamples / w.NumChannels := Int.ediv_nonneg hN (by omega)
  have hqN : NumSamples / w.NumChannels * w.NumChannels ≤ NumSamples :=
    Int.ediv_mul_le NumSamples (by omega)
  have hqle : NumSamples / w.NumChannels ≤ NumSamples := Int.ediv_le_self _ hN
  rw [toUInt32_eq_self (by omega) (by omega)]
  split
  · rename_i hge
    have hd0 : 0 ≤ w.PCMNumOfFrames - w.CurrentNumOfFrames := by omega
    have hdq : w.PCMNumOfFrames - w.CurrentNumOfFrames ≤ NumSamples / w.NumChannels := by
      omega
    have hp0 : 0 ≤ (w.PCMNumOfFrames - w.CurrentNumOfFrames) * w.NumChannels :=
      Int.mul_nonneg hd0 (by omega)
    have hpq : (w.PCMNumOfFrames - w.CurrentNumOfFrames) * w.NumChannels
        ≤ NumSamples / w.NumChannels * w.NumChannels :=
      Int.mul_le_mul_of_nonneg_right hdq (by omega)
    rw [toUInt32_eq_self hd0 (by omega), toUInt32_eq_self hp0 (by omega),
      toInt32_eq_self (by omega) (by omega)]
    omega
  · omega

/-! ## Chunk delivery: theorems -/

/-- C1: `OnGeneratePCMAudio` never returns more samples than requested. For every sound wave
whose cursor satisfies `0 <= CurrentNumOfFrames <= PCMNumOfFrames`, every channel count
`>= 1` and every requested `NumSamples >= 0` (all values in the range of their C++ types),
the returned sample count is at most `NumSamples`. -/
theorem OnGeneratePCMAudio_returned_le_requested (w : UImportedSoundWave)
    (OutAudio : List Nat) (NumSamples : Int)
    (hF : InUInt32 w.PCMNumOfFrames) (hcur : InInt32 w.CurrentNumOfFrames)
    (hinv : CursorInv w)
    (hC : 1 ≤ w.NumChannels) (hC32 : InInt32 w.NumChannels)
    (hN : 0 ≤ NumSamples) (hN32 : InInt32 NumSamples) :
    (OnGeneratePCMAudio w OutAudio NumSamples).returned ≤ NumSamples := by
  have hb := clampedNumSamples_bounds w NumSamples hF.2 hinv.1 hinv.2 hcur.2 hC hC32.2
    hN hN32.2
  unfold OnGeneratePCMAudio
  split
  · split <;> exact hN
  · simp only []
    split
    · exact hN
    · exact hb.2


/-- The clamp of lines 176-179 in closed form. -/
theorem clampedNumSamples_eq (w : UImportedSoundWave) (NumSamples : Int)
    (hF : w.PCMNumOfFrames < 4294967296)
    (hcur0 : 0 ≤ w.CurrentNumOfFrames) (hcurF : w.CurrentNumOfFrames ≤ w.PCMNumOfFrames)
    (hcur : w.CurrentNumOfFrames < 2147483648)
    (hC : 1 ≤ w.NumChannels) (hC32 : w.NumChannels < 2147483648)
    (hN : 0 ≤ NumSamples) (hN32 : NumSamples < 2147483648) :
    clampedNumSamples w NumSamples =
      if w.CurrentNumOfFrames + NumSamples / w.NumChannels ≥ w.PCMNumOfFrames then
        (w.PCMNumOfFrames - w.CurrentNumOfFrames) * w.NumChannels
      else NumSamples := by
  unfold clampedNumSamples
  rw [toUInt32_eq_self hcur0 (by omega), toUInt32_eq_self hN (by omega),
    toUInt32_eq_self (by omega : (0 : Int) ≤ w.NumChannels) (by omega)]
  have hq0 : 0 ≤ NumSamples / w.NumChannels := Int.ediv_nonneg hN (by omega)
  have hqN : NumSamples / w.NumChannels * w.NumChannels ≤ NumSamples :=
    Int.ediv_mul_le NumSamples (by omega)
  have hqle : NumSamples / w.NumChannels ≤ NumSamples := Int.ediv_le_self _ hN
  rw [toUInt32_eq_self (by omega) (by omega)]
  split
  · have hd0 : 0 ≤ w.PCMNumOfFrames - w.CurrentNumOfFrames := by omega
    have hdq : w.PCMNumOfFrames - w.CurrentNumOfFrames ≤ NumSamples / w.NumChannels := by
      omega
    have hp0 : 0 ≤ (w.PCMNumOfFrames - w.CurrentNumOfFrames) * w.NumChannels :=
      Int.mul_nonneg hd0 (by omega)
    have hpq : (w.PCMNumOfFrames - w.CurrentNumOfFrames) * w.NumChannels
        ≤ NumSamples / w.NumChannels * w.NumChannels :=
      Int.mul_le_mul_of_nonneg_right hdq (by omega)
    rw [toUInt32_eq_self hd0 (by omega), toUInt32_eq_self hp0 (by omega),
      toInt32_eq_self (by omega) (by omega)]
  · rfl

/-- The frame cursor after a chunk request made before the last frame: the old cursor
advanced by `NumSamples / NumChannels` frames, stopped at `PCMNumOfFrames`. -/
theorem advanced_cursor (w : UImportedSoundWave) (NumSamples : Int)
    (hF : w.PCMNumOfFrames < 2147483648)
    (hcur0 : 0 ≤ w.CurrentNumOfFrames) (hcurF : w.CurrentNumOfFrames < w.PCMNumOfFrames)
    (hC : 1 ≤ w.NumChannels) (hC32 : w.NumChannels < 2147483648)
    (hN : 0 ≤ NumSamples) (hN32 : NumSamples < 2147483648) :
    toInt32 (w.CurrentNumOfFrames
        + Int.tdiv (clampedNumSamples w NumSamples) w.NumChannels) =
      w.CurrentNumOfFrames + clampedNumSamples w NumSamples / w.NumChannels ∧
    w.CurrentNumOfFrames + clampedNumSamples w NumSamples / w.NumChannels =
      (if w.CurrentNumOfFrames + NumSamples / w.NumChannels ≥ w.PCMNumOfFrames then
        w.PCMNumOfFrames
      else w.CurrentNumOfFrames + NumSamples / w.NumChannels) := by
  have hb := clampedNumSamples_bounds w NumSamples (by omega) hcur0 (by omega) (by omega)
    hC hC32 hN hN32
  have he := clampedNumSamples_eq w NumSamples (by omega) hcur0 (by omega) (by omega)
    hC hC32 hN hN32
  have hq0 : 0 ≤ NumSamples / w.NumChannels := Int.ediv_nonneg hN (by omega)
  rw [Int.tdiv_eq_ediv hb.1 (by omega)]
  have key : w.CurrentNumOfFrames + clampedNumSamples w NumSamples / w.NumChannels =
      (if w.CurrentNumOfFrames + NumSamples / w.NumChannels ≥ w.PCMNumOfFrames then
        w.PCMNumOfFrames
      else w.CurrentNumOfFrames + NumSamples / w.NumChannels) := by
    rw [he]
    split
    · rw [Int.mul_ediv_cancel _ (by omega : w.NumChannels ≠ 0)]; omega
    · rfl
  refine ⟨?_, key⟩
  rw [key]
  split
  · exact toInt32_eq_self (by omega) (by omega)
  · exact toInt32_eq_self (by omega) (by omega)

/-- Size facts that follow from the buffer and cursor invariants. -/
theorem buffer_sizes (w : UImportedSoundWave) (hB : BufferInv w) (hinv : CursorInv w) :
    w.PCMNumOfFrames * w.NumChannels * 4 < 2147483648 ∧
    w.PCMNumOfFrames ≤ w.PCMNumOfFrames * w.NumChannels ∧
    w.CurrentNumOfFrames * w.NumChannels ≤ w.PCMNumOfFrames * w.NumChannels ∧
    0 ≤ w.CurrentNumOfFrames * w.NumChannels ∧
    (0 < w.PCMNumOfFrames → w.NumChannels ≤ w.PCMNumOfFrames * w.NumChannels) := by
  obtain ⟨hF0, hC, hlen, hlt⟩ := hB
  obtain ⟨hc0, hcF⟩ := hinv
  refine ⟨by omega, ?_, ?_, ?_, ?_⟩
  · nlinarith
  · nlinarith
  · nlinarith
  · intro h; nlinarith

/-- The clamped sample count of a chunk request made before the last frame: positive
when the request is, and the slice it names ends inside the buffer. -/
theorem clampedNumSamples_slice (w : UImportedSoundWave) (NumSamples : Int)
    (hB : BufferInv w) (hcur0 : 0 ≤ w.CurrentNumOfFrames)
    (hlt : w.CurrentNumOfFrames < w.PCMNumOfFrames)
    (hN : 0 < NumSamples) (hN32 : NumSamples < 2147483648) :
    0 < clampedNumSamples w NumSamples ∧
    w.CurrentNumOfFrames * w.NumChannels + clampedNumSamples w NumSamples
      ≤ w.PCMNumOfFrames * w.NumChannels := by
  have hs := buffer_sizes w hB ⟨hcur0, by omega⟩
  obtain ⟨hF0, hC, hlen, hlen32⟩ := hB
  have he := clampedNumSamples_eq w NumSamples (by omega) hcur0 (by omega) (by omega)
    hC (by omega) (by omega) hN32
  rw [he]
  split
  · constructor
    · have : 0 < w.PCMNumOfFrames - w.CurrentNumOfFrames := by omega
      positivity
    · have : (w.PCMNumOfFrames - w.CurrentNumOfFrames) * w.NumChannels
          = w.PCMNumOfFrames * w.NumChannels - w.CurrentNumOfFrames * w.NumChannels := by
        ring
      omega
  · rename_i hnot
    refine ⟨hN, ?_⟩
    have hlt2 : NumSamples < (NumSamples / w.NumChannels + 1) * w.NumChannels :=
      Int.lt_ediv_add_one_mul_self NumSamples (by omega)
    have hq : NumSamples / w.NumChannels + 1 ≤ w.PCMNumOfFrames - w.CurrentNumOfFrames := by
      omega
    have hmul : (NumSamples / w.NumChannels + 1) * w.NumChannels
        ≤ (w.PCMNumOfFrames - w.CurrentNumOfFrames) * w.NumChannels :=
      Int.mul_le_mul_of_nonneg_right hq (by omega)
    have : (w.PCMNumOfFrames - w.CurrentNumOfFrames) * w.NumChannels
        = w.PCMNumOfFrames * w.NumChannels - w.CurrentNumOfFrames * w.NumChannels := by
      ring
    omega

/-- A chunk request made before the last frame, in closed form: the call copies the bytes
of the clamped number of samples starting at sample `CurrentNumOfFrames * NumChannels`,
advances the cursor, returns the clamped count and broadcasts the copied slice. -/
theorem OnGeneratePCMAudio_active (w : UImportedSoundWave) (OutAudio : List Nat)
    (NumSamples : Int) (hB : BufferInv w) (hcur0 : 0 ≤ w.CurrentNumOfFrames)
    (hlt : w.CurrentNumOfFrames < w.PCMNumOfFrames)
    (hN : 0 < NumSamples) (hN32 : NumSamples < 2147483648) :
    OnGeneratePCMAudio w OutAudio NumSamples =
      { wave := { w with CurrentNumOfFrames :=
                    w.CurrentNumOfFrames + clampedNumSamples w NumSamples / w.NumChannels },
        OutAudio := (w.PCMData.drop (w.CurrentNumOfFrames * w.NumChannels * 4).toNat).take
            (clampedNumSamples w NumSamples * 4).toNat,
        returned := clampedNumSamples w NumSamples,
        notifications :=
          [Notification.GeneratePCMData
            ((w.PCMData.drop (w.CurrentNumOfFrames * w.NumChannels * 4).toNat).take
              (clampedNumSamples w NumSamples * 4).toNat)] } := by
  have hs := buffer_sizes w hB ⟨hcur0, by omega⟩
  have hsl := clampedNumSamples_slice w NumSamples hB hcur0 hlt hN hN32
  have hB0 := hB
  obtain ⟨hF0, hC, hlen, hlen32⟩ := hB
  have hadv := advanced_cursor w NumSamples (by omega) hcur0 hlt hC (by omega) (by omega)
    hN32
  have hoff : retrievedOffset w = w.CurrentNumOfFrames * w.NumChannels * 4 := by
    unfold retrievedOffset
    have h1 : toUInt64 (w.CurrentNumOfFrames * w.NumChannels)
        = w.CurrentNumOfFrames * w.NumChannels := toUInt64_eq_self (by omega) (by omega)
    rw [toInt32_eq_self (by omega) (by omega), h1, toUInt64_eq_self (by omega) (by omega)]
  have hsize : retrievedSize (clampedNumSamples w NumSamples)
      = clampedNumSamples w NumSamples * 4 := by
    unfold retrievedSize
    have h1 : toUInt64 (clampedNumSamples w NumSamples) = clampedNumSamples w NumSamples :=
      toUInt64_eq_self (by omega) (by omega)
    rw [h1, toUInt64_eq_self (by omega) (by omega), toInt32_eq_self (by omega) (by omega)]
  have hne : w.PCMData ≠ [] := by
    intro h
    rw [h] at hlen
    simp at hlen
    omega
  unfold OnGeneratePCMAudio
  rw [if_neg (by rw [toUInt32_eq_self hcur0 (by omega)]; omega)]
  simp only [hoff, hsize, hadv.1]
  rw [if_neg (by
    intro h
    rcases h with h | h
    · omega
    · exact hne h.1)]

/-- No call of the playback cursor engine touches the sample buffer or its format. -/
theorem calls_keep_buffer (w : UImportedSoundWave) :
    (∀ n, SameBuffer w (ChangeCurrentFrameCount w n).2) ∧
    (∀ t, SameBuffer w (RewindPlaybackTime w t).2) ∧
    (∀ out N, SameBuffer w (OnGeneratePCMAudio w out N).wave) := by
  have hch : ∀ n, SameBuffer w (ChangeCurrentFrameCount w n).2 := by
    intro n
    unfold ChangeCurrentFrameCount
    split <;> simp [SameBuffer]
  refine ⟨hch, ?_, ?_⟩
  · intro t
    unfold RewindPlaybackTime
    split
    · simp [SameBuffer]
    · exact hch _
  · intro out N
    unfold OnGeneratePCMAudio
    split
    · split <;> simp [SameBuffer]
    · simp only []
      split <;> simp [SameBuffer]

/-- A seek to frame `n` keeps the cursor invariant. -/
theorem ChangeCurrentFrameCount_inv (w : UImportedSoundWave) (n : Int)
    (hF : w.PCMNumOfFrames < 2147483648) (hinv : CursorInv w) :
    CursorInv (ChangeCurrentFrameCount w n).2 := by
  unfold ChangeCurrentFrameCount
  split
  · exact hinv
  · rename_i h
    have h0 : 0 ≤ n := by
      by_contra hc
      exact h (Or.inl (by omega))
    have h1 : n ≤ w.PCMNumOfFrames := by
      by_contra hc
      exact h (Or.inr (by omega))
    show 0 ≤ toInt32 n ∧ toInt32 n ≤ w.PCMNumOfFrames
    rw [toInt32_eq_self (by omega) (by omega)]
    exact ⟨h0, h1⟩

/-- A chunk request keeps the cursor invariant. -/
theorem OnGeneratePCMAudio_inv (w : UImportedSoundWave) (OutAudio : List Nat)
    (NumSamples : Int) (hF : w.PCMNumOfFrames < 2147483648)
    (hC : 1 ≤ w.NumChannels) (hC32 : w.NumChannels < 2147483648)
    (hN : 0 ≤ NumSamples) (hN32 : NumSamples < 2147483648) (hinv : CursorInv w) :
    CursorInv (OnGeneratePCMAudio w OutAudio NumSamples).wave := by
  unfold OnGeneratePCMAudio
  split
  · split
    · exact hinv
    · exact hinv
  · rename_i hlt
    rw [toUInt32_eq_self hinv.1 (by have := hinv.2; omega)] at hlt
    simp only []
    split
    · exact hinv
    · have hadv := advanced_cursor w NumSamples hF hinv.1 (by omega) hC hC32 hN hN32
      have hq0 : 0 ≤ NumSamples / w.NumChannels := Int.ediv_nonneg hN (by omega)
      show 0 ≤ toInt32 _ ∧ toInt32 _ ≤ w.PCMNumOfFrames
      rw [hadv.1, hadv.2]
      have := hinv.1
      split <;> omega

/-- C2: the playback cursor invariant `0 <= CurrentNumOfFrames <= PCMNumOfFrames`. It holds
for a freshly imported sound wave, and every operation of the playback cursor engine keeps
it: `ChangeCurrentFrameCount` and `RewindPlaybackTime` with any argument, successful or
not, and `OnGeneratePCMAudio` with any `NumSamples >= 0`; in particular a chunk request
never advances the cursor past `PCMNumOfFrames`. None of the operations changes the buffer
or its frame count. The frame count is one that the `int32` cursor can hold. -/
theorem playback_cursor_invariant (w : UImportedSoundWave)
    (hF : 0 ≤ w.PCMNumOfFrames ∧ w.PCMNumOfFrames < 2147483648)
    (hC : 1 ≤ w.NumChannels ∧ w.NumChannels < 2147483648) :
    CursorInv (newSoundWave w.PCMData w.PCMNumOfFrames w.NumChannels w.SampleRate
      w.Duration) ∧
    (CursorInv w →
      (∀ n, CursorInv (ChangeCurrentFrameCount w n).2 ∧
        SameBuffer w (ChangeCurrentFrameCount w n).2) ∧
      (∀ t, CursorInv (RewindPlaybackTime w t).2 ∧
        SameBuffer w (RewindPlaybackTime w t).2) ∧
      (∀ out N, 0 ≤ N → N < 2147483648 →
        CursorInv (OnGeneratePCMAudio w out N).wave ∧
        (OnGeneratePCMAudio w out N).wave.CurrentNumOfFrames ≤ w.PCMNumOfFrames ∧
        SameBuffer w (OnGeneratePCMAudio w out N).wave)) := by
  have hk := calls_keep_buffer w
  refine ⟨⟨le_refl _, hF.1⟩, fun hinv => ⟨?_, ?_, ?_⟩⟩
  · intro n
    exact ⟨ChangeCurrentFrameCount_inv w n hF.2 hinv, hk.1 n⟩
  · intro t
    refine ⟨?_, hk.2.1 t⟩
    unfold RewindPlaybackTime
    split
    · exact hinv
    · exact ChangeCurrentFrameCount_inv w _ hF.2 hinv
  · intro out N hN hN32
    have h := OnGeneratePCMAudio_inv w out N hF.2 hC.1 hC.2 hN hN32 hinv
    have h2 := h.2
    rw [(hk.2.2 out N).2.1] at h2
    exact ⟨h, h2, hk.2.2 out N⟩

/-- C2 at the scenario buffer: a chunk request, a seek into the buffer and a seek past its
end all leave the cursor between 0 and 8. -/
theorem playback_cursor_invariant_witness :
    (0 ≤ scenarioWave.PCMNumOfFrames ∧ scenarioWave.PCMNumOfFrames < 2147483648) ∧
    (1 ≤ scenarioWave.NumChannels ∧ scenarioWave.NumChannels < 2147483648) ∧
    CursorInv scenarioWave ∧
    CursorInv (OnGeneratePCMAudio scenarioWave [] 16).wave ∧
    CursorInv (ChangeCurrentFrameCount scenarioWave 9).2 :=
  ⟨by decide, by decide, by decide,
    (((playback_cursor_invariant scenarioWave (by decide) (by decide)).2 (by decide)).2.2
      [] 16 (by decide) (by decide)).1,
    (((playback_cursor_invariant scenarioWave (by decide) (by decide)).2 (by decide)).1 9).1⟩

/-- C1 at the scenario buffer: a request for 16 samples with 8 left returns at most 16. -/
theorem OnGeneratePCMAudio_returned_le_requested_witness :
    InUInt32 scenarioWave.PCMNumOfFrames ∧ InInt32 scenarioWave.CurrentNumOfFrames ∧
    CursorInv scenarioWave ∧ 1 ≤ scenarioWave.NumChannels ∧
    InInt32 scenarioWave.NumChannels ∧ (0 : Int) ≤ 16 ∧ InInt32 16 ∧
    (OnGeneratePCMAudio scenarioWave [] 16).returned ≤ 16 :=
  ⟨by decide, by decide, by decide, by decide, by decide, by decide, by decide,
    OnGeneratePCMAudio_returned_le_requested scenarioWave [] 16 (by decide) (by decide)
      (by decide) (by decide) (by decide) (by decide) (by decide)⟩

/-- C4: a chunk request on a cursor that is not exhausted (`CurrentNumOfFrames <
PCMNumOfFrames`, `NumSamples >= NumChannels`) delivers exactly the interleaved samples
`[CurrentNumOfFrames * NumChannels, CurrentNumOfFrames * NumChannels + clamped)` of the
buffer, where `clamped` is `NumSamples` clamped so that the read does not cross the last
frame; the slice lies inside the buffer; the cursor afterwards is the old cursor plus
`clamped / NumChannels`; the slice is what the "data generated" broadcast carries. -/
theorem OnGeneratePCMAudio_delivers_slice (w : UImportedSoundWave) (OutAudio : List Nat)
    (NumSamples : Int) (hB : BufferInv w) (hcur0 : 0 ≤ w.CurrentNumOfFrames)
    (hlt : w.CurrentNumOfFrames < w.PCMNumOfFrames)
    (hNC : w.NumChannels ≤ NumSamples) (hN32 : NumSamples < 2147483648) :
    clampedNumSamples w NumSamples =
      (if w.CurrentNumOfFrames + NumSamples / w.NumChannels ≥ w.PCMNumOfFrames then
        (w.PCMNumOfFrames - w.CurrentNumOfFrames) * w.NumChannels
      else NumSamples) ∧
    0 < clampedNumSamples w NumSamples ∧
    (OnGeneratePCMAudio w OutAudio NumSamples).returned = clampedNumSamples w NumSamples ∧
    (OnGeneratePCMAudio w OutAudio NumSamples).OutAudio =
      sampleSlice w.PCMData (w.CurrentNumOfFrames * w.NumChannels)
        (clampedNumSamples w NumSamples) ∧
    ((OnGeneratePCMAudio w OutAudio NumSamples).OutAudio.length : Int) =
      clampedNumSamples w NumSamples * 4 ∧
    w.CurrentNumOfFrames * w.NumChannels + clampedNumSamples w NumSamples
      ≤ w.PCMNumOfFrames * w.NumChannels ∧
    (w.CurrentNumOfFrames * w.NumChannels + clampedNumSamples w NumSamples) * 4
      ≤ (w.PCMData.length : Int) ∧
    (OnGeneratePCMAudio w OutAudio NumSamples).wave.CurrentNumOfFrames =
      w.CurrentNumOfFrames + clampedNumSamples w NumSamples / w.NumChannels ∧
    (OnGeneratePCMAudio w OutAudio NumSamples).notifications =
      [Notification.GeneratePCMData (OnGeneratePCMAudio w OutAudio NumSamples).OutAudio] := by
  have hN : 0 < NumSamples := by have := hB.2.1; omega
  have hs := buffer_sizes w hB ⟨hcur0, by omega⟩
  have hsl := clampedNumSamples_slice w NumSamples hB hcur0 hlt hN hN32
  have he := clampedNumSamples_eq w NumSamples (by have := hB.2.2; omega) hcur0 (by omega)
    (by have := hB.2.2; omega) hB.2.1 (by have := hB.2.2; omega) (by omega) hN32
  rw [OnGeneratePCMAudio_active w OutAudio NumSamples hB hcur0 hlt hN hN32]
  obtain ⟨hF0, hC, hlen, hlen32⟩ := hB
  refine ⟨he, hsl.1, rfl, rfl, ?_, hsl.2, by omega, rfl, rfl⟩
  simp only [List.length_take, List.length_drop]
  omega

/-- C4 at the scenario buffer: with the cursor at frame 0, a request for 4 samples. -/
theorem OnGeneratePCMAudio_delivers_slice_witness :
    BufferInv scenarioWave ∧ 0 ≤ scenarioWave.CurrentNumOfFrames ∧
    scenarioWave.CurrentNumOfFrames < scenarioWave.PCMNumOfFrames ∧
    scenarioWave.NumChannels ≤ 4 ∧ (4 : Int) < 2147483648 ∧
    (OnGeneratePCMAudio scenarioWave [] 4).OutAudio =
      sampleSlice scenarioWave.PCMData
        (scenarioWave.CurrentNumOfFrames * scenarioWave.NumChannels)
        (clampedNumSamples scenarioWave 4) :=
  ⟨by decide, by decide, by decide, by decide, by decide,
    (OnGeneratePCMAudio_delivers_slice scenarioWave [] 4 (by decide) (by decide) (by decide)
      (by decide) (by decide)).2.2.2.1⟩

/-- A chunk request made with the cursor at or past the last frame: nothing is delivered,
the cursor stays, and "playback finished" is broadcast unless it already was. -/
theorem OnGeneratePCMAudio_exhausted (w : UImportedSoundWave) (OutAudio : List Nat)
    (NumSamples : Int) (h : toUInt32 w.CurrentNumOfFrames ≥ w.PCMNumOfFrames) :
    OnGeneratePCMAudio w OutAudio NumSamples =
      { wave := { w with PlaybackFinishedBroadcast := true }, OutAudio := OutAudio,
        returned := 0,
        notifications :=
          if w.PlaybackFinishedBroadcast then [] else [Notification.PlaybackFinished] } := by
  unfold OnGeneratePCMAudio
  rw [if_pos h]
  cases hb : w.PlaybackFinishedBroadcast with
  | false => simp
  | true =>
    simp only [Bool.not_true, Bool.false_eq_true, if_false, if_true]
    congr
    cases w
    simp_all

/-- The sum delivered by a play-through that starts anywhere in the buffer, for requests
of whole frames: the samples that remain. -/
theorem playThrough_remaining (NumSamples : Int) (hN : 0 < NumSamples)
    (hN32 : NumSamples < 2147483648) :
    ∀ (fuel : Nat) (w : UImportedSoundWave), BufferInv w → CursorInv w →
      w.NumChannels ∣ NumSamples →
      (w.PCMNumOfFrames - w.CurrentNumOfFrames).toNat < fuel →
      playThrough fuel w NumSamples
        = some ((w.PCMNumOfFrames - w.CurrentNumOfFrames) * w.NumChannels) := by
  intro fuel
  induction fuel with
  | zero => intro w _ _ _ h; omega
  | succ fuel ih =>
    intro w hB hinv hdvd hfuel
    have hs := buffer_sizes w hB hinv
    have hC := hB.2.1
    have hlen32 := hB.2.2
    unfold playThrough
    by_cases hlt : w.CurrentNumOfFrames < w.PCMNumOfFrames
    · have hsl := clampedNumSamples_slice w NumSamples hB hinv.1 hlt hN hN32
      have he := clampedNumSamples_eq w NumSamples (by omega) hinv.1 (by omega) (by omega)
        hC (by omega) (by omega) hN32
      have hadv := advanced_cursor w NumSamples (by omega) hinv.1 hlt hC (by omega)
        (by omega) hN32
      rw [OnGeneratePCMAudio_active w [] NumSamples hB hinv.1 hlt hN hN32]
      simp only []
      rw [if_neg (by omega)]
      -- the clamped count is a whole number of frames, at least one
      have hdvd1 : w.NumChannels ∣ clampedNumSamples w NumSamples := by
        rw [he]
        split
        · exact Dvd.intro_left _ rfl
        · exact hdvd
      have hmul : clampedNumSamples w NumSamples / w.NumChannels * w.NumChannels
          = clampedNumSamples w NumSamples := Int.ediv_mul_cancel hdvd1
      have hq1 : 1 ≤ clampedNumSamples w NumSamples / w.NumChannels := by
        by_contra hc
        have hq0 : 0 ≤ clampedNumSamples w NumSamples / w.NumChannels :=
          Int.ediv_nonneg (by omega) (by omega)
        have hz : clampedNumSamples w NumSamples / w.NumChannels = 0 := by omega
        rw [hz] at hmul
        omega
      have hle : w.CurrentNumOfFrames + clampedNumSamples w NumSamples / w.NumChannels
          ≤ w.PCMNumOfFrames := by
        rw [hadv.2]
        split <;> omega
      have hnext := ih
        { w with CurrentNumOfFrames :=
            w.CurrentNumOfFrames + clampedNumSamples w NumSamples / w.NumChannels }
        hB
        ⟨by show 0 ≤ w.CurrentNumOfFrames
              + clampedNumSamples w NumSamples / w.NumChannels
            have := hinv.1
            omega, hle⟩
        hdvd
        (by show (w.PCMNumOfFrames - (w.CurrentNumOfFrames
              + clampedNumSamples w NumSamples / w.NumChannels)).toNat < fuel
            omega)
      rw [hnext]
      simp only [Option.map_some']
      congr 1
      show clampedNumSamples w NumSamples
          + (w.PCMNumOfFrames
              - (w.CurrentNumOfFrames + clampedNumSamples w NumSamples / w.NumChannels))
            * w.NumChannels
          = (w.PCMNumOfFrames - w.CurrentNumOfFrames) * w.NumChannels
      have hexp : (w.PCMNumOfFrames
              - (w.CurrentNumOfFrames + clampedNumSamples w NumSamples / w.NumChannels))
            * w.NumChannels
          = (w.PCMNumOfFrames - w.CurrentNumOfFrames) * w.NumChannels
            - clampedNumSamples w NumSamples / w.NumChannels * w.NumChannels := by ring
      rw [hexp, hmul]
      omega
    · have heq : w.CurrentNumOfFrames = w.PCMNumOfFrames := by
        have := hinv.2
        omega
      rw [OnGeneratePCMAudio_exhausted w [] NumSamples
        (by rw [toUInt32_eq_self hinv.1 (by omega)]; omega)]
      simp [heq]

/-- C3 as stated fails: on the stereo buffer of 2 frames (4 samples), a play-through from
frame 0 with requests of 3 samples delivers 3 samples, then 2, then 0: the sum is 5, not
`PCMNumOfFrames * NumChannels = 4`, whatever the number of calls allowed. The first call
hands out the first sample of frame 1 and advances the cursor by `3 / 2 = 1` frame only,
so the second call hands that sample out again. -/
theorem playThrough_partial_frames_counterexample :
    BufferInv stereoWave ∧ 1 ≤ stereoWave.PCMNumOfFrames ∧ 1 ≤ stereoWave.NumChannels ∧
    stereoWave.CurrentNumOfFrames = 0 ∧ (0 : Int) < 3 ∧
    playThrough 3 stereoWave 3 = some 5 ∧
    (∀ fuel, playThrough fuel stereoWave 3
      ≠ some (stereoWave.PCMNumOfFrames * stereoWave.NumChannels)) := by
  refine ⟨by decide, by decide, by decide, by decide, by decide, by decide, ?_⟩
  intro fuel
  match fuel with
  | 0 => decide
  | 1 => decide
  | 2 => decide
  | k + 3 =>
    have h3 : (OnGeneratePCMAudio (OnGeneratePCMAudio
        (OnGeneratePCMAudio stereoWave [] 3).wave [] 3).wave [] 3).returned = 0 := by decide
    have h : playThrough (k + 3) stereoWave 3 = some 5 := by
      simp only [playThrough]
      rw [if_pos h3]
      decide
    rw [h]
    decide

/-- C3, amended: a full play-through with requests of whole frames delivers every sample
exactly once. For every buffer with `PCMNumOfFrames >= 1` and `NumChannels >= 1` and every
positive `NumSamples` that is a multiple of `NumChannels`, starting from frame 0 and
calling `OnGeneratePCMAudio` until the first call that returns 0, the returned counts sum
to `PCMNumOfFrames * NumChannels`; `PCMNumOfFrames + 1` calls are always enough. -/
theorem playThrough_delivers_every_sample (w : UImportedSoundWave) (NumSamples : Int)
    (fuel : Nat) (hB : BufferInv w) (hF : 1 ≤ w.PCMNumOfFrames)
    (hcur : w.CurrentNumOfFrames = 0) (hN : 0 < NumSamples)
    (hN32 : NumSamples < 2147483648) (hdvd : w.NumChannels ∣ NumSamples)
    (hfuel : w.PCMNumOfFrames.toNat < fuel) :
    playThrough fuel w NumSamples = some (w.PCMNumOfFrames * w.NumChannels) := by
  have h := playThrough_remaining NumSamples hN hN32 fuel w hB
    ⟨by omega, by omega⟩ hdvd (by rw [hcur]; simpa using hfuel)
  rw [h, hcur]
  simp

/-- C3, amended, at the stereo buffer: requests of 2 samples (one frame) sum to 4. -/
theorem playThrough_delivers_every_sample_witness :
    BufferInv stereoWave ∧ 1 ≤ stereoWave.PCMNumOfFrames ∧
    stereoWave.CurrentNumOfFrames = 0 ∧ (0 : Int) < 2 ∧ (2 : Int) < 2147483648 ∧
    stereoWave.NumChannels ∣ 2 ∧ stereoWave.PCMNumOfFrames.toNat < 3 ∧
    playThrough 3 stereoWave 2 = some (stereoWave.PCMNumOfFrames * stereoWave.NumChannels) :=
  ⟨by decide, by decide, by decide, by decide, by decide, by decide, by decide,
    playThrough_delivers_every_sample stereoWave 2 3 (by decide) (by decide) (by decide)
      (by decide) (by decide) (by decide) (by decide)⟩

/-! ## Seek and the finished broadcast: theorems -/

/-- The two outcomes of `ChangeCurrentFrameCount`: failure leaves the sound wave as it
was, success clears `PlaybackFinishedBroadcast`. -/
theorem ChangeCurrentFrameCount_outcome (w : UImportedSoundWave) (n : Int) :
    ((ChangeCurrentFrameCount w n).1 = false ∧ (ChangeCurrentFrameCount w n).2 = w) ∨
    ((ChangeCurrentFrameCount w n).1 = true ∧
      (ChangeCurrentFrameCount w n).2.PlaybackFinishedBroadcast = false) := by
  unfold ChangeCurrentFrameCount
  split
  · exact Or.inl ⟨rfl, rfl⟩
  · exact Or.inr ⟨rfl, rfl⟩

/-- The two outcomes of `RewindPlaybackTime`. -/
theorem RewindPlaybackTime_outcome (w : UImportedSoundWave) (t : ℚ) :
    ((RewindPlaybackTime w t).1 = false ∧ (RewindPlaybackTime w t).2 = w) ∨
    ((RewindPlaybackTime w t).1 = true ∧
      (RewindPlaybackTime w t).2.PlaybackFinishedBroadcast = false) := by
  unfold RewindPlaybackTime
  split
  · exact Or.inl ⟨rfl, rfl⟩
  · exact ChangeCurrentFrameCount_outcome w _

/-- A chunk request made before the last frame broadcasts no "playback finished" and
leaves `PlaybackFinishedBroadcast` as it was. -/
theorem OnGeneratePCMAudio_not_exhausted (w : UImportedSoundWave) (OutAudio : List Nat)
    (NumSamples : Int) (h : ¬ toUInt32 w.CurrentNumOfFrames ≥ w.PCMNumOfFrames) :
    (OnGeneratePCMAudio w OutAudio NumSamples).notifications.count
        Notification.PlaybackFinished = 0 ∧
    (OnGeneratePCMAudio w OutAudio NumSamples).wave.PlaybackFinishedBroadcast
      = w.PlaybackFinishedBroadcast := by
  unfold OnGeneratePCMAudio
  rw [if_neg h]
  simp only []
  split
  · exact ⟨rfl, rfl⟩
  · refine ⟨?_, rfl⟩
    simp

/-- The state of a completion cycle in progress: either nothing was broadcast, no chunk
request found the cursor exhausted and the flag is clear, or exactly one broadcast was
made, some request found the cursor exhausted and the flag is set. -/
theorem cycleSummaries_invariant (cs : List Call) :
    ∀ (w : UImportedSoundWave) (finished : Nat) (exhausted : Bool),
      ((w.PlaybackFinishedBroadcast = false ∧ finished = 0 ∧ exhausted = false) ∨
        (w.PlaybackFinishedBroadcast = true ∧ finished = 1 ∧ exhausted = true)) →
      ∀ p ∈ cycleSummaries w finished exhausted cs, p.1 = if p.2 then 1 else 0 := by
  induction cs with
  | nil =>
    intro w f e hinv p hp
    simp only [cycleSummaries, List.mem_singleton] at hp
    subst hp
    rcases hinv with ⟨_, hf, he⟩ | ⟨_, hf, he⟩ <;> simp [hf, he]
  | cons c cs ih =>
    intro w f e hinv p hp
    have hclosed : (f, e).1 = if (f, e).2 then 1 else 0 := by
      rcases hinv with ⟨_, hf, he⟩ | ⟨_, hf, he⟩ <;> simp [hf, he]
    -- a seek either starts a new cycle or changes nothing
    have hseek : ∀ (r : Bool × UImportedSoundWave),
        ((r.1 = false ∧ r.2 = w) ∨ (r.1 = true ∧ r.2.PlaybackFinishedBroadcast = false)) →
        p ∈ (if r.1 then (f, e) :: cycleSummaries r.2 0 false cs
              else cycleSummaries r.2 (f + 0) (e || false) cs) →
        p.1 = if p.2 then 1 else 0 := by
      intro r hr hmem
      rcases hr with ⟨h1, h2⟩ | ⟨h1, h2⟩
      · rw [h1, h2] at hmem
        simp only [Bool.false_eq_true, if_false, Nat.add_zero, Bool.or_false] at hmem
        exact ih w f e hinv p hmem
      · rw [h1] at hmem
        simp only [if_true, List.mem_cons] at hmem
        rcases hmem with hmem | hmem
        · rw [hmem]; exact hclosed
        · exact ih r.2 0 false (Or.inl ⟨h2, rfl, rfl⟩) p hmem
    cases c with
    | Rewind t =>
      exact hseek (RewindPlaybackTime w t) (RewindPlaybackTime_outcome w t) hp
    | ChangeFrame n =>
      exact hseek (ChangeCurrentFrameCount w (toUInt32 n))
        (ChangeCurrentFrameCount_outcome w _) hp
    | Generate out n =>
      simp only [cycleSummaries, perform, Bool.false_eq_true, if_false] at hp
      by_cases hex : toUInt32 w.CurrentNumOfFrames ≥ w.PCMNumOfFrames
      · rw [OnGeneratePCMAudio_exhausted w out n hex] at hp
        simp only [hex, decide_True, Bool.or_true] at hp
        refine ih _ _ _ (Or.inr ⟨rfl, ?_, rfl⟩) p hp
        rcases hinv with ⟨hb, hf, _⟩ | ⟨hb, hf, _⟩ <;> simp [hb, hf]
      · have hne := OnGeneratePCMAudio_not_exhausted w out n hex
        rw [hne.1] at hp
        simp only [hex, decide_False, Bool.or_false, Nat.add_zero] at hp
        refine ih _ _ _ ?_ p hp
        rw [hne.2]
        exact hinv

/-- C5: the "playback finished" broadcast fires exactly once per completion cycle. Run any
sequence of seeks (`RewindPlaybackTime`, `ChangeCurrentFrameCount`) and chunk requests on
a freshly imported sound wave, broadcasts dispatched in call order. In every cycle, that
is between two successful seeks, before the first one or after the last one, the number
of broadcasts is 1 if some chunk request of the cycle was made with the cursor at or past
the last frame, however many such requests the cycle holds, and 0 otherwise. A successful
seek clears `PlaybackFinishedBroadcast`, which re-arms the broadcast. -/
theorem finished_once_per_cycle (PCMData : List Nat)
    (PCMNumOfFrames NumChannels SampleRate : Int) (Duration : ℚ) (calls : List Call) :
    (∀ p ∈ cycleSummaries
          (newSoundWave PCMData PCMNumOfFrames NumChannels SampleRate Duration) 0 false calls,
        p.1 = if p.2 then 1 else 0) ∧
    (∀ (w : UImportedSoundWave) (t : ℚ), (RewindPlaybackTime w t).1 = true →
        (RewindPlaybackTime w t).2.PlaybackFinishedBroadcast = false) ∧
    (∀ (w : UImportedSoundWave) (n : Int), (ChangeCurrentFrameCount w n).1 = true →
        (ChangeCurrentFrameCount w n).2.PlaybackFinishedBroadcast = false) := by
  refine ⟨cycleSummaries_invariant calls _ 0 false (Or.inl ⟨rfl, rfl, rfl⟩), ?_, ?_⟩
  · intro w t h
    rcases RewindPlaybackTime_outcome w t with ⟨h1, _⟩ | ⟨_, h2⟩
    · rw [h] at h1; cases h1
    · exact h2
  · intro w n h
    rcases ChangeCurrentFrameCount_outcome w n with ⟨h1, _⟩ | ⟨_, h2⟩
    · rw [h] at h1; cases h1
    · exact h2

/-- C5 at the scenario buffer: three requests of 8 samples (the last two find the cursor
exhausted), a seek back to 0 and one more request give two cycles, the first with exactly
one broadcast, the second with none. -/
theorem finished_once_per_cycle_witness :
    cycleSummaries scenarioWave 0 false
        [Call.Generate [] 8, Call.Generate [] 8, Call.Generate [] 8, Call.Rewind 0,
          Call.Generate [] 4] = [(1, true), (0, false)] ∧
    (∀ p ∈ cycleSummaries scenarioWave 0 false
        [Call.Generate [] 8, Call.Generate [] 8, Call.Generate [] 8, Call.Rewind 0,
          Call.Generate [] 4], p.1 = if p.2 then 1 else 0) :=
  ⟨by decide!, (finished_once_per_cycle _ 8 1 8 1 _).1⟩

/-- C6, the code at a failing input: on the buffer of 33600000 frames at sample rate 48000,
whose duration is 700 seconds, a seek to the `float` time `t = 5734399 / 8192`
(699.9998779296875 seconds, inside the buffer) returns true and clears the finished flag,
but the `float` product `t * SampleRate`, whose exact value is 33599994.140625, is rounded
to 33599996, where the spacing of `float` is 4: the cursor lands on the frame 33599996 and
not on 33599994, and `GetPlaybackTime()` is `11468799 / 16384`, which is above `t` and
more than two frame times away from it. -/
theorem RewindPlaybackTime_overshoots :
    0 < longWave.SampleRate ∧ BufferInv longWave ∧
    longWave.Duration = (longWave.PCMNumOfFrames : ℚ) / (longWave.SampleRate : ℚ) ∧
    (0 : ℚ) ≤ 5734399 / 8192 ∧ (5734399 / 8192 : ℚ) ≤ longWave.Duration ∧
    roundToFloat (5734399 / 8192) = 5734399 / 8192 ∧
    (RewindPlaybackTime longWave (5734399 / 8192)).1 = true ∧
    (RewindPlaybackTime longWave (5734399 / 8192)).2.PlaybackFinishedBroadcast = false ∧
    ⌊(5734399 / 8192 : ℚ) * (longWave.SampleRate : ℚ)⌋ = 33599994 ∧
    roundToFloat ((5734399 / 8192 : ℚ) * (longWave.SampleRate : ℚ)) = 33599996 ∧
    (RewindPlaybackTime longWave (5734399 / 8192)).2.CurrentNumOfFrames = 33599996 ∧
    GetPlaybackTime (RewindPlaybackTime longWave (5734399 / 8192)).2 = 11468799 / 16384 ∧
    ¬ (GetPlaybackTime (RewindPlaybackTime longWave (5734399 / 8192)).2 ≤ 5734399 / 8192) ∧
    GetPlaybackTime (RewindPlaybackTime longWave (5734399 / 8192)).2 - 5734399 / 8192
      > 2 * (1 / (longWave.SampleRate : ℚ)) := by
  have hlen : (longWave.PCMData.length : Int) = 134400000 := by
    show (((List.replicate 134400000 0 : List Nat)).length : Int) = 134400000
    rw [List.length_replicate]
    rfl
  have hB : BufferInv longWave := by
    refine ⟨by decide, by decide, ?_, ?_⟩
    · rw [hlen]
      decide
    · rw [hlen]
      decide
  have hcur : (RewindPlaybackTime longWave (5734399 / 8192)).2.CurrentNumOfFrames
      = 33599996 := by decide!
  have hget : GetPlaybackTime (RewindPlaybackTime longWave (5734399 / 8192)).2
      = 11468799 / 16384 := by
    unfold GetPlaybackTime
    rw [hcur]
    decide!
  refine ⟨by decide, hB, by decide!, by decide!, by decide!, by decide!, by decide!,
    by decide!, by decide!, by decide!, hcur, hget, ?_, ?_⟩
  · rw [hget]
    decide!
  · rw [hget]
    decide!

/-- C7: a failed seek is atomic. Whenever the target time exceeds `Duration`, or the frame
index exceeds `PCMNumOfFrames` (handed to `ChangeCurrentFrameCount` directly or computed
by `RewindPlaybackTime` from the time), the call returns false and leaves the sound wave,
so `CurrentNumOfFrames` and `PlaybackFinishedBroadcast`, unchanged. -/
theorem seek_failure_atomic (w : UImportedSoundWave) (t : ℚ) (n : Int) :
    (t > w.Duration → RewindPlaybackTime w t = (false, w)) ∧
    (n > w.PCMNumOfFrames → ChangeCurrentFrameCount w n = (false, w)) ∧
    (floatToUInt32 (roundToFloat (t * roundToFloat (w.SampleRate : ℚ))) > w.PCMNumOfFrames →
      RewindPlaybackTime w t = (false, w)) ∧
    (∀ r, (RewindPlaybackTime w t).1 = false → r = (RewindPlaybackTime w t).2 →
      r.CurrentNumOfFrames = w.CurrentNumOfFrames ∧
      r.PlaybackFinishedBroadcast = w.PlaybackFinishedBroadcast) := by
  have hch : ∀ m, m > w.PCMNumOfFrames → ChangeCurrentFrameCount w m = (false, w) := by
    intro m hm
    unfold ChangeCurrentFrameCount
    rw [if_pos (Or.inr hm)]
  refine ⟨?_, hch n, ?_, ?_⟩
  · intro ht
    unfold RewindPlaybackTime
    rw [if_pos ht]
  · intro hn
    unfold RewindPlaybackTime
    split
    · rfl
    · exact hch _ hn
  · intro r hfalse hr
    rcases RewindPlaybackTime_outcome w t with ⟨_, h2⟩ | ⟨h1, _⟩
    · rw [hr, h2]
      exact ⟨rfl, rfl⟩
    · rw [hfalse] at h1; cases h1

/-- C7 at the ten-second buffer: `seek(100)` fails and changes nothing, also when the
cursor is in mid-play and the finished flag is set. -/
theorem seek_failure_atomic_witness :
    (100 : ℚ) > tenSecondWave.Duration ∧
    RewindPlaybackTime tenSecondWave 100 = (false, tenSecondWave) ∧
    RewindPlaybackTime
        { tenSecondWave with CurrentNumOfFrames := 40, PlaybackFinishedBroadcast := true } 100
      = (false,
        { tenSecondWave with CurrentNumOfFrames := 40, PlaybackFinishedBroadcast := true }) :=
  ⟨by decide!, (seek_failure_atomic tenSecondWave 100 0).1 (by decide!),
    (seek_failure_atomic
      { tenSecondWave with CurrentNumOfFrames := 40, PlaybackFinishedBroadcast := true }
      100 0).1 (by decide!)⟩

/-- C8: the scenario. On the mono buffer of 8 frames at sample rate 8 holding
`[0,1,0,-1,0,1,0,-1]`, starting at frame 0: the first request for 4 samples returns 4,
delivers the frames 0..3 and leaves the cursor at 4; the second returns 4, delivers the
frames 4..7 and leaves the cursor at 8; the third returns 0, delivers nothing, leaves the
cursor at 8 and broadcasts "playback finished" exactly once; a fourth request broadcasts
nothing more. -/
theorem scenario_three_pulls :
    (scenarioPull1.returned = 4 ∧
      scenarioPull1.OutAudio = floatZero ++ floatOne ++ floatZero ++ floatMinusOne ∧
      scenarioPull1.OutAudio = sampleSlice scenarioWave.PCMData 0 4 ∧
      scenarioPull1.wave.CurrentNumOfFrames = 4 ∧
      scenarioPull1.notifications = [Notification.GeneratePCMData scenarioPull1.OutAudio]) ∧
    (scenarioPull2.returned = 4 ∧
      scenarioPull2.OutAudio = floatZero ++ floatOne ++ floatZero ++ floatMinusOne ∧
      scenarioPull2.OutAudio = sampleSlice scenarioWave.PCMData 4 4 ∧
      scenarioPull2.wave.CurrentNumOfFrames = 8 ∧
      scenarioPull2.notifications = [Notification.GeneratePCMData scenarioPull2.OutAudio]) ∧
    (scenarioPull3.returned = 0 ∧
      scenarioPull3.OutAudio = scenarioPull2.OutAudio ∧
      scenarioPull3.wave.CurrentNumOfFrames = 8 ∧
      scenarioPull3.notifications = [Notification.PlaybackFinished]) ∧
    (scenarioPull4.returned = 0 ∧
      scenarioPull4.wave.CurrentNumOfFrames = 8 ∧
      scenarioPull4.notifications = []) := by
  decide

/-! ## Envelope extraction: theorems -/

/-- The outcomes of `GetRenderData`: failure with the output untouched exactly on an
invalid request, and success or a fault otherwise. -/
theorem GetRenderData_outcome (w : UImportedSoundWave) (Channel : Int)
    (StartTime TimeLength : ℚ) (AmplitudeBuckets : Int) (OutAmplitudes : List ℚ) :
    ((Channel < 0 ∨ Channel ≥ w.NumChannels ∨ StartTime < 0 ∨ TimeLength ≤ 0 ∨
        AmplitudeBuckets < 1 ∨ w.PCMNumOfFrames < 2) ∧
      GetRenderData w Channel StartTime TimeLength AmplitudeBuckets OutAmplitudes
        = Except.ok (false, OutAmplitudes)) ∨
    (¬ (Channel < 0 ∨ Channel ≥ w.NumChannels ∨ StartTime < 0 ∨ TimeLength ≤ 0 ∨
        AmplitudeBuckets < 1 ∨ w.PCMNumOfFrames < 2) ∧
      ((∃ out, GetRenderData w Channel StartTime TimeLength AmplitudeBuckets OutAmplitudes
          = Except.ok (true, out)) ∨
        (∃ e, GetRenderData w Channel StartTime TimeLength AmplitudeBuckets OutAmplitudes
          = Except.error e))) := by
  unfold GetRenderData
  by_cases h1 : Channel < 0
  · exact Or.inl ⟨Or.inl h1, by rw [if_pos h1]⟩
  by_cases h2 : Channel ≥ w.NumChannels
  · exact Or.inl ⟨Or.inr (Or.inl h2), by rw [if_neg h1, if_pos h2]⟩
  by_cases h3 : StartTime < 0 ∨ TimeLength ≤ 0
  · refine Or.inl ⟨?_, by rw [if_neg h1, if_neg h2, if_pos h3]⟩
    rcases h3 with h3 | h3
    · exact Or.inr (Or.inr (Or.inl h3))
    · exact Or.inr (Or.inr (Or.inr (Or.inl h3)))
  by_cases h4 : w.PCMNumOfFrames < 2
  · exact Or.inl ⟨Or.inr (Or.inr (Or.inr (Or.inr (Or.inr h4)))),
      by rw [if_neg h1, if_neg h2, if_neg h3, if_pos h4]⟩
  by_cases h5 : AmplitudeBuckets < 1
  · exact Or.inl ⟨Or.inr (Or.inr (Or.inr (Or.inr (Or.inl h5)))),
      by rw [if_neg h1, if_neg h2, if_neg h3, if_neg h4, if_pos h5]⟩
  refine Or.inr ⟨?_, ?_⟩
  · intro h
    rcases h with h | h | h | h | h | h
    · exact h1 h
    · exact h2 h
    · exact h3 (Or.inl h)
    · exact h3 (Or.inr h)
    · exact h5 h
    · exact h4 h
  · rw [if_neg h1, if_neg h2, if_neg h3, if_neg h4, if_neg h5]
    simp only []
    split
    · exact Or.inl ⟨_, rfl⟩
    · exact Or.inr ⟨_, rfl⟩

/-- C9: `GetRenderData` returns failure if and only if `Channel` is outside
`[0, NumChannels)`, or `StartTime < 0`, or `TimeLength <= 0`, or `AmplitudeBuckets < 1`, or
the buffer has fewer than 2 frames; and on every failure `OutAmplitudes` is left exactly
as it was passed in. -/
theorem GetRenderData_failure_iff (w : UImportedSoundWave) (Channel : Int)
    (StartTime TimeLength : ℚ) (AmplitudeBuckets : Int) (OutAmplitudes : List ℚ) :
    ((∃ out, GetRenderData w Channel StartTime TimeLength AmplitudeBuckets OutAmplitudes
        = Except.ok (false, out)) ↔
      (Channel < 0 ∨ Channel ≥ w.NumChannels ∨ StartTime < 0 ∨ TimeLength ≤ 0 ∨
        AmplitudeBuckets < 1 ∨ w.PCMNumOfFrames < 2)) ∧
    (∀ out, GetRenderData w Channel StartTime TimeLength AmplitudeBuckets OutAmplitudes
        = Except.ok (false, out) → out = OutAmplitudes) := by
  rcases GetRenderData_outcome w Channel StartTime TimeLength AmplitudeBuckets OutAmplitudes
    with ⟨hc, hr⟩ | ⟨hc, hr⟩
  · rw [hr]
    refine ⟨⟨fun _ => hc, fun _ => ⟨_, rfl⟩⟩, ?_⟩
    intro out h
    injection h with h
    injection h with _ h2
    exact h2.symm
  · rcases hr with ⟨o, hr⟩ | ⟨e, hr⟩
    · rw [hr]
      refine ⟨⟨?_, fun h => absurd h hc⟩, ?_⟩
      · rintro ⟨out, h⟩
        injection h with h
        injection h with h1 _
        cases h1
      · intro out h
        injection h with h
        injection h with h1 _
        cases h1
    · rw [hr]
      refine ⟨⟨?_, fun h => absurd h hc⟩, ?_⟩
      · rintro ⟨out, h⟩
        cases h
      · intro out h
        cases h

/-- The loop of `GetRenderData` writes into `OutAmplitudes` in place: the length stays. -/
theorem fillAmplitudes_length (w : UImportedSoundWave)
    (StartFrame DeltaFrames FrameStep AmplitudeBuckets : Int) (indices : List Nat) :
    ∀ (OutAmplitudes out : List ℚ),
      fillAmplitudes w StartFrame DeltaFrames FrameStep AmplitudeBuckets indices OutAmplitudes
        = Except.ok out → out.length = OutAmplitudes.length := by
  induction indices with
  | nil =>
    intro OutAmplitudes out h
    simp only [fillAmplitudes] at h
    injection h with h
    rw [← h]
  | cons i rest ih =>
    intro OutAmplitudes out h
    simp only [fillAmplitudes] at h
    split at h
    · rw [ih _ _ h, List.length_set]
    · cases h

/-- A successful `GetRenderData` leaves `OutAmplitudes` longer by `AmplitudeBuckets`
values than it was passed in. -/
theorem GetRenderData_length (w : UImportedSoundWave) (Channel : Int)
    (StartTime TimeLength : ℚ) (AmplitudeBuckets : Int) (OutAmplitudes out : List ℚ)
    (h : GetRenderData w Channel StartTime TimeLength AmplitudeBuckets OutAmplitudes
      = Except.ok (true, out)) :
    out.length = OutAmplitudes.length + AmplitudeBuckets.toNat := by
  unfold GetRenderData at h
  split at h
  · cases h
  split at h
  · cases h
  split at h
  · cases h
  split at h
  · cases h
  split at h
  · cases h
  simp only [] at h
  split at h
  · rename_i o ho
    injection h with h
    injection h with _ h2
    rw [← h2, fillAmplitudes_length _ _ _ _ _ _ _ _ ho, List.length_append,
      List.length_replicate]
  · cases h

/-- C10, the code at a failing input: on the 2-frame mono buffer, a valid request for 2
buckets made with an `OutAmplitudes` that already holds one value succeeds and leaves 3
values in it, not 2: `AddZeroed` appends two entries to the one that is there, and the
loop then writes the two amplitudes at the indices 0 and 1. -/
theorem GetRenderData_nonempty_output :
    GetRenderData rampWave 0 0 1 2 [7] = Except.ok (true, [129 / 128, 643 / 128, 0]) ∧
    ([129 / 128, 643 / 128, 0] : List ℚ).length = 1 + 2 ∧
    GetRenderData rampWave 0 0 1 2 [] = Except.ok (true, [129 / 128, 643 / 128]) := by
  decide!


/-! ## Spline fitting: theorems -/

/-- Reading the element that was just set. -/
theorem getD_set_self {α : Type} (l : List α) (i : Nat) (a d : α) (h : i < l.length) :
    (l.set i a).getD i d = a := by
  simp [List.getD_eq_getElem?_getD, List.getElem?_set, h]

/-- Reading an element other than the one that was set. -/
theorem getD_set_other {α : Type} (l : List α) (i j : Nat) (a d : α) (h : i ≠ j) :
    (l.set i a).getD j d = l.getD j d := by
  simp [List.getD_eq_getElem?_getD, List.getElem?_set_ne h]

/-- The elimination loop row by row: it keeps the length, leaves the rows outside
`[Index, Index + count)` alone and sets each row inside from the row before it. -/
theorem eliminationLoop_rows (ControlPoints : List FControlPoint) (count : Nat) :
    ∀ (Index : Nat) (G : List FMinimalMatrixComponent), 1 ≤ Index →
      (eliminationLoop ControlPoints count Index G).length = G.length ∧
      (∀ j, j < Index →
        (eliminationLoop ControlPoints count Index G).getD j FMinimalMatrixComponent.zero
          = G.getD j FMinimalMatrixComponent.zero) ∧
      (∀ j, Index + count ≤ j →
        (eliminationLoop ControlPoints count Index G).getD j FMinimalMatrixComponent.zero
          = G.getD j FMinimalMatrixComponent.zero) ∧
      (∀ j, Index ≤ j → j < Index + count → j < G.length →
        (eliminationLoop ControlPoints count Index G).getD j FMinimalMatrixComponent.zero
          = interiorRow ControlPoints
              ((eliminationLoop ControlPoints count Index G).getD (j - 1)
                FMinimalMatrixComponent.zero) j) := by
  induction count with
  | zero =>
    intro Index G _
    refine ⟨rfl, fun _ _ => rfl, fun _ _ => rfl, ?_⟩
    intro j h1 h2 _
    omega
  | succ count ih =>
    intro Index G hIndex
    obtain ⟨hlen, hlow, hhigh, hrow⟩ := ih (Index + 1)
      (G.set Index (interiorRow ControlPoints
        (G.getD (Index - 1) FMinimalMatrixComponent.zero) Index)) (by omega)
    simp only [eliminationLoop]
    refine ⟨?_, ?_, ?_, ?_⟩
    · rw [hlen, List.length_set]
    · intro j hj
      rw [hlow j (by omega), getD_set_other _ _ _ _ _ (by omega)]
    · intro j hj
      rw [hhigh j (by omega), getD_set_other _ _ _ _ _ (by omega)]
    · intro j h1 h2 h3
      by_cases hj : j = Index
      · subst hj
        rw [hlow j (by omega), getD_set_self _ _ _ _ h3, hlow (j - 1) (by omega),
          getD_set_other _ _ _ _ _ (by omega)]
      · exact hrow j (by omega) (by omega) (by rw [List.length_set]; exact h3)

/-- The back-substitution loop row by row: it keeps the length, leaves the entries from
`Index` on alone and sets each entry below from the entry after it. -/
theorem backSubstitutionLoop_rows (G : List FMinimalMatrixComponent) (Index : Nat) :
    ∀ (D : List ℚ),
      (backSubstitutionLoop G Index D).length = D.length ∧
      (∀ j, Index ≤ j → (backSubstitutionLoop G Index D).getD j 0 = D.getD j 0) ∧
      (∀ j, j < Index → j < D.length →
        (backSubstitutionLoop G Index D).getD j 0
          = substitutedDerivative (G.getD j FMinimalMatrixComponent.zero)
              ((backSubstitutionLoop G Index D).getD (j + 1) 0)) := by
  induction Index with
  | zero =>
    intro D
    refine ⟨rfl, fun _ _ => rfl, ?_⟩
    intro j h
    omega
  | succ k ih =>
    intro D
    obtain ⟨hlen, hhigh, hrow⟩ := ih (D.set k (substitutedDerivative
      (G.getD k FMinimalMatrixComponent.zero) (D.getD (k + 1) 0)))
    simp only [backSubstitutionLoop]
    refine ⟨?_, ?_, ?_⟩
    · rw [hlen, List.length_set]
    · intro j hj
      rw [hhigh j (by omega), getD_set_other _ _ _ _ _ (by omega)]
    · intro j h1 h2
      by_cases hj : j = k
      · subst hj
        rw [hhigh j (by omega), getD_set_self _ _ _ _ h2, hhigh (j + 1) (by omega),
          getD_set_other _ _ _ _ _ (by omega)]
      · exact hrow j (by omega) (by rw [List.length_set]; exact h2)

/-- Forward elimination row by row, for at least two control points: the first row, the
interior rows and the last row are the ones of lines 402-414. -/
theorem forwardElimination_rows (ControlPoints : List FControlPoint)
    (hn : 2 ≤ ControlPoints.length) :
    (forwardElimination ControlPoints).length = ControlPoints.length ∧
    (forwardElimination ControlPoints).getD 0 FMinimalMatrixComponent.zero
      = topLeftRow ControlPoints ∧
    (∀ j, 1 ≤ j → j + 1 < ControlPoints.length →
      (forwardElimination ControlPoints).getD j FMinimalMatrixComponent.zero
        = interiorRow ControlPoints
            ((forwardElimination ControlPoints).getD (j - 1) FMinimalMatrixComponent.zero)
            j) ∧
    (forwardElimination ControlPoints).getD (ControlPoints.length - 1)
        FMinimalMatrixComponent.zero
      = bottomRightRow ControlPoints
          ((forwardElimination ControlPoints).getD (ControlPoints.length - 2)
            FMinimalMatrixComponent.zero)
          (ControlPoints.length - 1) := by
  have hlen0 : ((List.replicate ControlPoints.length FMinimalMatrixComponent.zero).set 0
      (topLeftRow ControlPoints)).length = ControlPoints.length := by
    rw [List.length_set, List.length_replicate]
  obtain ⟨hlen, hlow, hhigh, hrow⟩ := eliminationLoop_rows ControlPoints
    (ControlPoints.length - 2) 1
    ((List.replicate ControlPoints.length FMinimalMatrixComponent.zero).set 0
      (topLeftRow ControlPoints)) (le_refl 1)
  rw [hlen0] at hlen
  have hsub : ControlPoints.length - 1 - 1 = ControlPoints.length - 2 := by omega
  simp only [forwardElimination, hlen0, hsub]
  refine ⟨?_, ?_, ?_, ?_⟩
  · rw [List.length_set, hlen]
  · rw [getD_set_other _ _ _ _ _ (by omega), hlow 0 (by omega),
      getD_set_self _ _ _ _ (by rw [List.length_replicate]; omega)]
  · intro j h1 h2
    rw [getD_set_other _ _ _ _ _ (by omega), getD_set_other _ _ _ _ _ (by omega)]
    exact hrow j h1 (by omega) (by rw [hlen0]; omega)
  · rw [getD_set_self _ _ _ _ (by rw [hlen]; omega), getD_set_other _ _ _ _ _ (by omega)]

/-- Back-substitution row by row: the last derivative is `KnownConstant / DiagComponent`
of the last row, every other one comes from the derivative after it. -/
theorem backSubstitution_rows (G : List FMinimalMatrixComponent) (hn : 1 ≤ G.length) :
    (backSubstitution G).length = G.length ∧
    (backSubstitution G).getD (G.length - 1) 0
      = (G.getD (G.length - 1) FMinimalMatrixComponent.zero).KnownConstant
        / (G.getD (G.length - 1) FMinimalMatrixComponent.zero).DiagComponent ∧
    (∀ j, j + 1 < G.length →
      (backSubstitution G).getD j 0
        = substitutedDerivative (G.getD j FMinimalMatrixComponent.zero)
            ((backSubstitution G).getD (j + 1) 0)) := by
  obtain ⟨hlen, hhigh, hrow⟩ := backSubstitutionLoop_rows G (G.length - 1)
    ((List.replicate G.length (0 : ℚ)).set (G.length - 1)
      ((G.getD (G.length - 1) FMinimalMatrixComponent.zero).KnownConstant
        / (G.getD (G.length - 1) FMinimalMatrixComponent.zero).DiagComponent))
  simp only [backSubstitution]
  refine ⟨?_, ?_, ?_⟩
  · rw [hlen, List.length_set, List.length_replicate]
  · rw [hhigh _ (le_refl _), getD_set_self _ _ _ _ (by rw [List.length_replicate]; omega)]
  · intro j hj
    exact hrow j (by omega) (by rw [List.length_set, List.length_replicate]; omega)

/-- The diagonal of the eliminated matrix: 2 in the first row, at least 2 and below 4 in
every row but the last, at least 7/2 in the interior rows, at least 3/2 in the last row. -/
theorem forwardElimination_diagonal (ControlPoints : List FControlPoint)
    (hn : 2 ≤ ControlPoints.length) :
    ((forwardElimination ControlPoints).getD 0 FMinimalMatrixComponent.zero).DiagComponent
      = 2 ∧
    (∀ j, j + 1 < ControlPoints.length →
      2 ≤ ((forwardElimination ControlPoints).getD j
            FMinimalMatrixComponent.zero).DiagComponent ∧
      ((forwardElimination ControlPoints).getD j
            FMinimalMatrixComponent.zero).DiagComponent < 4 ∧
      (1 ≤ j → 7 / 2 ≤ ((forwardElimination ControlPoints).getD j
            FMinimalMatrixComponent.zero).DiagComponent)) ∧
    3 / 2 ≤ ((forwardElimination ControlPoints).getD (ControlPoints.length - 1)
            FMinimalMatrixComponent.zero).DiagComponent := by
  obtain ⟨_, htop, hrow, hlast⟩ := forwardElimination_rows ControlPoints hn
  have h0 : ((forwardElimination ControlPoints).getD 0
      FMinimalMatrixComponent.zero).DiagComponent = 2 := by
    rw [htop]; rfl
  have hstep : ∀ d : ℚ, 2 ≤ d → 7 / 2 ≤ 4 - 1 / d ∧ 4 - 1 / d < 4 := by
    intro d hd
    have hpos : 0 < 1 / d := one_div_pos.mpr (by linarith)
    have hle : 1 / d ≤ 1 / 2 := one_div_le_one_div_of_le (by norm_num) hd
    constructor <;> linarith
  have hall : ∀ j, j + 1 < ControlPoints.length →
      2 ≤ ((forwardElimination ControlPoints).getD j
            FMinimalMatrixComponent.zero).DiagComponent ∧
      ((forwardElimination ControlPoints).getD j
            FMinimalMatrixComponent.zero).DiagComponent < 4 ∧
      (1 ≤ j → 7 / 2 ≤ ((forwardElimination ControlPoints).getD j
            FMinimalMatrixComponent.zero).DiagComponent) := by
    intro j
    induction j with
    | zero =>
      intro _
      rw [h0]
      refine ⟨le_refl _, by norm_num, fun h => absurd h (by omega)⟩
    | succ j ih =>
      intro hj
      have hprev := ih (by omega)
      rw [hrow (j + 1) (by omega) hj]
      have hs := hstep _ hprev.1
      simp only [interiorRow, Nat.add_sub_cancel]
      exact ⟨by linarith [hs.1], hs.2, fun _ => hs.1⟩
  refine ⟨h0, hall, ?_⟩
  rw [hlast]
  have hprev := hall (ControlPoints.length - 2) (by omega)
  have hpos : 0 < 1 / ((forwardElimination ControlPoints).getD (ControlPoints.length - 2)
      FMinimalMatrixComponent.zero).DiagComponent := one_div_pos.mpr (by linarith [hprev.1])
  have hle : 1 / ((forwardElimination ControlPoints).getD (ControlPoints.length - 2)
      FMinimalMatrixComponent.zero).DiagComponent ≤ 1 / 2 :=
    one_div_le_one_div_of_le (by norm_num) hprev.1
  simp only [bottomRightRow]
  linarith

/-- No row of the eliminated matrix has a zero diagonal. -/
theorem forwardElimination_diagonal_ne_zero (ControlPoints : List FControlPoint)
    (hn : 2 ≤ ControlPoints.length) (j : Nat) (hj : j < ControlPoints.length) :
    ((forwardElimination ControlPoints).getD j
      FMinimalMatrixComponent.zero).DiagComponent ≠ 0 := by
  obtain ⟨_, hall, hlast⟩ := forwardElimination_diagonal ControlPoints hn
  by_cases h : j + 1 < ControlPoints.length
  · have := (hall j h).1
    intro h0
    rw [h0] at this
    norm_num at this
  · have hjl : j = ControlPoints.length - 1 := by omega
    rw [hjl]
    intro h0
    rw [h0] at hlast
    norm_num at hlast

/-- The equation of an interior row or of the last row, recovered from the eliminated
rows: `diag4` is the diagonal of the original row (4 or 2). -/
theorem eliminated_row_equation (diag4 d1 k1 d k Dm D0 Dp r : ℚ) (hd1 : d1 ≠ 0)
    (hk : k = r - k1 / d1) (hdiag : d = diag4 - 1 / d1)
    (hDm : d1 * Dm + D0 = k1) (hD0 : d * D0 + Dp = k) :
    Dm + diag4 * D0 + Dp = r := by
  have h4 : diag4 = d + 1 / d1 := by rw [hdiag]; ring
  have hk1 : k1 / d1 = Dm + D0 / d1 := by
    rw [← hDm]
    field_simp
    ring
  rw [h4]
  have : r = k + k1 / d1 := by rw [hk]; ring
  rw [this, hk1, ← hD0]
  ring

/-- The row equation that one back-substitution step establishes. -/
theorem substituted_row (Row : FMinimalMatrixComponent) (Next : ℚ)
    (h : Row.DiagComponent ≠ 0) :
    Row.DiagComponent * substitutedDerivative Row Next + Next = Row.KnownConstant := by
  unfold substitutedDerivative
  field_simp

/-- The spline of at least two control points, in closed form: the arrays of the
elimination, and `Num() - 2` segments appended to the channel's segments. -/
theorem solveSpline_of_two_le (ControlPoints : List FControlPoint)
    (Segments : List FSplineSegment) (hn : 2 ≤ ControlPoints.length) :
    solveSpline ControlPoints Segments =
      { ControlPoints := ControlPoints,
        GaussianCoefficients := forwardElimination ControlPoints,
        FirstOrderDerivatives := backSubstitution (forwardElimination ControlPoints),
        Segments := Segments ++ (List.range (ControlPoints.length - 2)).map
          (splineSegment ControlPoints
            (backSubstitution (forwardElimination ControlPoints))) } := by
  have hG := (forwardElimination_rows ControlPoints hn).1
  have hD := (backSubstitution_rows (forwardElimination ControlPoints)
    (by rw [hG]; omega)).1
  unfold solveSpline
  rw [if_neg (by omega)]
  simp only [hD, hG]

/-- The derivatives that back-substitution computes from the eliminated matrix satisfy
every equation of the tridiagonal system. -/
theorem backSubstitution_solves_system (ControlPoints : List FControlPoint)
    (hn : 2 ≤ ControlPoints.length) :
    (backSubstitution (forwardElimination ControlPoints)).length
      = ControlPoints.length ∧
    2 * (backSubstitution (forwardElimination ControlPoints)).getD 0 0
        + (backSubstitution (forwardElimination ControlPoints)).getD 1 0
      = 3 * (controlValue ControlPoints 1 - controlValue ControlPoints 0) ∧
    (∀ i, 0 < i → i + 1 < ControlPoints.length →
      (backSubstitution (forwardElimination ControlPoints)).getD (i - 1) 0
          + 4 * (backSubstitution (forwardElimination ControlPoints)).getD i 0
          + (backSubstitution (forwardElimination ControlPoints)).getD (i + 1) 0
        = 3 * (controlValue ControlPoints (i + 1) - controlValue ControlPoints (i - 1))) ∧
    (backSubstitution (forwardElimination ControlPoints)).getD
          (ControlPoints.length - 2) 0
        + 2 * (backSubstitution (forwardElimination ControlPoints)).getD
            (ControlPoints.length - 1) 0
      = 3 * (controlValue ControlPoints (ControlPoints.length - 1)
          - controlValue ControlPoints (ControlPoints.length - 2)) := by
  obtain ⟨hGlen, htop, hrow, hlast⟩ := forwardElimination_rows ControlPoints hn
  obtain ⟨hDlen, hDlast, hDrow⟩ := backSubstitution_rows (forwardElimination ControlPoints)
    (by rw [hGlen]; omega)
  rw [hGlen] at hDlen hDlast hDrow
  have hne := forwardElimination_diagonal_ne_zero ControlPoints hn
  -- every row but the last: `diag * D[j] + D[j+1] = known`
  have hsub : ∀ j, j + 1 < ControlPoints.length →
      ((forwardElimination ControlPoints).getD j
          FMinimalMatrixComponent.zero).DiagComponent
        * (backSubstitution (forwardElimination ControlPoints)).getD j 0
        + (backSubstitution (forwardElimination ControlPoints)).getD (j + 1) 0
      = ((forwardElimination ControlPoints).getD j
          FMinimalMatrixComponent.zero).KnownConstant := by
    intro j hj
    rw [hDrow j hj]
    exact substituted_row _ _ (hne j (by omega))
  -- the last row: `diag * D[n-1] = known`
  have hsubLast :
      ((forwardElimination ControlPoints).getD (ControlPoints.length - 1)
          FMinimalMatrixComponent.zero).DiagComponent
        * (backSubstitution (forwardElimination ControlPoints)).getD
            (ControlPoints.length - 1) 0
        + 0
      = ((forwardElimination ControlPoints).getD (ControlPoints.length - 1)
          FMinimalMatrixComponent.zero).KnownConstant := by
    rw [hDlast, mul_div_cancel₀ _ (hne (ControlPoints.length - 1) (by omega)), add_zero]
  refine ⟨hDlen, ?_, ?_, ?_⟩
  · have h := hsub 0 (by omega)
    rw [htop] at h
    exact h
  · intro i hi0 hi
    have hprev := hsub (i - 1) (by omega)
    have hcur := hsub i hi
    have hi1 : i - 1 + 1 = i := by omega
    rw [hi1] at hprev
    have hr := hrow i (by omega) hi
    exact eliminated_row_equation 4 _ _ _ _ _ _ _ _ (hne (i - 1) (by omega))
      (by rw [hr]; rfl) (by rw [hr]; rfl) hprev hcur
  · have hprev := hsub (ControlPoints.length - 2) (by omega)
    have hn1 : ControlPoints.length - 2 + 1 = ControlPoints.length - 1 := by omega
    rw [hn1] at hprev
    have h := eliminated_row_equation 2 _ _ _ _ _ _ 0 _
      (hne (ControlPoints.length - 2) (by omega))
      (by rw [hlast]; rfl) (by rw [hlast]; rfl) hprev hsubLast
    have hsub1 : ControlPoints.length - 1 - 1 = ControlPoints.length - 2 := by omega
    rw [hsub1] at h
    simp only [controlValue]
    linarith [h]

/-- C13: the spline fitter solves the tridiagonal system of the natural cubic spline.
For every list of `n >= 2` control points with values `y`, the first derivatives `D` that
forward elimination and back-substitution compute (over exact arithmetic) are `n` values
with `2 D[0] + D[1] = 3 (y[1] - y[0])`,
`D[i-1] + 4 D[i] + D[i+1] = 3 (y[i+1] - y[i-1])` for every `0 < i < n - 1`, and
`D[n-2] + 2 D[n-1] = 3 (y[n-1] - y[n-2])`. -/
theorem spline_derivatives_solve_system (ControlPoints : List FControlPoint)
    (Segments : List FSplineSegment) (hn : 2 ≤ ControlPoints.length) :
    (solveSpline ControlPoints Segments).FirstOrderDerivatives.length
      = ControlPoints.length ∧
    2 * (solveSpline ControlPoints Segments).FirstOrderDerivatives.getD 0 0
        + (solveSpline ControlPoints Segments).FirstOrderDerivatives.getD 1 0
      = 3 * (controlValue ControlPoints 1 - controlValue ControlPoints 0) ∧
    (∀ i, 0 < i → i + 1 < ControlPoints.length →
      (solveSpline ControlPoints Segments).FirstOrderDerivatives.getD (i - 1) 0
          + 4 * (solveSpline ControlPoints Segments).FirstOrderDerivatives.getD i 0
          + (solveSpline ControlPoints Segments).FirstOrderDerivatives.getD (i + 1) 0
        = 3 * (controlValue ControlPoints (i + 1) - controlValue ControlPoints (i - 1))) ∧
    (solveSpline ControlPoints Segments).FirstOrderDerivatives.getD
          (ControlPoints.length - 2) 0
        + 2 * (solveSpline ControlPoints Segments).FirstOrderDerivatives.getD
            (ControlPoints.length - 1) 0
      = 3 * (controlValue ControlPoints (ControlPoints.length - 1)
          - controlValue ControlPoints (ControlPoints.length - 2)) := by
  rw [solveSpline_of_two_le ControlPoints Segments hn]
  exact backSubstitution_solves_system ControlPoints hn

/-- C13 at the control points with values 0, 3, 0: the derivatives are 9/2, 0, -9/2 and
they satisfy the middle equation. -/
theorem spline_derivatives_solve_system_witness :
    2 ≤ (controlPointsOfValues [0, 3, 0]).length ∧
    (solveSpline (controlPointsOfValues [0, 3, 0]) []).FirstOrderDerivatives
      = [9 / 2, 0, -9 / 2] ∧
    2 * (solveSpline (controlPointsOfValues [0, 3, 0]) []).FirstOrderDerivatives.getD 0 0
        + (solveSpline (controlPointsOfValues [0, 3, 0]) []).FirstOrderDerivatives.getD 1 0
      = 3 * (controlValue (controlPointsOfValues [0, 3, 0]) 1
          - controlValue (controlPointsOfValues [0, 3, 0]) 0) :=
  ⟨by decide, by decide!,
    (spline_derivatives_solve_system (controlPointsOfValues [0, 3, 0]) []
      (by decide)).2.1⟩

/-- C20: the elimination never divides by zero. For every list of `n >= 2` control points,
whatever their values, the diagonal components are `diag[0] = 2`,
`7/2 <= diag[i] < 4` for `0 < i < n - 1` and `diag[n-1] >= 3/2`; so every diagonal
component that forward elimination or back-substitution divides by is non-zero. -/
theorem elimination_diagonal_bounds (ControlPoints : List FControlPoint)
    (Segments : List FSplineSegment) (hn : 2 ≤ ControlPoints.length) :
    (solveSpline ControlPoints Segments).GaussianCoefficients.length
      = ControlPoints.length ∧
    ((solveSpline ControlPoints Segments).GaussianCoefficients.getD 0
        FMinimalMatrixComponent.zero).DiagComponent = 2 ∧
    (∀ i, 0 < i → i + 1 < ControlPoints.length →
      7 / 2 ≤ ((solveSpline ControlPoints Segments).GaussianCoefficients.getD i
          FMinimalMatrixComponent.zero).DiagComponent ∧
      ((solveSpline ControlPoints Segments).GaussianCoefficients.getD i
          FMinimalMatrixComponent.zero).DiagComponent < 4) ∧
    3 / 2 ≤ ((solveSpline ControlPoints Segments).GaussianCoefficients.getD
        (ControlPoints.length - 1) FMinimalMatrixComponent.zero).DiagComponent ∧
    (∀ i, i < ControlPoints.length →
      ((solveSpline ControlPoints Segments).GaussianCoefficients.getD i
          FMinimalMatrixComponent.zero).DiagComponent ≠ 0) := by
  rw [solveSpline_of_two_le ControlPoints Segments hn]
  simp only []
  obtain ⟨h0, hall, hlast⟩ := forwardElimination_diagonal ControlPoints hn
  refine ⟨(forwardElimination_rows ControlPoints hn).1, h0, ?_, hlast,
    fun i hi => forwardElimination_diagonal_ne_zero ControlPoints hn i hi⟩
  intro i hi0 hi
  exact ⟨(hall i hi).2.2 (by omega), (hall i hi).2.1⟩

/-- C20 at the control points with values 0, 3, 0: the diagonal is 2, 7/2, 12/7. -/
theorem elimination_diagonal_bounds_witness :
    2 ≤ (controlPointsOfValues [0, 3, 0]).length ∧
    (solveSpline (controlPointsOfValues [0, 3, 0]) []).GaussianCoefficients.map
        (fun row => row.DiagComponent) = [2, 7 / 2, 12 / 7] ∧
    3 / 2 ≤ ((solveSpline (controlPointsOfValues [0, 3, 0]) []).GaussianCoefficients.getD
        ((controlPointsOfValues [0, 3, 0]).length - 1)
        FMinimalMatrixComponent.zero).DiagComponent :=
  ⟨by decide, by decide!,
    (elimination_diagonal_bounds (controlPointsOfValues [0, 3, 0]) []
      (by decide)).2.2.2.1⟩

/-- The number of segments that the spline fitter appends: `Num() - 2` for `Num()` control
points, and none for fewer than two. -/
theorem solveSpline_segment_count (ControlPoints : List FControlPoint)
    (Segments : List FSplineSegment) :
    (solveSpline ControlPoints Segments).Segments.length
      = Segments.length + (ControlPoints.length - 2) := by
  by_cases hn : 2 ≤ ControlPoints.length
  · rw [solveSpline_of_two_le ControlPoints Segments hn]
    simp
  · unfold solveSpline
    rw [if_pos (by omega)]
    simp only []
    omega

/-- The segment that pass `i` of the loop of lines 434-444 appends, read back from the
channel's segments. -/
theorem solveSpline_segment (ControlPoints : List FControlPoint)
    (Segments : List FSplineSegment) (i : Nat) (hi : i + 2 < ControlPoints.length) :
    (solveSpline ControlPoints Segments).Segments.getD (Segments.length + i)
        FSplineSegment.zero
      = splineSegment ControlPoints
          (solveSpline ControlPoints Segments).FirstOrderDerivatives i := by
  rw [solveSpline_of_two_le ControlPoints Segments (by omega)]
  simp only []
  rw [List.getD_append_right _ _ _ _ (by omega)]
  have hlt : Segments.length + i - Segments.length
      < ((List.range (ControlPoints.length - 2)).map
          (splineSegment ControlPoints
            (backSubstitution (forwardElimination ControlPoints)))).length := by
    rw [List.length_map, List.length_range]
    omega
  rw [List.getD_eq_getElem _ _ hlt]
  simp

/-- C14, the code at a failing input: two column samples give two control points, and
for two control points the spline fitter computes both derivatives and then emits no
segment at all, where one segment per pair of adjacent control points would be one. The
square root is taken on the value 1 only, where it is 1. -/
theorem GenerateSpline_two_control_points :
    (GenerateSplineChannel (fun x => x)
        [{ RMS := 1, Peak := 1, NumSamples := 1 }, { RMS := 1, Peak := 1, NumSamples := 1 }]
        (-12) []).ControlPoints
      = [{ Value := 1, Position := -12, SampleSize := 1 },
         { Value := 1, Position := -11, SampleSize := 1 }] ∧
    (GenerateSplineChannel (fun x => x)
        [{ RMS := 1, Peak := 1, NumSamples := 1 }, { RMS := 1, Peak := 1, NumSamples := 1 }]
        (-12) []).FirstOrderDerivatives = [0, 0] ∧
    (GenerateSplineChannel (fun x => x)
        [{ RMS := 1, Peak := 1, NumSamples := 1 }, { RMS := 1, Peak := 1, NumSamples := 1 }]
        (-12) []).Segments = [] ∧
    (solveSpline (controlPointsOfValues [0, 3, 0, 1]) []).Segments.length = 2 := by
  decide!

/-- The control points of a group of column samples are at least one pixel wide. -/
theorem groupControlPoints_sampleSize (Sqrt : ℚ → ℚ) (Samples : List FAudioSample)
    (SamplePositionOffset : Int) (SampleIndex : Nat) (h : SampleIndex < Samples.length) :
    ∀ cp ∈ groupControlPoints Sqrt Samples SamplePositionOffset SampleIndex,
      1 ≤ cp.SampleSize := by
  intro cp hcp
  unfold groupControlPoints at hcp
  simp only [SmoothingAmount] at hcp
  have hmin : 1 ≤ min 6 (Samples.length - SampleIndex) := by
    rw [Nat.le_min]
    omega
  split at hcp
  · rename_i hpos
    simp only [List.mem_cons, List.mem_singleton, List.not_mem_nil, or_false] at hcp
    rcases hcp with hcp | hcp <;> rw [hcp] <;> simp only [] <;> omega
  · simp only [List.mem_singleton] at hcp
    rw [hcp]
    simp only []
    omega

/-- Every control point that the loop of lines 347-374 makes is at least one pixel
wide. -/
theorem controlPointLoop_sampleSize (Sqrt : ℚ → ℚ) (Samples : List FAudioSample)
    (SamplePositionOffset : Int) (fuel : Nat) :
    ∀ (SampleIndex : Nat) (ControlPoints : List FControlPoint),
      (∀ cp ∈ ControlPoints, 1 ≤ cp.SampleSize) →
      ∀ cp ∈ controlPointLoop Sqrt Samples SamplePositionOffset fuel SampleIndex
          ControlPoints, 1 ≤ cp.SampleSize := by
  induction fuel with
  | zero => intro _ _ h; exact h
  | succ fuel ih =>
    intro SampleIndex ControlPoints h
    simp only [controlPointLoop]
    split
    · rename_i hlt
      apply ih
      intro cp hcp
      rcases List.mem_append.mp hcp with hold | hnew
      · exact h cp hold
      · exact groupControlPoints_sampleSize Sqrt Samples SamplePositionOffset SampleIndex
          hlt cp hnew
    · exact h

/-- C15: the spline fit is exact at the control points. For every channel and every
segment `i` that `GenerateSpline` emits for it, the cubic `A + B t + C t^2 + D t^3` of
the segment is `ControlPoints[i].Value` at the start offset `t = 0`, and so is the
amplitude that the rasteriser computes at the pixel column of the segment's position;
the width that this amplitude divides by is at least 1. -/
theorem spline_exact_at_control_points (Sqrt : ℚ → ℚ) (Samples : List FAudioSample)
    (SamplePositionOffset : Int) (Segments : List FSplineSegment) (i : Nat)
    (hi : Segments.length + i
      < (GenerateSplineChannel Sqrt Samples SamplePositionOffset Segments).Segments.length) :
    segmentCubic
        ((GenerateSplineChannel Sqrt Samples SamplePositionOffset Segments).Segments.getD
          (Segments.length + i) FSplineSegment.zero) 0
      = controlValue
          (GenerateSplineChannel Sqrt Samples SamplePositionOffset Segments).ControlPoints i ∧
    1 ≤ ((GenerateSplineChannel Sqrt Samples SamplePositionOffset Segments).Segments.getD
          (Segments.length + i) FSplineSegment.zero).SampleSize ∧
    (∀ X : Int,
      (X : ℚ) = ((GenerateSplineChannel Sqrt Samples SamplePositionOffset
          Segments).Segments.getD (Segments.length + i) FSplineSegment.zero).Position →
      splineAmplitude
          ((GenerateSplineChannel Sqrt Samples SamplePositionOffset Segments).Segments.getD
            (Segments.length + i) FSplineSegment.zero) X
        = controlValue
            (GenerateSplineChannel Sqrt Samples SamplePositionOffset
              Segments).ControlPoints i) := by
  unfold GenerateSplineChannel at hi ⊢
  rw [solveSpline_segment_count] at hi
  have hi2 : i + 2 < (controlPoints Sqrt Samples SamplePositionOffset).length := by omega
  rw [solveSpline_segment _ _ i hi2]
  have hcp : (solveSpline (controlPoints Sqrt Samples SamplePositionOffset)
      Segments).ControlPoints = controlPoints Sqrt Samples SamplePositionOffset := by
    unfold solveSpline
    split <;> rfl
  rw [hcp]
  refine ⟨?_, ?_, ?_⟩
  · simp [segmentCubic, splineSegment, controlValue]
  · have hmem : (controlPoints Sqrt Samples SamplePositionOffset).getD i FControlPoint.zero
        ∈ controlPoints Sqrt Samples SamplePositionOffset := by
      rw [List.getD_eq_getElem _ _ (by omega)]
      exact List.getElem_mem _
    have hsize := controlPointLoop_sampleSize Sqrt Samples SamplePositionOffset
      Samples.length 0 [] (fun _ hcp => absurd hcp (List.not_mem_nil _)) _ hmem
    show (1 : ℚ) ≤ (((controlPoints Sqrt Samples SamplePositionOffset).getD i
      FControlPoint.zero).SampleSize : ℚ)
    exact_mod_cast hsize
  · intro X hX
    simp only [splineAmplitude, hX, sub_self, zero_div]
    simp [splineSegment, controlValue]

/-- C15 at a channel of 14 column samples with the values 0, 1, ..., 13, the parameter
`Sqrt` being the identity: six control points, four segments, and the segment 1 starts at
the value of the control point 1. -/
theorem spline_exact_at_control_points_witness :
    ([] : List FSplineSegment).length + 1
      < (GenerateSplineChannel (fun x => x)
          ((List.range 14).map fun k => { RMS := (k : ℚ), Peak := 0, NumSamples := 1 })
          (-12) []).Segments.length ∧
    segmentCubic
        ((GenerateSplineChannel (fun x => x)
          ((List.range 14).map fun k => { RMS := (k : ℚ), Peak := 0, NumSamples := 1 })
          (-12) []).Segments.getD (([] : List FSplineSegment).length + 1)
          FSplineSegment.zero) 0
      = controlValue
          (GenerateSplineChannel (fun x => x)
            ((List.range 14).map fun k => { RMS := (k : ℚ), Peak := 0, NumSamples := 1 })
            (-12) []).ControlPoints 1 :=
  ⟨by decide!,
    (spline_exact_at_control_points (fun x => x)
      ((List.range 14).map fun k => { RMS := (k : ℚ), Peak := 0, NumSamples := 1 })
      (-12) [] 1 (by decide!)).1⟩

/-- C16: a channel with fewer than 2 control points gets no spline. Zero or one column
sample gives zero or one control point, and then the spline fitter leaves the channel's
segments as they were and never makes the elimination arrays: no second control point is
indexed and nothing is divided. -/
theorem GenerateSpline_skips_short_channel (Sqrt : ℚ → ℚ) (Samples : List FAudioSample)
    (SamplePositionOffset : Int) (Segments : List FSplineSegment)
    (ControlPoints : List FControlPoint) :
    (Samples.length ≤ 1 →
      (GenerateSplineChannel Sqrt Samples SamplePositionOffset Segments).ControlPoints.length
        = Samples.length ∧
      (GenerateSplineChannel Sqrt Samples SamplePositionOffset Segments).Segments
        = Segments ∧
      (GenerateSplineChannel Sqrt Samples SamplePositionOffset
        Segments).GaussianCoefficients = [] ∧
      (GenerateSplineChannel Sqrt Samples SamplePositionOffset
        Segments).FirstOrderDerivatives = []) ∧
    (ControlPoints.length ≤ 1 →
      solveSpline ControlPoints Segments =
        { ControlPoints := ControlPoints, GaussianCoefficients := [],
          FirstOrderDerivatives := [], Segments := Segments }) := by
  have hsolve : ∀ cps : List FControlPoint, cps.length ≤ 1 →
      solveSpline cps Segments =
        { ControlPoints := cps, GaussianCoefficients := [],
          FirstOrderDerivatives := [], Segments := Segments } := by
    intro cps h
    unfold solveSpline
    rw [if_pos h]
  refine ⟨?_, hsolve ControlPoints⟩
  intro hlen
  have hcp : (controlPoints Sqrt Samples SamplePositionOffset).length = Samples.length := by
    match Samples, hlen with
    | [], _ => rfl
    | [s], _ =>
      simp [controlPoints, controlPointLoop, groupControlPoints, SmoothingAmount]
  unfold GenerateSplineChannel
  rw [hsolve _ (by omega)]
  exact ⟨hcp, rfl, rfl, rfl⟩

/-- C16 at a single column sample: one control point, no segment. -/
theorem GenerateSpline_skips_short_channel_witness :
    [({ RMS := 1, Peak := 1, NumSamples := 1 } : FAudioSample)].length ≤ 1 ∧
    (GenerateSplineChannel (fun x => x) [{ RMS := 1, Peak := 1, NumSamples := 1 }]
        (-12) []).Segments = [] ∧
    (GenerateSplineChannel (fun x => x) [{ RMS := 1, Peak := 1, NumSamples := 1 }]
        (-12) []).ControlPoints = [{ Value := 1, Position := -12, SampleSize := 1 }] :=
  ⟨by decide,
    ((GenerateSpline_skips_short_channel (fun x => x)
      [{ RMS := 1, Peak := 1, NumSamples := 1 }] (-12) [] []).1 (by decide)).2.1,
    by decide!⟩

/-! ## Sampling: theorems -/

/-- C17, the code at a failing input: a mono column whose index span is 61 makes
`SampleCount = 61 > 60`, the step is multiplied by `61 / 60 = 1`, and the loop takes 61
samples, one more than `MaxSamplesPerPixel`; a stereo column of span 121 has
`SampleCount = 60`, is not capped at all, and takes 61 samples per channel. The lookup is
silent, so the square root is taken at 0 only. -/
theorem SampleAudio_exceeds_cap :
    SampleAudio (fun x => x) 100 ([], []) 1 silentLookup 0 61 50
      = Except.ok ([{ RMS := 0, Peak := 0, NumSamples := 61 }], []) ∧
    sampleWindow 100 1 0 61 = (0, 61, 1) ∧
    SampleAudio (fun x => x) 100 ([], []) 2 silentLookup 0 121 50
      = Except.ok ([{ RMS := 0, Peak := 0, NumSamples := 61 }],
          [{ RMS := 0, Peak := 0, NumSamples := 61 }]) ∧
    (61 : Int) > MaxSamplesPerPixel := by
  decide!

/-! ## Pixel colour: theorems -/

/-- The colour written in closed form: every channel is squared before it is multiplied
by alpha. -/
theorem writtenColor_eq (Color : FLinearColor) (Alpha : ℚ) :
    writtenColor Color Alpha
      = premultipliedColor
          { R := Color.R ^ 2, G := Color.G ^ 2, B := Color.B ^ 2, A := Color.A } Alpha := by
  simp only [writtenColor, premultipliedColor, FLinearColor.mk.injEq]
  refine ⟨?_, ?_, ?_, trivial⟩ <;> ring

/-- C19, the code at a failing input: for the colour `(1/2, 1/4, 1)` and alpha `1/2` the
rasteriser writes `(1/8, 1/32, 1/2)` with alpha `1/2`, while the colour pre-multiplied by
alpha is `(1/4, 1/8, 1/2)`: `Color.R *= Color.R * Alpha` multiplies by the channel once
more. -/
theorem writtenColor_not_premultiplied :
    writtenColor { R := 1 / 2, G := 1 / 4, B := 1, A := 1 } (1 / 2)
      = { R := 1 / 8, G := 1 / 32, B := 1 / 2, A := 1 / 2 } ∧
    premultipliedColor { R := 1 / 2, G := 1 / 4, B := 1, A := 1 } (1 / 2)
      = { R := 1 / 4, G := 1 / 8, B := 1 / 2, A := 1 / 2 } ∧
    writtenColor { R := 1 / 2, G := 1 / 4, B := 1, A := 1 } (1 / 2)
      ≠ premultipliedColor { R := 1 / 2, G := 1 / 4, B := 1, A := 1 } (1 / 2) := by
  decide!

/-! ## View controls: theorems -/

/-- The engine's clamp lands between its bounds when they are in order. -/
theorem FMathClampFloat_bounds (X Min Max : ℚ) (h : Min ≤ Max) :
    Min ≤ FMathClampFloat X Min Max ∧ FMathClampFloat X Min Max ≤ Max := by
  unfold FMathClampFloat
  split
  · exact ⟨le_refl _, h⟩
  · split
    · constructor <;> linarith
    · exact ⟨h, le_refl _⟩

/-- C11, the code at a failing input: a request for a single bucket passes every guard
(`AmplitudeBuckets < 1` is false) and then computes the position fraction of bucket 0 as
`0 / (1 - 1)`, a division of zero by zero, so no frame index is defined and nothing is
written. With 2 buckets the same request succeeds. -/
theorem GetRenderData_single_bucket :
    GetRenderData scenarioWave 0 0 1 1 [] = Except.error Fault.DivisionByZero ∧
    bucketAmplitude scenarioWave 0 7 4 1 0 = Except.error Fault.DivisionByZero ∧
    GetRenderData scenarioWave 0 0 1 2 [] = Except.ok (true, [0, 0]) := by
  decide!

/-- C12 as stated fails: on the mono buffer holding the float `0.3f` twice, the two bytes
read for a bucket are 154 and 153, and the amplitude written is
`((154 << 8) | 153) / 2^15 * 128 = 39577/256`, which is above 128. -/
theorem GetRenderData_amplitude_above_128 :
    BufferInv pointThreeWave ∧
    GetRenderData pointThreeWave 0 0 1 2 []
      = Except.ok (true, [39577 / 256, 39577 / 256]) ∧
    ¬ ((39577 / 256 : ℚ) ≤ 128) := by
  decide!

/-- The amplitude of one bucket, when the buffer holds bytes: between 0 and 65535/256. -/
theorem bucketAmplitude_range (w : UImportedSoundWave)
    (StartFrame DeltaFrames FrameStep AmplitudeBuckets : Int) (i : Nat) (v : ℚ)
    (hbytes : ∀ b ∈ w.PCMData, b < 256)
    (h : bucketAmplitude w StartFrame DeltaFrames FrameStep AmplitudeBuckets i
      = Except.ok v) :
    0 ≤ v ∧ v ≤ 65535 / 256 := by
  have hread : ∀ (index : Int) (b : Nat), readView w index = Except.ok b → b < 256 := by
    intro index b hb
    unfold readView at hb
    split at hb
    · cases hb
    · split at hb
      · rename_i b1 hsome
        injection hb with hb
        rw [← hb]
        exact hbytes b1 (List.getElem?_mem hsome)
      · cases hb
  unfold bucketAmplitude at h
  split at h
  · cases h
  · simp only [] at h
    split at h
    · rename_i F1 F2 h1 h2
      have hF1 := hread _ F1 h1
      have hF2 := hread _ F2 h2
      have hlt : (F1 <<< 8) ||| F2 < 2 ^ 16 := by
        apply Nat.or_lt_two_pow
        · rw [Nat.shiftLeft_eq]
          omega
        · omega
      have hq : (((F1 <<< 8) ||| F2 : Nat) : ℚ) ≤ 65535 := by
        have : (F1 <<< 8) ||| F2 ≤ 65535 := by omega
        exact_mod_cast this
      have hq0 : (0 : ℚ) ≤ (((F1 <<< 8) ||| F2 : Nat) : ℚ) := Nat.cast_nonneg _
      injection h with h
      rw [← h]
      constructor
      · positivity
      · linarith
    · cases h
    · cases h

/-- Every value in the output of the bucket loop was there before or is a bucket
amplitude between 0 and 65535/256. -/
theorem fillAmplitudes_range (w : UImportedSoundWave)
    (StartFrame DeltaFrames FrameStep AmplitudeBuckets : Int)
    (hbytes : ∀ b ∈ w.PCMData, b < 256) (indices : List Nat) :
    ∀ (OutAmplitudes out : List ℚ),
      fillAmplitudes w StartFrame DeltaFrames FrameStep AmplitudeBuckets indices OutAmplitudes
        = Except.ok out →
      ∀ v ∈ out, v ∈ OutAmplitudes ∨ (0 ≤ v ∧ v ≤ 65535 / 256) := by
  induction indices with
  | nil =>
    intro OutAmplitudes out h v hv
    simp only [fillAmplitudes] at h
    injection h with h
    rw [← h] at hv
    exact Or.inl hv
  | cons i rest ih =>
    intro OutAmplitudes out h v hv
    simp only [fillAmplitudes] at h
    split at h
    · rename_i v0 hv0
      rcases ih _ _ h v hv with hmem | hrange
      · rcases List.mem_or_eq_of_mem_set hmem with hold | hnew
        · exact Or.inl hold
        · rw [hnew]
          exact Or.inr (bucketAmplitude_range w _ _ _ _ i v0 hbytes hv0)
      · exact Or.inr hrange
    · cases h

/-- C12, amended: every amplitude that `GetRenderData` produces lies in `[0, 256)`. For a
buffer of bytes (each below 256) and every successful call, every value of the output
that was not in `OutAmplitudes` before the call is `((F1 << 8) | F2) / 2^15 * 128` for two
buffer bytes, or a zero of `AddZeroed`, and satisfies `0 <= value <= 65535/256 < 256`. -/
theorem GetRenderData_amplitude_range (w : UImportedSoundWave) (Channel : Int)
    (StartTime TimeLength : ℚ) (AmplitudeBuckets : Int) (OutAmplitudes out : List ℚ)
    (hbytes : ∀ b ∈ w.PCMData, b < 256)
    (h : GetRenderData w Channel StartTime TimeLength AmplitudeBuckets OutAmplitudes
      = Except.ok (true, out)) :
    ∀ v ∈ out, v ∈ OutAmplitudes ∨ (0 ≤ v ∧ v ≤ 65535 / 256 ∧ v < 256) := by
  unfold GetRenderData at h
  split at h
  · cases h
  split at h
  · cases h
  split at h
  · cases h
  split at h
  · cases h
  split at h
  · cases h
  simp only [] at h
  split at h
  · rename_i o ho
    injection h with h
    injection h with _ h2
    rw [← h2]
    intro v hv
    rcases fillAmplitudes_range w _ _ _ _ hbytes _ _ _ ho v hv with hmem | hrange
    · rcases List.mem_append.mp hmem with hold | hzero
      · exact Or.inl hold
      · rw [List.eq_of_mem_replicate hzero]
        exact Or.inr ⟨le_refl _, by norm_num, by norm_num⟩
    · exact Or.inr ⟨hrange.1, hrange.2, by linarith [hrange.2]⟩
  · cases h

/-- C12, amended, at the buffer holding `0.3f` twice: both amplitudes are 39577/256. -/
theorem GetRenderData_amplitude_range_witness :
    (∀ b ∈ pointThreeWave.PCMData, b < 256) ∧
    GetRenderData pointThreeWave 0 0 1 2 []
      = Except.ok (true, [39577 / 256, 39577 / 256]) ∧
    (∀ v ∈ ([39577 / 256, 39577 / 256] : List ℚ),
      v ∈ ([] : List ℚ) ∨ (0 ≤ v ∧ v ≤ 65535 / 256 ∧ v < 256)) :=
  ⟨by decide, by decide!,
    GetRenderData_amplitude_range pointThreeWave 0 0 1 2 [] [39577 / 256, 39577 / 256]
      (by decide) (by decide!)⟩

/-! ## Envelope extraction: channel and window -/

/-- C27: the envelope that `GetRenderData` returns does not depend on the requested
channel. For every sound wave and every two valid channels `c1`, `c2` in
`[0, NumChannels)`, calls with the same `StartTime`, `TimeLength`, `AmplitudeBuckets` and
`OutAmplitudes` have the same outcome, amplitude for amplitude. -/
theorem GetRenderData_channel_independent (w : UImportedSoundWave) (c1 c2 : Int)
    (StartTime TimeLength : ℚ) (AmplitudeBuckets : Int) (OutAmplitudes : List ℚ)
    (h1 : 0 ≤ c1 ∧ c1 < w.NumChannels) (h2 : 0 ≤ c2 ∧ c2 < w.NumChannels) :
    GetRenderData w c1 StartTime TimeLength AmplitudeBuckets OutAmplitudes
      = GetRenderData w c2 StartTime TimeLength AmplitudeBuckets OutAmplitudes := by
  unfold GetRenderData
  rw [if_neg (not_lt.mpr h1.1), if_neg (not_le.mpr h1.2), if_neg (not_lt.mpr h2.1),
    if_neg (not_le.mpr h2.2)]

/-- C27 at the stereo buffer: the channels 0 and 1 give the same two amplitudes. -/
theorem GetRenderData_channel_independent_witness :
    ((0 : Int) ≤ 0 ∧ (0 : Int) < stereoWave.NumChannels) ∧
    ((0 : Int) ≤ 1 ∧ (1 : Int) < stereoWave.NumChannels) ∧
    GetRenderData stereoWave 0 0 1 2 [] = Except.ok (true, [0, 0]) ∧
    GetRenderData stereoWave 0 0 1 2 [] = GetRenderData stereoWave 1 0 1 2 [] :=
  ⟨by decide, by decide, by decide!,
    GetRenderData_channel_independent stereoWave 0 1 0 1 2 [] (by decide) (by decide)⟩

/-! ## Rasterising: the alpha of a column -/

/-- The engine's clamp is monotone in its argument. -/
theorem FMathClampFloat_mono (X Y Min Max : ℚ) (h : X ≤ Y) (hb : Min ≤ Max) :
    FMathClampFloat X Min Max ≤ FMathClampFloat Y Min Max := by
  unfold FMathClampFloat
  split <;> split <;> (try split) <;> (try split) <;> linarith

/-- The engine's maximum is monotone in both arguments. -/
theorem FMathMaxFloat_mono (A B A1 B1 : ℚ) (hA : A ≤ A1) (hB : B ≤ B1) :
    FMathMaxFloat A B ≤ FMathMaxFloat A1 B1 := by
  unfold FMathMaxFloat
  split <;> split <;> linarith

/-- The alpha of a pixel is never negative. -/
theorem pixelAlpha_nonneg (Amplitude : ℚ) (Peak PixelIndex : Int) :
    0 ≤ pixelAlpha Amplitude Peak PixelIndex := by
  unfold pixelAlpha
  simp only []
  have h1 := (FMathClampFloat_bounds
    (Amplitude + (StrokeBorderSize : ℚ) * (1 / 2) - ((PixelIndex : ℚ) + 1 / 2)) 0 1
    (by norm_num)).1
  have h2 := (FMathClampFloat_bounds ((Peak : ℚ) - (PixelIndex : ℚ) + 1 / 4) 0 1
    (by norm_num)).1
  unfold FMathMaxFloat
  split <;> assumption

/-- The alpha of a column falls, or stays, as the pixel index grows. -/
theorem pixelAlpha_antitone (Amplitude : ℚ) (Peak p q : Int) (hpq : p ≤ q) :
    pixelAlpha Amplitude Peak q ≤ pixelAlpha Amplitude Peak p := by
  have hq : (p : ℚ) ≤ (q : ℚ) := by exact_mod_cast hpq
  unfold pixelAlpha
  simp only []
  apply FMathMaxFloat_mono
  · exact FMathClampFloat_mono _ _ 0 1 (by linarith) (by norm_num)
  · exact FMathClampFloat_mono _ _ 0 1 (by linarith) (by norm_num)

/-- The pixel loop keeps the writes made before it. -/
theorem pixelLoop_keeps (BaseColor : Int → FLinearColor)
    (NumChannels ChannelIndex Height MaxAmplitude X : Int) (Amplitude : ℚ) (Peak : Int)
    (fuel : Nat) :
    ∀ (PixelIndex : Int) (writes : List PixelWrite) (wr : PixelWrite), wr ∈ writes →
      wr ∈ pixelLoop BaseColor NumChannels ChannelIndex Height MaxAmplitude X Amplitude Peak
        fuel PixelIndex writes := by
  induction fuel with
  | zero => intro _ _ _ h; exact h
  | succ fuel ih =>
    intro PixelIndex writes wr h
    simp only [pixelLoop]
    split
    · split
      · exact h
      · exact ih _ _ _ (List.mem_append_left _ h)
    · exact h

/-- The pixel loop writes every pixel from `PixelIndex` up to `MaxAmplitude` that has a
positive alpha: the `break` at the first alpha that is not positive skips none. -/
theorem pixelLoop_writes_visible (BaseColor : Int → FLinearColor)
    (NumChannels ChannelIndex Height MaxAmplitude X : Int) (Amplitude : ℚ) (Peak : Int)
    (hMax : MaxAmplitude < 2147483648) (fuel : Nat) :
    ∀ (PixelIndex : Int) (writes : List PixelWrite), 0 ≤ PixelIndex →
      (MaxAmplitude - PixelIndex).toNat ≤ fuel →
      ∀ p, PixelIndex ≤ p → p < MaxAmplitude → 0 < pixelAlpha Amplitude Peak p →
        ({ X := X, Y := pixelRow NumChannels ChannelIndex Height p,
           Color := writtenColor (BaseColor p) (pixelAlpha Amplitude Peak p) } : PixelWrite)
          ∈ pixelLoop BaseColor NumChannels ChannelIndex Height MaxAmplitude X Amplitude
              Peak fuel PixelIndex writes := by
  induction fuel with
  | zero =>
    intro PixelIndex writes _ hfuel p hp hpm _
    omega
  | succ fuel ih =>
    intro PixelIndex writes h0 hfuel p hp hpm hpos
    simp only [pixelLoop]
    rw [if_pos (by omega)]
    have hanti := pixelAlpha_antitone Amplitude Peak PixelIndex p hp
    rw [if_neg (by linarith)]
    rw [toInt32_eq_self (by omega) (by omega)]
    by_cases heq : p = PixelIndex
    · subst heq
      exact pixelLoop_keeps _ _ _ _ _ _ _ _ _ _ _ _ (List.mem_append_right _
        (List.mem_singleton.mpr rfl))
    · exact ih (PixelIndex + 1) _ (by omega) (by omega) p (by omega) hpm hpos

/-- C24: the vertical short-circuit is sound. For every spline amplitude and every column
peak the pixel alpha
`max(clamp(amplitude + 1 - (p + 1/2), 0, 1), clamp(peak - p + 1/4, 0, 1))` is monotonically
non-increasing in the pixel index `p`; so once a pixel has alpha `<= 0`, every higher
pixel index of the column has alpha 0, and the pixel loop, which breaks at the first such
pixel, writes every pixel below `MaxAmplitude` whose alpha is positive. -/
theorem short_circuit_sound (BaseColor : Int → FLinearColor)
    (NumChannels ChannelIndex Height MaxAmplitude X : Int) (Amplitude : ℚ)
    (Peak p q : Int) (hpq : p ≤ q) :
    pixelAlpha Amplitude Peak p
      = FMathMaxFloat (FMathClampFloat (Amplitude + 1 - ((p : ℚ) + 1 / 2)) 0 1)
          (FMathClampFloat ((Peak : ℚ) - (p : ℚ) + 1 / 4) 0 1) ∧
    pixelAlpha Amplitude Peak q ≤ pixelAlpha Amplitude Peak p ∧
    (pixelAlpha Amplitude Peak p ≤ 0 → pixelAlpha Amplitude Peak q = 0) ∧
    (MaxAmplitude < 2147483648 → 0 ≤ p → p < MaxAmplitude →
      0 < pixelAlpha Amplitude Peak p →
      ({ X := X, Y := pixelRow NumChannels ChannelIndex Height p,
         Color := writtenColor (BaseColor p) (pixelAlpha Amplitude Peak p) } : PixelWrite)
        ∈ pixelLoop BaseColor NumChannels ChannelIndex Height MaxAmplitude X Amplitude Peak
            MaxAmplitude.toNat 0 []) := by
  have hanti := pixelAlpha_antitone Amplitude Peak p q hpq
  refine ⟨?_, hanti, ?_, ?_⟩
  · unfold pixelAlpha StrokeBorderSize
    norm_num
  · intro h0
    exact le_antisymm (le_trans hanti h0) (pixelAlpha_nonneg Amplitude Peak q)
  · intro hMax h0 hpm hpos
    exact pixelLoop_writes_visible BaseColor NumChannels ChannelIndex Height MaxAmplitude X
      Amplitude Peak hMax MaxAmplitude.toNat 0 [] (le_refl 0) (by omega) p h0 hpm hpos

/-- C24 at a column with amplitude 5/2 and peak 4: the alphas of the pixels 0 to 7 are
1, 1, 1, 1, 1/4, 0, 0, 0, and the pixel 7 has no more alpha than the pixel 5. -/
theorem short_circuit_sound_witness :
    (5 : Int) ≤ 7 ∧
    (List.range 8).map (fun p => pixelAlpha (5 / 2) 4 (p : Int))
      = [1, 1, 1, 1, 1 / 4, 0, 0, 0] ∧
    pixelAlpha (5 / 2) 4 7 ≤ pixelAlpha (5 / 2) 4 5 :=
  ⟨by decide, by decide!,
    (short_circuit_sound whitePixels 1 0 8 8 0 (5 / 2) 4 5 7 (by decide)).2.1⟩

/-! ## The spline: smoothness at the joins -/

/-- The functions `segmentCubicDerivative` and `segmentCubicSecondDerivative` are the first
and the second derivative of the cubic `segmentCubic` of a segment. -/
theorem segmentCubic_derivatives (Segment : FSplineSegment) (t : ℚ) :
    (Polynomial.derivative (Polynomial.C Segment.A + Polynomial.C Segment.B * Polynomial.X
        + Polynomial.C Segment.C * Polynomial.X ^ 2
        + Polynomial.C Segment.D * Polynomial.X ^ 3)).eval t
      = segmentCubicDerivative Segment t ∧
    (Polynomial.derivative (Polynomial.derivative
        (Polynomial.C Segment.A + Polynomial.C Segment.B * Polynomial.X
        + Polynomial.C Segment.C * Polynomial.X ^ 2
        + Polynomial.C Segment.D * Polynomial.X ^ 3))).eval t
      = segmentCubicSecondDerivative Segment t ∧
    (Polynomial.C Segment.A + Polynomial.C Segment.B * Polynomial.X
        + Polynomial.C Segment.C * Polynomial.X ^ 2
        + Polynomial.C Segment.D * Polynomial.X ^ 3).eval t
      = segmentCubic Segment t := by
  refine ⟨?_, ?_, ?_⟩
  · simp [segmentCubicDerivative]
    ring
  · simp [segmentCubicSecondDerivative]
    ring
  · simp [segmentCubic]

/-- The clamped window of lines 88-92 on a buffer of at least two frames. -/
theorem render_window_bounds (w : UImportedSoundWave) (StartTime TimeLength : ℚ)
    (hF : 2 ≤ w.PCMNumOfFrames) (hF32 : w.PCMNumOfFrames < 2147483648) :
    0 ≤ renderStartFrame w StartTime ∧
    renderStartFrame w StartTime ≤ w.PCMNumOfFrames - 2 ∧
    renderStartFrame w StartTime < renderEndFrame w StartTime TimeLength ∧
    renderEndFrame w StartTime TimeLength ≤ w.PCMNumOfFrames - 1 := by
  have hs0 : 0 ≤ floatToUInt32 (roundToFloat (StartTime * roundToFloat (w.SampleRate : ℚ))) :=
    Int.emod_nonneg _ (by norm_num)
  have hS : 0 ≤ renderStartFrame w StartTime ∧
      renderStartFrame w StartTime ≤ w.PCMNumOfFrames - 2 := by
    unfold renderStartFrame FMathMin
    rw [toUInt32_eq_self (by omega) (by omega)]
    split <;> omega
  refine ⟨hS.1, hS.2, ?_, ?_⟩
  · unfold renderEndFrame FMathClamp
    rw [toUInt32_eq_self (by omega) (by omega), toUInt32_eq_self (by omega) (by omega)]
    split
    · omega
    · split <;> omega
  · unfold renderEndFrame FMathClamp
    rw [toUInt32_eq_self (by omega) (by omega), toUInt32_eq_self (by omega) (by omega)]
    split
    · omega
    · split <;> omega

/-- The number of view bytes per frame. -/
theorem renderFrameStep_eq (w : UImportedSoundWave) (hB : BufferInv w)
    (hF : 1 ≤ w.PCMNumOfFrames) : renderFrameStep w = w.NumChannels * 4 := by
  obtain ⟨_, _, hlen, h31⟩ := hB
  unfold renderFrameStep
  rw [toUInt64_eq_self (by omega) (by omega), hlen, mul_assoc]
  exact Int.mul_ediv_cancel_left _ (by omega)

/-- Both bytes read for a frame of the buffer are inside the view. -/
theorem bucket_reads_inside (w : UImportedSoundWave) (Frame : Int) (hB : BufferInv w)
    (hF : 1 ≤ w.PCMNumOfFrames) (h0 : 0 ≤ Frame) (h1 : Frame ≤ w.PCMNumOfFrames - 1) :
    bucketPCMIndex (renderFrameStep w) Frame = w.NumChannels * 4 * Frame ∧
    0 ≤ bucketPCMIndex (renderFrameStep w) Frame ∧
    bucketPCMIndex (renderFrameStep w) Frame + 1 < (w.PCMData.length : Int) := by
  have hstep := renderFrameStep_eq w hB hF
  obtain ⟨_, hC, hlen, h31⟩ := hB
  have hprod : w.NumChannels * 4 * Frame + w.NumChannels * 4
      ≤ w.PCMNumOfFrames * w.NumChannels * 4 := by nlinarith
  have hnn : 0 ≤ w.NumChannels * 4 * Frame := by positivity
  have hF31 : Frame < 2147483648 := by nlinarith
  have hidx : bucketPCMIndex (renderFrameStep w) Frame = w.NumChannels * 4 * Frame := by
    unfold bucketPCMIndex
    rw [hstep, toUInt64_eq_self h0 (by omega), toUInt64_eq_self hnn (by omega)]
  rw [hidx]
  exact ⟨rfl, hnn, by omega⟩

/-- A read at an index inside the view succeeds. -/
theorem readView_inside (w : UImportedSoundWave) (index : Int) (h0 : 0 ≤ index)
    (h1 : index < (w.PCMData.length : Int)) :
    ∃ b, readView w index = Except.ok b := by
  unfold readView
  rw [if_neg (by omega)]
  have hlt : index.toNat < w.PCMData.length := by omega
  rw [List.getElem?_eq_getElem hlt]
  exact ⟨_, rfl⟩

/-- The loop body for a bucket whose two reads succeed yields an amplitude. -/
theorem bucketAmplitude_of_reads (w : UImportedSoundWave)
    (StartFrame DeltaFrames FrameStep AmplitudeBuckets : Int) (i : Nat)
    (hb : AmplitudeBuckets - 1 ≠ 0) (F1 F2 : Nat)
    (h1 : readView w (bucketPCMIndex FrameStep
      (bucketFrame StartFrame DeltaFrames AmplitudeBuckets i)) = Except.ok F1)
    (h2 : readView w (toUInt64 (bucketPCMIndex FrameStep
      (bucketFrame StartFrame DeltaFrames AmplitudeBuckets i) + 1)) = Except.ok F2) :
    ∃ v, bucketAmplitude w StartFrame DeltaFrames FrameStep AmplitudeBuckets i
      = Except.ok v := by
  unfold bucketAmplitude
  rw [if_neg hb]
  unfold bucketPCMIndex bucketFrame at h1 h2
  simp only [h1, h2]
  exact ⟨_, rfl⟩

/-- The loop over buckets whose bodies all yield an amplitude runs to its end. -/
theorem fillAmplitudes_ok (w : UImportedSoundWave)
    (StartFrame DeltaFrames FrameStep AmplitudeBuckets : Int) (indices : List Nat)
    (h : ∀ i ∈ indices, ∃ v,
      bucketAmplitude w StartFrame DeltaFrames FrameStep AmplitudeBuckets i = Except.ok v) :
    ∀ OutAmplitudes : List ℚ, ∃ out,
      fillAmplitudes w StartFrame DeltaFrames FrameStep AmplitudeBuckets indices OutAmplitudes
        = Except.ok out := by
  induction indices with
  | nil =>
    intro OutAmplitudes
    exact ⟨OutAmplitudes, rfl⟩
  | cons i rest ih =>
    intro OutAmplitudes
    obtain ⟨v, hv⟩ := h i (List.mem_cons_self i rest)
    simp only [fillAmplitudes, hv]
    exact ih (fun k hk => h k (List.mem_cons_of_mem i hk)) _

/-- A request whose buckets all address a frame of the buffer reads inside the view and
returns true: when the `float` arithmetic of line 106 keeps every `Frame` at or below the
last frame, every read succeeds. -/
theorem GetRenderData_of_frames_inside (w : UImportedSoundWave) (Channel : Int)
    (StartTime TimeLength : ℚ) (AmplitudeBuckets : Int) (OutAmplitudes : List ℚ)
    (hB : BufferInv w) (hF : 2 ≤ w.PCMNumOfFrames)
    (hch : 0 ≤ Channel ∧ Channel < w.NumChannels)
    (hst : 0 ≤ StartTime) (htl : 0 < TimeLength)
    (hb : 2 ≤ AmplitudeBuckets) (hb32 : AmplitudeBuckets < 4294967296)
    (hframes : ∀ i : Nat, (i : Int) < AmplitudeBuckets →
      0 ≤ bucketFrame (renderStartFrame w StartTime)
          (toUInt32 (renderEndFrame w StartTime TimeLength - renderStartFrame w StartTime))
          AmplitudeBuckets i ∧
      bucketFrame (renderStartFrame w StartTime)
          (toUInt32 (renderEndFrame w StartTime TimeLength - renderStartFrame w StartTime))
          AmplitudeBuckets i ≤ w.PCMNumOfFrames - 1) :
    ∃ out, GetRenderData w Channel StartTime TimeLength AmplitudeBuckets OutAmplitudes
      = Except.ok (true, out) := by
  have hbucket : ∀ i : Nat, (i : Int) < AmplitudeBuckets →
      ∃ v, bucketAmplitude w (renderStartFrame w StartTime)
          (toUInt32 (renderEndFrame w StartTime TimeLength - renderStartFrame w StartTime))
          (renderFrameStep w) AmplitudeBuckets i = Except.ok v := by
    intro i hi
    obtain ⟨hf0, hf1⟩ := hframes i hi
    obtain ⟨_, hp0, hp1⟩ := bucket_reads_inside w _ hB (by omega) hf0 hf1
    obtain ⟨F1, hF1⟩ := readView_inside w _ hp0 (by omega)
    have h64 : toUInt64 (bucketPCMIndex (renderFrameStep w)
        (bucketFrame (renderStartFrame w StartTime)
          (toUInt32 (renderEndFrame w StartTime TimeLength - renderStartFrame w StartTime))
          AmplitudeBuckets i) + 1)
        = bucketPCMIndex (renderFrameStep w)
        (bucketFrame (renderStartFrame w StartTime)
          (toUInt32 (renderEndFrame w StartTime TimeLength - renderStartFrame w StartTime))
          AmplitudeBuckets i) + 1 := by
      have := hB.2.2.2
      exact toUInt64_eq_self (by omega) (by omega)
    obtain ⟨F2, hF2⟩ := readView_inside w _ (show 0 ≤ bucketPCMIndex (renderFrameStep w)
        (bucketFrame (renderStartFrame w StartTime)
          (toUInt32 (renderEndFrame w StartTime TimeLength - renderStartFrame w StartTime))
          AmplitudeBuckets i) + 1 by omega) hp1
    rw [← h64] at hF2
    exact bucketAmplitude_of_reads w _ _ _ _ i (by omega) F1 F2 hF1 hF2
  unfold GetRenderData
  rw [if_neg (not_lt.mpr hch.1), if_neg (not_le.mpr hch.2),
    if_neg (by rw [not_or]; exact ⟨not_lt.mpr hst, not_le.mpr htl⟩),
    if_neg (by omega), if_neg (by omega)]
  simp only []
  obtain ⟨out, hout⟩ := fillAmplitudes_ok w (renderStartFrame w StartTime)
    (toUInt32 (renderEndFrame w StartTime TimeLength - renderStartFrame w StartTime))
    (renderFrameStep w) AmplitudeBuckets (List.range (toUInt32 AmplitudeBuckets).toNat)
    (fun i hi => by
      rw [List.mem_range, toUInt32_eq_self (by omega) hb32] at hi
      exact hbucket i (by omega))
    (OutAmplitudes ++ List.replicate AmplitudeBuckets.toNat 0)
  rw [hout]
  exact ⟨out, rfl⟩

/-- A read at or past the end of the view is outside the buffer. -/
theorem readView_outside (w : UImportedSoundWave) (index : Int)
    (h : (w.PCMData.length : Int) ≤ index) :
    readView w index = Except.error Fault.ReadOutOfBounds := by
  unfold readView
  rw [if_neg (by omega), List.getElem?_eq_none (by omega)]

/-- The loop body for a bucket whose first read is outside the view stops there. -/
theorem bucketAmplitude_of_read_outside (w : UImportedSoundWave)
    (StartFrame DeltaFrames FrameStep AmplitudeBuckets : Int) (i : Nat)
    (hb : AmplitudeBuckets - 1 ≠ 0)
    (h1 : readView w (bucketPCMIndex FrameStep
      (bucketFrame StartFrame DeltaFrames AmplitudeBuckets i))
        = Except.error Fault.ReadOutOfBounds) :
    bucketAmplitude w StartFrame DeltaFrames FrameStep AmplitudeBuckets i
      = Except.error Fault.ReadOutOfBounds := by
  unfold bucketAmplitude
  rw [if_neg hb]
  unfold bucketPCMIndex bucketFrame at h1
  simp only [h1]

/-- On every mono buffer of 16777220 frames at sample rate 48000, whatever its samples, the
request `GetRenderData(0, 0, 1000, 2)` reads outside the view. -/
theorem GetRenderData_past_view_of (w : UImportedSoundWave) (OutAmplitudes : List ℚ)
    (hlen : (w.PCMData.length : Int) = 67108880) (hF : w.PCMNumOfFrames = 16777220)
    (hC : w.NumChannels = 1) (hSR : w.SampleRate = 48000) :
    (renderStartFrame w 0, renderEndFrame w 0 1000) = (0, 16777219) ∧
    renderFrameStep w = 4 ∧
    readView w (bucketPCMIndex (renderFrameStep w) (bucketFrame 0 16777219 2 1))
      = Except.error Fault.ReadOutOfBounds ∧
    GetRenderData w 0 0 1000 2 OutAmplitudes = Except.error Fault.ReadOutOfBounds := by
  have hS : renderStartFrame w 0 = 0 := by
    unfold renderStartFrame
    rw [hSR, hF]
    decide!
  have hE : renderEndFrame w 0 1000 = 16777219 := by
    unfold renderEndFrame
    rw [hS, hSR, hF]
    decide!
  have hD : toUInt32 (renderEndFrame w 0 1000 - renderStartFrame w 0) = 16777219 := by
    rw [hS, hE]
    decide
  have hstep : renderFrameStep w = 4 := by
    unfold renderFrameStep
    rw [hlen, hF]
    decide
  have hF0 : bucketFrame 0 16777219 2 0 = 0 := by decide!
  have hF1 : bucketFrame 0 16777219 2 1 = 16777220 := by decide!
  have hidx0 : bucketPCMIndex 4 0 = 0 := by decide
  have hidx1 : bucketPCMIndex 4 16777220 = 67108880 := by decide
  have hpast : readView w (bucketPCMIndex 4 (bucketFrame 0 16777219 2 1))
      = Except.error Fault.ReadOutOfBounds := by
    rw [hF1, hidx1]
    exact readView_outside w 67108880 (by omega)
  obtain ⟨v, hv⟩ : ∃ v, bucketAmplitude w 0 16777219 4 2 0 = Except.ok v := by
    obtain ⟨F1, h1⟩ := readView_inside w 0 (le_refl 0) (by omega)
    obtain ⟨F2, h2⟩ := readView_inside w 1 (by norm_num) (by omega)
    apply bucketAmplitude_of_reads w 0 16777219 4 2 0 (by decide) F1 F2
    · rw [hF0, hidx0]
      exact h1
    · rw [hF0, hidx0]
      exact h2
  have hb1 : bucketAmplitude w 0 16777219 4 2 1 = Except.error Fault.ReadOutOfBounds :=
    bucketAmplitude_of_read_outside w 0 16777219 4 2 1 (by decide) hpast
  refine ⟨by rw [hS, hE], hstep, by rw [hstep]; exact hpast, ?_⟩
  unfold GetRenderData
  rw [if_neg (by decide), if_neg (by rw [hC]; decide), if_neg (by decide!),
    if_neg (by rw [hF]; decide), if_neg (by decide)]
  simp only []
  rw [hD, hS, hstep]
  have hrange : List.range (toUInt32 2).toNat = [0, 1] := by decide
  rw [hrange]
  simp only [fillAmplitudes, hv, hb1]

/-- C21, the code at a failing input: on the mono buffer of 16777220 frames (67108880 view
bytes) the valid request `GetRenderData(0, 0, 1000, 2)` has the window of the frames 0 to
16777219, inside the buffer; but line 106 converts `DeltaFrames = 16777219` to `float`,
where it is rounded to 16777220, so the bucket 1 gets `Frame = 16777220`, one past the end
of the window and equal to the number of frames, and `PCMIndex = 67108880`, the length of
the view: the read of line 110 is outside the buffer. -/
theorem GetRenderData_reads_past_view :
    BufferInv wideWave ∧ 2 ≤ wideWave.PCMNumOfFrames ∧
    (wideWave.PCMData.length : Int) = 67108880 ∧
    (renderStartFrame wideWave 0, renderEndFrame wideWave 0 1000) = (0, 16777219) ∧
    roundToFloat 16777219 = 16777220 ∧
    bucketFrame 0 16777219 2 1 = 16777220 ∧
    bucketPCMIndex 4 16777220 = 67108880 ∧
    renderFrameStep wideWave = 4 ∧
    readView wideWave (bucketPCMIndex (renderFrameStep wideWave) (bucketFrame 0 16777219 2 1))
      = Except.error Fault.ReadOutOfBounds ∧
    GetRenderData wideWave 0 0 1000 2 [] = Except.error Fault.ReadOutOfBounds := by
  have hdata : wideWave.PCMData = List.replicate 67108880 0 := rfl
  have hlen : (wideWave.PCMData.length : Int) = 67108880 := by
    rw [hdata, List.length_replicate]
    rfl
  have hB : BufferInv wideWave := by
    refine ⟨by decide, by decide, ?_, ?_⟩
    · rw [hlen]
      decide
    · rw [hlen]
      decide
  obtain ⟨hwin, hstep, hread, hcall⟩ := GetRenderData_past_view_of wideWave [] hlen rfl rfl rfl
  exact ⟨hB, by decide, hlen, hwin, by decide!, by decide!, by decide, hstep, hread, hcall⟩

/-! ## The control points tile the sampled range -/

/-- The group sizes of two lists of control points add up. -/
theorem totalSampleSize_append (xs ys : List FControlPoint) :
    totalSampleSize (xs ++ ys) = totalSampleSize xs + totalSampleSize ys := by
  induction xs with
  | nil => simp [totalSampleSize]
  | cons x xs ih =>
    show x.SampleSize + totalSampleSize (xs ++ ys)
      = x.SampleSize + totalSampleSize xs + totalSampleSize ys
    rw [ih]
    ring

/-- A tiling continued by a tiling that starts where the first one ends is a tiling. -/
theorem Tiles_append (xs ys : List FControlPoint) :
    ∀ Position : Int, Tiles Position xs → Tiles (Position + totalSampleSize xs) ys →
      Tiles Position (xs ++ ys) := by
  induction xs with
  | nil =>
    intro Position _ h
    simpa [totalSampleSize] using h
  | cons x xs ih =>
    intro Position hx hy
    simp only [Tiles] at hx
    simp only [List.cons_append, Tiles]
    refine ⟨hx.1, hx.2.1, ih _ hx.2.2 ?_⟩
    simp only [totalSampleSize] at hy
    rw [add_assoc]
    exact hy

/-- The control points of one group tile the pixels of the group. -/
theorem groupControlPoints_tiles (Sqrt : ℚ → ℚ) (Samples : List FAudioSample)
    (SamplePositionOffset : Int) (SampleIndex : Nat) (h : SampleIndex < Samples.length) :
    Tiles (SamplePositionOffset + (SampleIndex : Int))
      (groupControlPoints Sqrt Samples SamplePositionOffset SampleIndex) ∧
    totalSampleSize (groupControlPoints Sqrt Samples SamplePositionOffset SampleIndex)
      = ((min SmoothingAmount (Samples.length - SampleIndex) : Nat) : Int) := by
  unfold groupControlPoints
  simp only [SmoothingAmount]
  have hmin : 1 ≤ min 6 (Samples.length - SampleIndex) := by
    rw [Nat.le_min]
    omega
  split
  · simp only [Tiles, totalSampleSize]
    refine ⟨⟨?_, by omega, ?_, by omega, trivial⟩, by omega⟩
    · push_cast
      ring
    · push_cast
      ring
  · simp only [Tiles, totalSampleSize]
    refine ⟨⟨?_, by omega, trivial⟩, by omega⟩
    push_cast
    ring

/-- The loop of lines 347-374 keeps the tiling: with the pixels up to `SampleIndex` tiled
before it, all `Samples.length` pixels are tiled after it. -/
theorem controlPointLoop_tiles (Sqrt : ℚ → ℚ) (Samples : List FAudioSample)
    (SamplePositionOffset : Int) (fuel : Nat) :
    ∀ (SampleIndex : Nat) (ControlPoints : List FControlPoint),
      Samples.length ≤ SampleIndex + fuel →
      Tiles SamplePositionOffset ControlPoints →
      totalSampleSize ControlPoints = ((min SampleIndex Samples.length : Nat) : Int) →
      Tiles SamplePositionOffset
        (controlPointLoop Sqrt Samples SamplePositionOffset fuel SampleIndex ControlPoints) ∧
      totalSampleSize
        (controlPointLoop Sqrt Samples SamplePositionOffset fuel SampleIndex ControlPoints)
        = (Samples.length : Int) := by
  induction fuel with
  | zero =>
    intro SampleIndex ControlPoints hfuel ht hsum
    simp only [controlPointLoop]
    exact ⟨ht, by omega⟩
  | succ fuel ih =>
    intro SampleIndex ControlPoints hfuel ht hsum
    simp only [controlPointLoop]
    split
    · rename_i hlt
      obtain ⟨hg, hgs⟩ := groupControlPoints_tiles Sqrt Samples SamplePositionOffset
        SampleIndex hlt
      have hidx : totalSampleSize ControlPoints = (SampleIndex : Int) := by omega
      apply ih
      · simp only [SmoothingAmount]
        omega
      · apply Tiles_append _ _ _ ht
        rw [hidx]
        exact hg
      · rw [totalSampleSize_append, hgs, hidx]
        simp only [SmoothingAmount]
        omega
    · exact ⟨ht, by omega⟩

/-- A tiling read by index: every control point is at least one pixel wide and the next one
starts where it ends. -/
theorem Tiles_getD (l : List FControlPoint) :
    ∀ Position : Int, Tiles Position l →
      (0 < l.length → (l.getD 0 FControlPoint.zero).Position = (Position : ℚ)) ∧
      (∀ i, i < l.length → 1 ≤ (l.getD i FControlPoint.zero).SampleSize) ∧
      (∀ i, i + 1 < l.length →
        (l.getD (i + 1) FControlPoint.zero).Position
          = (l.getD i FControlPoint.zero).Position
            + ((l.getD i FControlPoint.zero).SampleSize : ℚ)) := by
  induction l with
  | nil =>
    intro Position _
    refine ⟨?_, ?_, ?_⟩ <;> intros <;> simp at *
  | cons x xs ih =>
    intro Position h
    simp only [Tiles] at h
    obtain ⟨h0, hsz, hnext⟩ := ih _ h.2.2
    refine ⟨fun _ => ?_, ?_, ?_⟩
    · simpa using h.1
    · intro i hi
      cases i with
      | zero => simpa using h.2.1
      | succ i =>
        simp only [List.length_cons] at hi
        simpa using hsz i (by omega)
    · intro i hi
      simp only [List.length_cons] at hi
      cases i with
      | zero =>
        have := h0 (by omega)
        simp only [List.getD_cons_succ, List.getD_cons_zero]
        rw [this, h.1]
        push_cast
        ring
      | succ i =>
        simpa using hnext i (by omega)

/-- The control points of a channel tile its `Samples.length` pixels from the offset on. -/
theorem controlPoints_tiles (Sqrt : ℚ → ℚ) (Samples : List FAudioSample)
    (SamplePositionOffset : Int) :
    Tiles SamplePositionOffset (controlPoints Sqrt Samples SamplePositionOffset) ∧
    totalSampleSize (controlPoints Sqrt Samples SamplePositionOffset)
      = (Samples.length : Int) := by
  unfold controlPoints
  exact controlPointLoop_tiles Sqrt Samples SamplePositionOffset Samples.length 0 []
    (by omega) trivial (by simp [totalSampleSize])

/-- The position and the width of the segment that pass `i` of the segment loop appends
are those of the control point `i`. -/
theorem solveSpline_segment_layout (ControlPoints : List FControlPoint)
    (Segments : List FSplineSegment) (i : Nat) (hi : i + 2 < ControlPoints.length) :
    ((solveSpline ControlPoints Segments).Segments.getD (Segments.length + i)
        FSplineSegment.zero).Position
      = (ControlPoints.getD i FControlPoint.zero).Position ∧
    ((solveSpline ControlPoints Segments).Segments.getD (Segments.length + i)
        FSplineSegment.zero).SampleSize
      = ((ControlPoints.getD i FControlPoint.zero).SampleSize : ℚ) := by
  rw [solveSpline_segment ControlPoints Segments i hi]
  exact ⟨rfl, rfl⟩

/-- C23: the control points built from `N` column samples tile the sampled range in order.
The first control point is at the position `offset`, every control point has a group size
of at least 1, the position of each next control point is the previous position plus the
previous group size, and the group sizes sum to `N`; hence the emitted spline segments are
contiguous and strictly increasing in position. -/
theorem control_points_tile_range (Sqrt : ℚ → ℚ) (Samples : List FAudioSample)
    (SamplePositionOffset : Int) :
    (Samples ≠ [] →
      0 < (controlPoints Sqrt Samples SamplePositionOffset).length ∧
      ((controlPoints Sqrt Samples SamplePositionOffset).getD 0 FControlPoint.zero).Position
        = (SamplePositionOffset : ℚ)) ∧
    (∀ i, i < (controlPoints Sqrt Samples SamplePositionOffset).length →
      1 ≤ ((controlPoints Sqrt Samples SamplePositionOffset).getD i
        FControlPoint.zero).SampleSize) ∧
    (∀ i, i + 1 < (controlPoints Sqrt Samples SamplePositionOffset).length →
      ((controlPoints Sqrt Samples SamplePositionOffset).getD (i + 1)
          FControlPoint.zero).Position
        = ((controlPoints Sqrt Samples SamplePositionOffset).getD i
            FControlPoint.zero).Position
          + (((controlPoints Sqrt Samples SamplePositionOffset).getD i
            FControlPoint.zero).SampleSize : ℚ)) ∧
    totalSampleSize (controlPoints Sqrt Samples SamplePositionOffset)
      = (Samples.length : Int) ∧
    (∀ (Segments : List FSplineSegment) (i : Nat),
      i + 3 < (controlPoints Sqrt Samples SamplePositionOffset).length →
      ((GenerateSplineChannel Sqrt Samples SamplePositionOffset Segments).Segments.getD
          (Segments.length + (i + 1)) FSplineSegment.zero).Position
        = ((GenerateSplineChannel Sqrt Samples SamplePositionOffset Segments).Segments.getD
            (Segments.length + i) FSplineSegment.zero).Position
          + ((GenerateSplineChannel Sqrt Samples SamplePositionOffset Segments).Segments.getD
            (Segments.length + i) FSplineSegment.zero).SampleSize ∧
      ((GenerateSplineChannel Sqrt Samples SamplePositionOffset Segments).Segments.getD
          (Segments.length + i) FSplineSegment.zero).Position
        < ((GenerateSplineChannel Sqrt Samples SamplePositionOffset Segments).Segments.getD
          (Segments.length + (i + 1)) FSplineSegment.zero).Position) := by
  obtain ⟨ht, hsum⟩ := controlPoints_tiles Sqrt Samples SamplePositionOffset
  obtain ⟨h0, hsz, hnext⟩ := Tiles_getD _ _ ht
  have hne : Samples ≠ [] → 0 < (controlPoints Sqrt Samples SamplePositionOffset).length := by
    intro hS
    by_contra hlen
    have hnil : controlPoints Sqrt Samples SamplePositionOffset = [] :=
      List.length_eq_zero.mp (by omega)
    rw [hnil] at hsum
    simp only [totalSampleSize] at hsum
    have : Samples.length = 0 := by omega
    exact hS (List.length_eq_zero.mp this)
  refine ⟨fun hS => ⟨hne hS, h0 (hne hS)⟩, hsz, hnext, hsum, ?_⟩
  intro Segments i hi
  unfold GenerateSplineChannel
  obtain ⟨hp0, hs0⟩ := solveSpline_segment_layout
    (controlPoints Sqrt Samples SamplePositionOffset) Segments i (by omega)
  obtain ⟨hp1, _⟩ := solveSpline_segment_layout
    (controlPoints Sqrt Samples SamplePositionOffset) Segments (i + 1) (by omega)
  rw [hp0, hs0, hp1, hnext i (by omega)]
  refine ⟨rfl, ?_⟩
  have h1 : (1 : ℚ) ≤ (((controlPoints Sqrt Samples SamplePositionOffset).getD i
      FControlPoint.zero).SampleSize : ℚ) := by
    exact_mod_cast hsz i (by omega)
  linarith

/-! ## Rasterising: every access is in bounds -/

/-- The value `FirstSample` for a draw offset that is not negative lies between -17 and -12. -/
theorem firstSample_range (DrawOffsetPx : Int) (h0 : 0 ≤ DrawOffsetPx) :
    -17 ≤ firstSample DrawOffsetPx ∧ firstSample DrawOffsetPx ≤ -12 := by
  have hmod : Int.tmod DrawOffsetPx (SmoothingAmount : Int) = DrawOffsetPx % 6 := by
    simp only [SmoothingAmount]
    exact Int.tmod_eq_emod h0 (by norm_num)
  have hval : (-2 * (SmoothingAmount : ℚ)
      - ((Int.tmod DrawOffsetPx SmoothingAmount : Int) : ℚ))
      = ((-12 - DrawOffsetPx % 6 : Int) : ℚ) := by
    rw [hmod]
    simp only [SmoothingAmount]
    push_cast
    ring
  have htr : truncate (((-12 - DrawOffsetPx % 6 : Int) : ℚ)) = -12 - DrawOffsetPx % 6 := by
    unfold truncate
    split
    · exact Int.floor_intCast _
    · exact Int.ceil_intCast _
  unfold firstSample floatToInt32
  rw [hval, htr, toInt32_eq_self (by omega) (by omega)]
  omega

/-- The row of a pixel below `MaxAmplitude`: `Height - p - 1` for one channel,
`Height / 2 - p` and `Height / 2 + p` for the channels 0 and 1 of two; it is a row of the
texture. -/
theorem pixelRow_bounds (NumChannels ChannelIndex Height p : Int)
    (hN : NumChannels = 1 ∨ NumChannels = 2)
    (hch : 0 ≤ ChannelIndex ∧ ChannelIndex < NumChannels)
    (hH : 1 ≤ Height ∧ Height < 2147483648)
    (hp : 0 ≤ p ∧ p < maxAmplitude NumChannels Height) :
    pixelRow NumChannels ChannelIndex Height p
      = (if NumChannels = 1 then Height - p - 1
          else if ChannelIndex = 0 then Height / 2 - p else Height / 2 + p) ∧
    0 ≤ pixelRow NumChannels ChannelIndex Height p ∧
    pixelRow NumChannels ChannelIndex Height p < Height := by
  have hdiv : Int.tdiv Height 2 = Height / 2 := Int.tdiv_eq_ediv (by omega) (by norm_num)
  unfold maxAmplitude at hp
  unfold pixelRow
  rw [hdiv] at hp
  rw [hdiv]
  rcases hN with hN | hN
  · subst hN
    rw [if_pos rfl] at hp
    have h12 : ¬ ((1 : Int) = 2) := by norm_num
    rw [if_neg h12, if_pos rfl,
      toInt32_eq_self (x := Height - p) (by omega) (by omega),
      toInt32_eq_self (by omega) (by omega)]
    omega
  · subst hN
    have h21 : ¬ ((2 : Int) = 1) := by norm_num
    rw [if_neg h21] at hp
    rw [if_pos rfl, if_neg h21]
    by_cases hc : ChannelIndex = 0
    · rw [if_pos hc, if_pos hc, toInt32_eq_self (by omega) (by omega)]
      omega
    · rw [if_neg hc, if_neg hc, toInt32_eq_self (by omega) (by omega)]
      omega

/-- The writes of the pixel loop: each one is a write made before the loop, or a write to
the column `X` at the row of a pixel below `MaxAmplitude`. -/
theorem pixelLoop_writes (BaseColor : Int → FLinearColor)
    (NumChannels ChannelIndex Height MaxAmplitude X : Int) (Amplitude : ℚ) (Peak : Int)
    (hMax : MaxAmplitude < 2147483648) (fuel : Nat) :
    ∀ (PixelIndex : Int) (writes : List PixelWrite), 0 ≤ PixelIndex →
      ∀ wr ∈ pixelLoop BaseColor NumChannels ChannelIndex Height MaxAmplitude X Amplitude
          Peak fuel PixelIndex writes,
        wr ∈ writes ∨
        (wr.X = X ∧ ∃ p, 0 ≤ p ∧ p < MaxAmplitude ∧
          wr.Y = pixelRow NumChannels ChannelIndex Height p) := by
  induction fuel with
  | zero =>
    intro PixelIndex writes _ wr h
    exact Or.inl h
  | succ fuel ih =>
    intro PixelIndex writes h0 wr h
    simp only [pixelLoop] at h
    split at h
    · rename_i hlt
      split at h
      · exact Or.inl h
      · rw [toInt32_eq_self (by omega) (by omega)] at h
        rcases ih (PixelIndex + 1) _ (by omega) wr h with hmem | hnew
        · rcases List.mem_append.mp hmem with hold | hlast
          · exact Or.inl hold
          · rw [List.mem_singleton] at hlast
            subst hlast
            exact Or.inr ⟨rfl, PixelIndex, h0, hlt, rfl⟩
        · exact Or.inr hnew
    · exact Or.inl h

/-- The segment cursor after the loop of lines 259-263: it has not moved back, and the
column `X` is before the end of the segment under it, if there is one. -/
theorem advanceSplineIndex_stops (Segments : List FSplineSegment) (X : Int) (fuel : Nat) :
    ∀ SplineIndex : Nat, Segments.length ≤ SplineIndex + fuel →
      SplineIndex ≤ advanceSplineIndex Segments X fuel SplineIndex ∧
      (advanceSplineIndex Segments X fuel SplineIndex < Segments.length →
        (X : ℚ) < (Segments.getD (advanceSplineIndex Segments X fuel SplineIndex)
            FSplineSegment.zero).Position
          + (Segments.getD (advanceSplineIndex Segments X fuel SplineIndex)
            FSplineSegment.zero).SampleSize) := by
  induction fuel with
  | zero =>
    intro SplineIndex hfuel
    simp only [advanceSplineIndex]
    exact ⟨le_refl _, fun h => by omega⟩
  | succ fuel ih =>
    intro SplineIndex hfuel
    simp only [advanceSplineIndex]
    split
    · obtain ⟨h1, h2⟩ := ih (SplineIndex + 1) (by omega)
      exact ⟨by omega, h2⟩
    · rename_i hcond
      refine ⟨le_refl _, fun hlt => ?_⟩
      rw [not_and] at hcond
      exact not_le.mp (hcond hlt)

/-- Every control point of a tiling ends inside the tiled range. -/
theorem Tiles_end_le (l : List FControlPoint) :
    ∀ Position : Int, Tiles Position l → ∀ i, i < l.length →
      (l.getD i FControlPoint.zero).Position
          + ((l.getD i FControlPoint.zero).SampleSize : ℚ)
        ≤ ((Position + totalSampleSize l : Int) : ℚ) ∧
      0 ≤ totalSampleSize l := by
  induction l with
  | nil =>
    intro Position _ i hi
    simp at hi
  | cons x xs ih =>
    intro Position h i hi
    simp only [Tiles] at h
    have htot : 0 ≤ totalSampleSize xs := by
      cases xs with
      | nil => simp [totalSampleSize]
      | cons y ys => exact (ih _ h.2.2 0 (by simp)).2
    simp only [totalSampleSize]
    refine ⟨?_, by omega⟩
    cases i with
    | zero =>
      simp only [List.getD_cons_zero]
      rw [h.1]
      have : ((0 : Int) : ℚ) ≤ ((totalSampleSize xs : Int) : ℚ) := by exact_mod_cast htot
      push_cast at this ⊢
      linarith
    | succ i =>
      simp only [List.length_cons] at hi
      have := (ih _ h.2.2 i (by omega)).1
      simp only [List.getD_cons_succ]
      rw [add_assoc] at this
      exact this

/-- Every spline segment of a channel ends inside the sampled range: at most
`Samples.length` pixels after `FirstSample`. -/
theorem segment_end_le (Sqrt : ℚ → ℚ) (Samples : List FAudioSample) (FirstSample : Int)
    (k : Nat)
    (hk : k < (GenerateSplineChannel Sqrt Samples FirstSample []).Segments.length) :
    ((GenerateSplineChannel Sqrt Samples FirstSample []).Segments.getD k
        FSplineSegment.zero).Position
      + ((GenerateSplineChannel Sqrt Samples FirstSample []).Segments.getD k
        FSplineSegment.zero).SampleSize
      ≤ ((FirstSample + (Samples.length : Int) : Int) : ℚ) := by
  unfold GenerateSplineChannel at hk ⊢
  rw [solveSpline_segment_count] at hk
  simp only [List.length_nil, zero_add] at hk
  obtain ⟨hp, hs⟩ := solveSpline_segment_layout (controlPoints Sqrt Samples FirstSample) []
    k (by omega)
  simp only [List.length_nil, zero_add] at hp hs
  rw [hp, hs]
  obtain ⟨ht, hsum⟩ := controlPoints_tiles Sqrt Samples FirstSample
  have := (Tiles_end_le _ _ ht k (by omega)).1
  rw [hsum] at this
  exact this

/-- The column loop of a channel reads only samples of the channel and writes only pixels
of the texture. -/
theorem renderColumns_in_bounds (BaseColor : Int → FLinearColor) (Sqrt : ℚ → ℚ)
    (Samples : List FAudioSample) (NumChannels ChannelIndex Width Height FirstSample : Int)
    (hN : NumChannels = 1 ∨ NumChannels = 2)
    (hch : 0 ≤ ChannelIndex ∧ ChannelIndex < NumChannels)
    (hH : 1 ≤ Height ∧ Height < 2147483648)
    (hFS : FirstSample ≤ 0) (hS : (Samples.length : Int) < 2147483648) (columns : Nat) :
    ∀ (X : Int) (SplineIndex : Nat) (writes : List PixelWrite),
      0 ≤ X → X + (columns : Int) ≤ Width →
      (∀ wr ∈ writes, 0 ≤ wr.X ∧ wr.X < Width ∧ 0 ≤ wr.Y ∧ wr.Y < Height ∧
        ∃ p, 0 ≤ p ∧ p < maxAmplitude NumChannels Height ∧
          wr.Y = (if NumChannels = 1 then Height - p - 1
            else if ChannelIndex = 0 then Height / 2 - p else Height / 2 + p)) →
      ∃ out, renderColumns BaseColor Samples
          (GenerateSplineChannel Sqrt Samples FirstSample []).Segments
          NumChannels ChannelIndex Height FirstSample columns X SplineIndex writes
          = Except.ok out ∧
        ∀ wr ∈ out, 0 ≤ wr.X ∧ wr.X < Width ∧ 0 ≤ wr.Y ∧ wr.Y < Height ∧
          ∃ p, 0 ≤ p ∧ p < maxAmplitude NumChannels Height ∧
            wr.Y = (if NumChannels = 1 then Height - p - 1
              else if ChannelIndex = 0 then Height / 2 - p else Height / 2 + p) := by
  have hMax : maxAmplitude NumChannels Height < 2147483648 := by
    unfold maxAmplitude
    split
    · omega
    · rw [Int.tdiv_eq_ediv (by omega) (by norm_num)]
      omega
  induction columns with
  | zero =>
    intro X SplineIndex writes _ _ hw
    exact ⟨writes, rfl, hw⟩
  | succ columns ih =>
    intro X SplineIndex writes hX0 hXW hw
    simp only [renderColumns]
    split
    · exact ⟨writes, rfl, hw⟩
    · rename_i hidx
      have hlt := not_le.mp hidx
      have hstop := (advanceSplineIndex_stops
        (GenerateSplineChannel Sqrt Samples FirstSample []).Segments X
        ((GenerateSplineChannel Sqrt Samples FirstSample []).Segments.length - SplineIndex)
        SplineIndex (by omega)).2 hlt
      have hend := segment_end_le Sqrt Samples FirstSample _ hlt
      have hXN : X < FirstSample + (Samples.length : Int) := by
        have := lt_of_lt_of_le hstop hend
        exact_mod_cast this
      rw [toInt32_eq_self (x := X - FirstSample) (by omega) (by omega)]
      rw [if_neg (by omega)]
      have hin : (X - FirstSample).toNat < Samples.length := by omega
      rw [List.getElem?_eq_getElem hin]
      simp only []
      rw [toInt32_eq_self (x := X + 1) (by omega) (by push_cast at hXW; omega)]
      apply ih
      · omega
      · push_cast at hXW
        omega
      · intro wr hwr
        rcases pixelLoop_writes BaseColor NumChannels ChannelIndex Height
          (maxAmplitude NumChannels Height) X _ _ hMax _ 0 writes (le_refl 0) wr hwr
          with hold | ⟨hx, p, hp0, hp1, hy⟩
        · exact hw wr hold
        · obtain ⟨hrow, hr0, hr1⟩ := pixelRow_bounds NumChannels ChannelIndex Height p hN
            hch hH ⟨hp0, hp1⟩
          push_cast at hXW
          refine ⟨by omega, by omega, by omega, by omega, p, hp0, hp1, ?_⟩
          rw [hy, hrow]

/-- C25: the render loop makes no out-of-bounds access. For one or two channels, a texture
of `Width >= 1` by `Height >= 1` pixels and the spline
segments generated from the column samples of a channel, the column loop of the channel runs to its end without reading
outside the sample array: every rasterised column `X` has its index `X - FirstSample`
inside `Samples[ChannelIndex]`; and every pixel write has `0 <= X < Width` and
`0 <= Y < Height`, with `Y = Height - p - 1` for one channel and `Y = Height / 2 - p`,
`Y = Height / 2 + p` for the channels 0 and 1 of two, where `0 <= p < MaxAmplitude`. -/
theorem render_loop_in_bounds (BaseColor : Int → FLinearColor) (Sqrt : ℚ → ℚ)
    (Samples : List FAudioSample) (NumChannels ChannelIndex Width Height FirstSample : Int)
    (hN : NumChannels = 1 ∨ NumChannels = 2)
    (hch : 0 ≤ ChannelIndex ∧ ChannelIndex < NumChannels)
    (hW : 1 ≤ Width) (hH : 1 ≤ Height ∧ Height < 2147483648)
    (hFS : FirstSample ≤ 0) (hS : (Samples.length : Int) < 2147483648) :
    ∃ writes, renderChannel BaseColor Samples
        (GenerateSplineChannel Sqrt Samples FirstSample []).Segments
        NumChannels ChannelIndex Width Height FirstSample = Except.ok writes ∧
      ∀ wr ∈ writes, 0 ≤ wr.X ∧ wr.X < Width ∧ 0 ≤ wr.Y ∧ wr.Y < Height ∧
        ∃ p, 0 ≤ p ∧ p < maxAmplitude NumChannels Height ∧
          wr.Y = (if NumChannels = 1 then Height - p - 1
            else if ChannelIndex = 0 then Height / 2 - p else Height / 2 + p) := by
  unfold renderChannel
  exact renderColumns_in_bounds BaseColor Sqrt Samples NumChannels ChannelIndex Width Height
    FirstSample hN hch hH hFS hS Width.toNat 0 0 [] (le_refl 0) (by omega)
    (fun wr hwr => by simp at hwr)

/-- C25 at twenty column samples from the first sample -12 on: the channel 1 of two, on a
texture of 2 by 6 pixels, writes the rows 3, 4 and 5 of the columns 0 and 1, and the one
channel of a mono wave on a texture of 4 by 6 pixels stays inside the texture. -/
theorem render_loop_in_bounds_witness :
    ((1 : Int) = 1 ∨ (1 : Int) = 2) ∧ ((0 : Int) ≤ 0 ∧ (0 : Int) < 1) ∧ (1 : Int) ≤ 4 ∧
    ((1 : Int) ≤ 6 ∧ (6 : Int) < 2147483648) ∧ firstSample 0 = -12 ∧
    (match renderChannel whitePixels rampSamples
        (GenerateSplineChannel (fun x => x) rampSamples (-12) []).Segments 2 1 2 6 (-12) with
      | Except.ok writes => writes.map (fun wr => (wr.X, wr.Y))
      | Except.error _ => [])
      = [(0, 3), (0, 4), (0, 5), (1, 3), (1, 4), (1, 5)] ∧
    ∃ writes, renderChannel whitePixels rampSamples
        (GenerateSplineChannel (fun x => x) rampSamples (-12) []).Segments
        1 0 4 6 (-12) = Except.ok writes ∧
      ∀ wr ∈ writes, 0 ≤ wr.X ∧ wr.X < 4 ∧ 0 ≤ wr.Y ∧ wr.Y < 6 ∧
        ∃ p, 0 ≤ p ∧ p < maxAmplitude 1 6 ∧
          wr.Y = (if (1 : Int) = 1 then 6 - p - 1
            else if (0 : Int) = 0 then 6 / 2 - p else 6 / 2 + p) :=
  ⟨by decide, by decide, by decide, by decide, by decide!, by decide!,
    render_loop_in_bounds whitePixels (fun x => x) rampSamples 1 0 4 6 (-12) (by decide)
      (by decide) (by decide) (by decide) (by decide) (by decide)⟩

/-! ## Sampling: every read is inside the lookup -/

/-- The remainder of the truncating division by a positive number, by cases on the sign of
the dividend. -/
theorem tmod_cases (a b : Int) (hb : 0 < b) :
    Int.tmod a b = (if 0 ≤ a then a % b else -((-a) % b)) := by
  split
  · rename_i h
    exact Int.tmod_eq_emod h (le_of_lt hb)
  · rename_i h
    have h1 : Int.tmod (-a) b = (-a) % b := Int.tmod_eq_emod (by omega) (le_of_lt hb)
    have h2 := Int.tmod_add_tdiv (-a) b
    have h3 := Int.tmod_add_tdiv a b
    rw [Int.neg_tdiv] at h2
    linarith [mul_neg b (a.tdiv b)]

/-- The conversion to `int32` keeps the remainder modulo 1 and modulo 2. -/
theorem toInt32_emod (x C : Int) (hC : C = 1 ∨ C = 2) : toInt32 x % C = x % C := by
  unfold toInt32
  rcases hC with hC | hC <;> subst hC <;> omega

/-- The loop bounds and the step after lines 456-474 for one or two channels: the start
index and the step are multiples of the channel count. -/
theorem sampleWindow_aligned (LookupSize NumChannels LookupStartIndex LookupEndIndex : Int)
    (hN : NumChannels = 1 ∨ NumChannels = 2) (hmul : LookupSize % NumChannels = 0) :
    (sampleWindow LookupSize NumChannels LookupStartIndex LookupEndIndex).1 % NumChannels = 0 ∧
    (sampleWindow LookupSize NumChannels LookupStartIndex LookupEndIndex).2.2 % NumChannels
      = 0 := by
  have hstart : alignedStartIndex NumChannels LookupStartIndex % NumChannels = 0 := by
    unfold alignedStartIndex
    rcases hN with hN | hN
    · subst hN
      omega
    · subst hN
      rw [if_pos rfl, tmod_cases _ _ (by norm_num)]
      by_cases h0 : 0 ≤ LookupStartIndex
      · rw [if_pos h0]
        split
        · assumption
        · rw [toInt32_emod _ _ (Or.inr rfl)]
          omega
      · rw [if_neg h0]
        split
        · omega
        · rw [toInt32_emod _ _ (Or.inr rfl)]
          omega
  unfold sampleWindow
  simp only []
  split
  · simp only []
    constructor
    · have hadj : toInt32 (alignedStartIndex NumChannels LookupStartIndex
          - Int.tmod (alignedStartIndex NumChannels LookupStartIndex) MaxSamplesPerPixel)
          % NumChannels = 0 := by
        rw [toInt32_emod _ _ hN, tmod_cases _ _ (by decide)]
        simp only [MaxSamplesPerPixel]
        rcases hN with hN | hN <;> subst hN <;> split <;> omega
      unfold FMathClamp
      split
      · rcases hN with hN | hN <;> subst hN <;> omega
      · split
        · exact hadj
        · exact hmul
    · rw [toInt32_emod _ _ hN]
      exact Int.mul_emod_right _ _
  · exact ⟨hstart, Int.emod_self⟩

/-- The sampling loop of a channel of a mono or stereo lookup, started at a multiple of the
channel count, never reads outside the lookup. -/
theorem sampleLoop_reads_inside (LookupSize : Int) (LookupData : List Int)
    (MaxAmplitude NumChannels ChannelIndex LookupEndIndex ModifiedStepSize : Int)
    (hN : NumChannels = 1 ∨ NumChannels = 2)
    (hch : 0 ≤ ChannelIndex ∧ ChannelIndex < NumChannels)
    (hlen : (LookupData.length : Int) = LookupSize) (h32 : LookupSize < 2147483648)
    (hmul : LookupSize % NumChannels = 0) (hstep : ModifiedStepSize % NumChannels = 0)
    (fuel : Nat) :
    ∀ (Index : Int) (NewSample : FAudioSample), Index % NumChannels = 0 →
      sampleLoop LookupSize LookupData MaxAmplitude ChannelIndex LookupEndIndex
        ModifiedStepSize fuel Index NewSample
        ≠ Except.error SampleFault.ReadOutOfBounds := by
  have hnext : ∀ Index : Int, Index % NumChannels = 0 →
      toInt32 (Index + ModifiedStepSize) % NumChannels = 0 := by
    intro Index hI
    rw [toInt32_emod _ _ hN]
    rcases hN with hN | hN <;> subst hN <;> omega
  induction fuel with
  | zero =>
    intro Index NewSample _
    simp only [sampleLoop]
    split <;> simp
  | succ fuel ih =>
    intro Index NewSample hI
    simp only [sampleLoop]
    split
    · split
      · exact ih _ _ (hnext Index hI)
      · rename_i hin
        rw [not_or, not_lt, not_le] at hin
        have hsum : Index + ChannelIndex < LookupSize := by
          rcases hN with hN | hN <;> subst hN <;> omega
        rw [toInt32_eq_self (x := Index + ChannelIndex) (by omega) (by omega)]
        rw [if_neg (by omega)]
        have hlt : (Index + ChannelIndex).toNat < LookupData.length := by omega
        rw [List.getElem?_eq_getElem hlt]
        exact ih _ _ (hnext Index hI)
    · simp

/-- The sampling loop counts its passes. With a step of at least 1 and no index past the
range of `int32`, the loop started at `Index` either stops at a read outside the lookup or
returns, never runs out of passes, and then has raised `NumSamples` by the number `n` of
passes, the least `n` with `LookupEndIndex <= Index + n * ModifiedStepSize`. -/
theorem sampleLoop_count (LookupSize : Int) (LookupData : List Int)
    (MaxAmplitude ChannelIndex LookupEndIndex ModifiedStepSize : Int)
    (hStep : 1 ≤ ModifiedStepSize) (hwrap : LookupEndIndex + ModifiedStepSize ≤ 2147483648)
    (fuel : Nat) :
    ∀ (Index : Int) (NewSample : FAudioSample), -2147483648 ≤ Index →
      LookupEndIndex - Index ≤ (fuel : Int) → 0 ≤ NewSample.NumSamples →
      NewSample.NumSamples < 2147483648 →
      NewSample.NumSamples + (LookupEndIndex - Index) < 2147483648 →
      sampleLoop LookupSize LookupData MaxAmplitude ChannelIndex LookupEndIndex
          ModifiedStepSize fuel Index NewSample
        = Except.error SampleFault.ReadOutOfBounds ∨
      ∃ (s : FAudioSample) (n : Int),
        sampleLoop LookupSize LookupData MaxAmplitude ChannelIndex LookupEndIndex
          ModifiedStepSize fuel Index NewSample = Except.ok s ∧
        s.NumSamples = NewSample.NumSamples + n ∧
        (LookupEndIndex ≤ Index → n = 0) ∧
        (Index < LookupEndIndex →
          1 ≤ n ∧ (n - 1) * ModifiedStepSize < LookupEndIndex - Index ∧
          LookupEndIndex - Index ≤ n * ModifiedStepSize) := by
  induction fuel with
  | zero =>
    intro Index NewSample _ hfuel _ _ _
    simp only [sampleLoop]
    rw [if_neg (by push_cast at hfuel; omega)]
    exact Or.inr ⟨NewSample, 0, rfl, by omega, fun _ => rfl,
      fun h => by push_cast at hfuel; omega⟩
  | succ fuel ih =>
    intro Index NewSample hI hfuel hN0 hN1 hN2
    push_cast at hfuel
    by_cases hlt : Index < LookupEndIndex
    · have key : ∀ s1 : FAudioSample, s1.NumSamples = NewSample.NumSamples + 1 →
          sampleLoop LookupSize LookupData MaxAmplitude ChannelIndex LookupEndIndex
              ModifiedStepSize fuel (Index + ModifiedStepSize) s1
            = Except.error SampleFault.ReadOutOfBounds ∨
          ∃ (s : FAudioSample) (n : Int),
            sampleLoop LookupSize LookupData MaxAmplitude ChannelIndex LookupEndIndex
              ModifiedStepSize fuel (Index + ModifiedStepSize) s1 = Except.ok s ∧
            s.NumSamples = NewSample.NumSamples + n ∧
            (LookupEndIndex ≤ Index → n = 0) ∧
            (Index < LookupEndIndex →
              1 ≤ n ∧ (n - 1) * ModifiedStepSize < LookupEndIndex - Index ∧
              LookupEndIndex - Index ≤ n * ModifiedStepSize) := by
        intro s1 hs1
        rcases ih (Index + ModifiedStepSize) s1 (by omega) (by omega) (by omega) (by omega)
          (by omega) with herr | ⟨s, n, hs, hn, hzero, hpos⟩
        · exact Or.inl herr
        · refine Or.inr ⟨s, n + 1, hs, by omega, fun h => by omega, fun _ => ?_⟩
          by_cases hnext : Index + ModifiedStepSize < LookupEndIndex
          · obtain ⟨h1, h2, h3⟩ := hpos hnext
            refine ⟨by omega, ?_, ?_⟩
            · have : (n + 1 - 1) * ModifiedStepSize
                  = (n - 1) * ModifiedStepSize + ModifiedStepSize := by ring
              omega
            · have : (n + 1) * ModifiedStepSize = n * ModifiedStepSize + ModifiedStepSize := by
                ring
              omega
          · have hn0 := hzero (by omega)
            subst hn0
            refine ⟨by omega, ?_, ?_⟩
            · simp only [zero_add, sub_self, zero_mul]
              omega
            · simp only [zero_add, one_mul]
              omega
      simp only [sampleLoop]
      rw [if_pos hlt, toInt32_eq_self (x := Index + ModifiedStepSize) (by omega) (by omega),
        toInt32_eq_self (x := NewSample.NumSamples + 1) (by omega) (by omega)]
      split
      · exact key _ rfl
      · split
        · exact Or.inl rfl
        · split
          · exact Or.inl rfl
          · exact key _ rfl
    · simp only [sampleLoop]
      rw [if_neg hlt]
      exact Or.inr ⟨NewSample, 0, rfl, by omega, fun _ => rfl, fun h => absurd h hlt⟩

/-! ## Sampling: the work per column -/

/-- The loop bounds and the step of a column whose indices and channel count are at most
2^29 in size: the step is at least 1, no index leaves the range of `int32`, the loop makes
at most 120 passes, and the bounds coincide or cross only when the cap of lines 467-474
clamped both to the same index. -/
theorem sampleWindow_range (LookupSize NumChannels LookupStartIndex LookupEndIndex : Int)
    (hC : 1 ≤ NumChannels ∧ NumChannels ≤ 536870912)
    (hL : 0 ≤ LookupSize ∧ LookupSize ≤ 536870912)
    (hS : -536870912 ≤ LookupStartIndex ∧ LookupStartIndex ≤ 536870912)
    (hE : -536870912 ≤ LookupEndIndex ∧ LookupEndIndex ≤ 536870912) :
    1 ≤ (sampleWindow LookupSize NumChannels LookupStartIndex LookupEndIndex).2.2 ∧
    (sampleWindow LookupSize NumChannels LookupStartIndex LookupEndIndex).2.1
      + (sampleWindow LookupSize NumChannels LookupStartIndex LookupEndIndex).2.2
      ≤ 2147483648 ∧
    -2147483648 ≤ (sampleWindow LookupSize NumChannels LookupStartIndex LookupEndIndex).1 ∧
    (sampleWindow LookupSize NumChannels LookupStartIndex LookupEndIndex).2.1
      - (sampleWindow LookupSize NumChannels LookupStartIndex LookupEndIndex).1
      < 2147483648 ∧
    (∀ n : Int, (n - 1)
        * (sampleWindow LookupSize NumChannels LookupStartIndex LookupEndIndex).2.2
        < (sampleWindow LookupSize NumChannels LookupStartIndex LookupEndIndex).2.1
          - (sampleWindow LookupSize NumChannels LookupStartIndex LookupEndIndex).1 →
      n ≤ 120) ∧
    ((sampleWindow LookupSize NumChannels LookupStartIndex LookupEndIndex).2.1
        ≤ (sampleWindow LookupSize NumChannels LookupStartIndex LookupEndIndex).1 →
      sampleCount NumChannels LookupStartIndex LookupEndIndex > MaxSamplesPerPixel ∧
      (sampleWindow LookupSize NumChannels LookupStartIndex LookupEndIndex).1
        = (sampleWindow LookupSize NumChannels LookupStartIndex LookupEndIndex).2.1) := by
  obtain ⟨hC1, hC2⟩ := hC
  have hstart : LookupStartIndex - 1 ≤ alignedStartIndex NumChannels LookupStartIndex ∧
      alignedStartIndex NumChannels LookupStartIndex ≤ LookupStartIndex := by
    unfold alignedStartIndex
    split
    · split
      · omega
      · rw [toInt32_eq_self (by omega) (by omega)]
        omega
    · omega
  unfold sampleCount sampleWindow
  simp only []
  generalize alignedStartIndex NumChannels LookupStartIndex = Start at hstart ⊢
  have hend : FMathMax LookupEndIndex (toInt32 (Start + 1)) ≥ Start + 1 ∧
      FMathMax LookupEndIndex (toInt32 (Start + 1)) ≤ 536870913 ∧
      FMathMax LookupEndIndex (toInt32 (Start + 1)) ≥ LookupEndIndex := by
    unfold FMathMax
    rw [toInt32_eq_self (by omega) (by omega)]
    split <;> omega
  generalize FMathMax LookupEndIndex (toInt32 (Start + 1)) = End at hend ⊢
  rw [toInt32_eq_self (x := End - Start) (by omega) (by omega),
    Int.tdiv_eq_ediv (by omega) (by omega)]
  have hq1 : NumChannels * ((End - Start) / NumChannels) ≤ End - Start :=
    Int.mul_ediv_self_le (by omega)
  have hq2 : End - Start < NumChannels * ((End - Start) / NumChannels) + NumChannels :=
    Int.lt_mul_ediv_self_add (by omega)
  have hq0 : 0 ≤ (End - Start) / NumChannels := Int.ediv_nonneg (by omega) (by omega)
  generalize (End - Start) / NumChannels = q at hq1 hq2 hq0 ⊢
  simp only [MaxSamplesPerPixel]
  by_cases hcap : q > 60
  · rw [if_pos hcap]
    simp only []
    rw [Int.tdiv_eq_ediv hq0 (by norm_num)]
    have hk1 : 1 ≤ q / 60 := by omega
    have hkq : 60 * (q / 60) ≤ q := by omega
    have hqk : q ≤ 60 * (q / 60) + 59 := by omega
    generalize q / 60 = k at hk1 hkq hqk ⊢
    have hm1 : NumChannels ≤ NumChannels * k := by nlinarith
    have hm2 : NumChannels * q ≤ 60 * (NumChannels * k) + 59 * NumChannels := by nlinarith
    have hm3 : NumChannels * k ≤ NumChannels * q := by nlinarith
    generalize NumChannels * k = m at hm1 hm2 hm3 ⊢
    rw [toInt32_eq_self (x := m) (by omega) (by omega)]
    have hadj : -60 < Int.tmod Start 60 ∧ Int.tmod Start 60 < 60 := by
      rw [tmod_cases _ _ (by norm_num)]
      split <;> omega
    generalize Int.tmod Start 60 = Adjustment at hadj ⊢
    rw [toInt32_eq_self (x := Start - Adjustment) (by omega) (by omega),
      toInt32_eq_self (x := End - Adjustment) (by omega) (by omega)]
    have hcl : 0 ≤ FMathClamp (Start - Adjustment) 0 LookupSize ∧
        FMathClamp (End - Adjustment) 0 LookupSize ≤ LookupSize ∧
        FMathClamp (Start - Adjustment) 0 LookupSize
          ≤ FMathClamp (End - Adjustment) 0 LookupSize ∧
        FMathClamp (End - Adjustment) 0 LookupSize
          - FMathClamp (Start - Adjustment) 0 LookupSize ≤ End - Start := by
      unfold FMathClamp
      split <;> split <;> (try split) <;> (try split) <;> omega
    generalize FMathClamp (Start - Adjustment) 0 LookupSize = S2 at hcl ⊢
    generalize FMathClamp (End - Adjustment) 0 LookupSize = E2 at hcl ⊢
    refine ⟨by omega, by omega, by omega, by omega, ?_, fun h => ⟨hcap, by omega⟩⟩
    intro n hn
    have h120 : (n - 1) * m < 120 * m := by omega
    have := lt_of_mul_lt_mul_right h120 (by omega)
    omega
  · rw [if_neg hcap]
    simp only []
    refine ⟨hC1, by omega, by omega, by omega, ?_, fun h => by omega⟩
    intro n hn
    have h61 : (n - 1) * NumChannels < 61 * NumChannels := by nlinarith
    have := lt_of_mul_lt_mul_right h61 (by omega)
    omega

/-- The sample of a channel of a mono or stereo lookup is never made with a read outside
the lookup. -/
theorem sampleChannel_reads_inside (Sqrt : ℚ → ℚ) (LookupSize : Int) (LookupData : List Int)
    (NumChannels LookupStartIndex LookupEndIndex MaxAmplitude ChannelIndex : Int)
    (hN : NumChannels = 1 ∨ NumChannels = 2)
    (hch : 0 ≤ ChannelIndex ∧ ChannelIndex < NumChannels)
    (hlen : (LookupData.length : Int) = LookupSize) (h32 : LookupSize < 2147483648)
    (hmul : LookupSize % NumChannels = 0) :
    sampleChannel Sqrt LookupSize LookupData NumChannels LookupStartIndex LookupEndIndex
      MaxAmplitude ChannelIndex ≠ Except.error SampleFault.ReadOutOfBounds := by
  obtain ⟨hal, hst⟩ := sampleWindow_aligned LookupSize NumChannels LookupStartIndex
    LookupEndIndex hN hmul
  have hloop := sampleLoop_reads_inside LookupSize LookupData MaxAmplitude NumChannels
    ChannelIndex (sampleWindow LookupSize NumChannels LookupStartIndex LookupEndIndex).2.1
    (sampleWindow LookupSize NumChannels LookupStartIndex LookupEndIndex).2.2 hN hch hlen
    h32 hmul hst
    ((sampleWindow LookupSize NumChannels LookupStartIndex LookupEndIndex).2.1
      - (sampleWindow LookupSize NumChannels LookupStartIndex LookupEndIndex).1).toNat
    (sampleWindow LookupSize NumChannels LookupStartIndex LookupEndIndex).1
    FAudioSample.zero hal
  unfold sampleChannel
  simp only []
  split
  · rename_i e he
    intro h
    rw [Except.error.injEq] at h
    rw [h] at he
    exact hloop he
  · split <;> simp

/-- The sample of a channel, for indices and a channel count of at most 2^29 in size: the
loop stops at a read outside the lookup, or it returns with `NumSamples` the number of its
passes, which is at most 120 and is 0 only when the cap clamped the start and the end to
the same index. -/
theorem sampleChannel_outcome (Sqrt : ℚ → ℚ) (LookupSize : Int) (LookupData : List Int)
    (NumChannels LookupStartIndex LookupEndIndex MaxAmplitude ChannelIndex : Int)
    (hC : 1 ≤ NumChannels ∧ NumChannels ≤ 536870912)
    (hL : 0 ≤ LookupSize ∧ LookupSize ≤ 536870912)
    (hS : -536870912 ≤ LookupStartIndex ∧ LookupStartIndex ≤ 536870912)
    (hE : -536870912 ≤ LookupEndIndex ∧ LookupEndIndex ≤ 536870912) :
    sampleChannel Sqrt LookupSize LookupData NumChannels LookupStartIndex LookupEndIndex
      MaxAmplitude ChannelIndex = Except.error SampleFault.ReadOutOfBounds ∨
    ∃ s, sampleChannel Sqrt LookupSize LookupData NumChannels LookupStartIndex LookupEndIndex
        MaxAmplitude ChannelIndex = Except.ok s ∧
      0 ≤ s.NumSamples ∧ s.NumSamples ≤ 120 ∧
      ((sampleWindow LookupSize NumChannels LookupStartIndex LookupEndIndex).1
          < (sampleWindow LookupSize NumChannels LookupStartIndex LookupEndIndex).2.1 →
        1 ≤ s.NumSamples ∧
        (s.NumSamples - 1)
            * (sampleWindow LookupSize NumChannels LookupStartIndex LookupEndIndex).2.2
          < (sampleWindow LookupSize NumChannels LookupStartIndex LookupEndIndex).2.1
            - (sampleWindow LookupSize NumChannels LookupStartIndex LookupEndIndex).1 ∧
        (sampleWindow LookupSize NumChannels LookupStartIndex LookupEndIndex).2.1
            - (sampleWindow LookupSize NumChannels LookupStartIndex LookupEndIndex).1
          ≤ s.NumSamples
            * (sampleWindow LookupSize NumChannels LookupStartIndex LookupEndIndex).2.2) ∧
      (s.NumSamples = 0 →
        sampleCount NumChannels LookupStartIndex LookupEndIndex > MaxSamplesPerPixel ∧
        (sampleWindow LookupSize NumChannels LookupStartIndex LookupEndIndex).1
          = (sampleWindow LookupSize NumChannels LookupStartIndex LookupEndIndex).2.1) := by
  obtain ⟨hstep, hwrap, hlow, hspan, hbound, hzero⟩ := sampleWindow_range LookupSize
    NumChannels LookupStartIndex LookupEndIndex hC hL hS hE
  have hz : FAudioSample.zero.NumSamples = 0 := rfl
  rcases sampleLoop_count LookupSize LookupData MaxAmplitude ChannelIndex
    (sampleWindow LookupSize NumChannels LookupStartIndex LookupEndIndex).2.1
    (sampleWindow LookupSize NumChannels LookupStartIndex LookupEndIndex).2.2 hstep hwrap
    ((sampleWindow LookupSize NumChannels LookupStartIndex LookupEndIndex).2.1
      - (sampleWindow LookupSize NumChannels LookupStartIndex LookupEndIndex).1).toNat
    (sampleWindow LookupSize NumChannels LookupStartIndex LookupEndIndex).1
    FAudioSample.zero hlow (by omega) (by omega) (by omega) (by omega)
    with herr | ⟨s, n, hs, hn, hn0, hpos⟩
  · left
    unfold sampleChannel
    simp only []
    rw [herr]
  · right
    rw [hz, zero_add] at hn
    have hfacts : 0 ≤ s.NumSamples ∧ s.NumSamples ≤ 120 ∧
        ((sampleWindow LookupSize NumChannels LookupStartIndex LookupEndIndex).1
            < (sampleWindow LookupSize NumChannels LookupStartIndex LookupEndIndex).2.1 →
          1 ≤ s.NumSamples ∧
          (s.NumSamples - 1)
              * (sampleWindow LookupSize NumChannels LookupStartIndex LookupEndIndex).2.2
            < (sampleWindow LookupSize NumChannels LookupStartIndex LookupEndIndex).2.1
              - (sampleWindow LookupSize NumChannels LookupStartIndex LookupEndIndex).1 ∧
          (sampleWindow LookupSize NumChannels LookupStartIndex LookupEndIndex).2.1
              - (sampleWindow LookupSize NumChannels LookupStartIndex LookupEndIndex).1
            ≤ s.NumSamples
              * (sampleWindow LookupSize NumChannels LookupStartIndex LookupEndIndex).2.2) ∧
        (s.NumSamples = 0 →
          sampleCount NumChannels LookupStartIndex LookupEndIndex > MaxSamplesPerPixel ∧
          (sampleWindow LookupSize NumChannels LookupStartIndex LookupEndIndex).1
            = (sampleWindow LookupSize NumChannels LookupStartIndex LookupEndIndex).2.1) := by
      rw [hn]
      by_cases hlt : (sampleWindow LookupSize NumChannels LookupStartIndex LookupEndIndex).1
          < (sampleWindow LookupSize NumChannels LookupStartIndex LookupEndIndex).2.1
      · obtain ⟨h1, h2, h3⟩ := hpos hlt
        exact ⟨by omega, hbound n h2, fun _ => ⟨h1, h2, h3⟩, fun h => by omega⟩
      · have h0 := hn0 (by omega)
        exact ⟨by omega, by omega, fun h => absurd h hlt, fun _ => hzero (by omega)⟩
    unfold sampleChannel
    simp only []
    rw [hs]
    simp only []
    split
    · exact ⟨_, rfl, hfacts⟩
    · exact ⟨_, rfl, hfacts⟩

/-- C22: the column sampler never reads outside the lookup. For one or two channels, a
lookup whose size is a multiple of the channel count, and every start and end index,
negative ones and ones past the end included, with or without the adjustment of the cap: no
channel's loop reads outside the lookup, so every element read, `LookupData[Index +
ChannelIndex]`, has `0 <= Index + ChannelIndex < LookupSize`; a pass at an index outside
`[0, LookupSize)` reads nothing and only adds a zero sample to the count; and for indices
of at most 2^29 in size the call returns. -/
theorem SampleAudio_reads_inside (Sqrt : ℚ → ℚ) (LookupSize : Int)
    (Samples : List FAudioSample × List FAudioSample) (NumChannels : Int)
    (LookupData : List Int) (LookupStartIndex LookupEndIndex MaxAmplitude : Int)
    (hN : NumChannels = 1 ∨ NumChannels = 2)
    (hlen : (LookupData.length : Int) = LookupSize) (h32 : LookupSize < 2147483648)
    (hmul : LookupSize % NumChannels = 0) :
    (∀ ChannelIndex, 0 ≤ ChannelIndex → ChannelIndex < NumChannels →
      sampleChannel Sqrt LookupSize LookupData NumChannels LookupStartIndex LookupEndIndex
        MaxAmplitude ChannelIndex ≠ Except.error SampleFault.ReadOutOfBounds) ∧
    SampleAudio Sqrt LookupSize Samples NumChannels LookupData LookupStartIndex
      LookupEndIndex MaxAmplitude ≠ Except.error SampleFault.ReadOutOfBounds ∧
    (∀ (ChannelIndex End ModifiedStepSize Index : Int) (fuel : Nat) (NewSample : FAudioSample),
      Index < End → (Index < 0 ∨ Index ≥ LookupSize) →
      sampleLoop LookupSize LookupData MaxAmplitude ChannelIndex End ModifiedStepSize
          (fuel + 1) Index NewSample
        = sampleLoop LookupSize LookupData MaxAmplitude ChannelIndex End ModifiedStepSize
            fuel (toInt32 (Index + ModifiedStepSize))
            { NewSample with RMS := NewSample.RMS + 0,
                             NumSamples := toInt32 (NewSample.NumSamples + 1) }) ∧
    (LookupSize ≤ 536870912 →
      -536870912 ≤ LookupStartIndex ∧ LookupStartIndex ≤ 536870912 →
      -536870912 ≤ LookupEndIndex ∧ LookupEndIndex ≤ 536870912 →
      ∃ out, SampleAudio Sqrt LookupSize Samples NumChannels LookupData LookupStartIndex
        LookupEndIndex MaxAmplitude = Except.ok out) := by
  have hsafe : ∀ ChannelIndex, 0 ≤ ChannelIndex → ChannelIndex < NumChannels →
      sampleChannel Sqrt LookupSize LookupData NumChannels LookupStartIndex LookupEndIndex
        MaxAmplitude ChannelIndex ≠ Except.error SampleFault.ReadOutOfBounds :=
    fun ChannelIndex h0 h1 => sampleChannel_reads_inside Sqrt LookupSize LookupData
      NumChannels LookupStartIndex LookupEndIndex MaxAmplitude ChannelIndex hN ⟨h0, h1⟩ hlen
      h32 hmul
  refine ⟨hsafe, ?_, ?_, ?_⟩
  · unfold SampleAudio
    rw [if_neg (by omega)]
    have h0 := hsafe 0 (le_refl 0) (by omega)
    split
    · rename_i e he
      intro h
      rw [Except.error.injEq] at h
      rw [h] at he
      exact h0 he
    · split
      · simp
      · have h1 := hsafe 1 (by norm_num) (by omega)
        split
        · rename_i e he
          intro h
          rw [Except.error.injEq] at h
          rw [h] at he
          exact h1 he
        · rw [if_pos (by omega)]
          simp
  · intro ChannelIndex End ModifiedStepSize Index fuel NewSample hlt hout
    simp only [sampleLoop]
    rw [if_pos hlt, if_pos hout]
  · intro hL hS hE
    have hL0 : 0 ≤ LookupSize := by omega
    have hok : ∀ ChannelIndex, 0 ≤ ChannelIndex → ChannelIndex < NumChannels →
        ∃ s, sampleChannel Sqrt LookupSize LookupData NumChannels LookupStartIndex
          LookupEndIndex MaxAmplitude ChannelIndex = Except.ok s := by
      intro ChannelIndex h0 h1
      rcases sampleChannel_outcome Sqrt LookupSize LookupData NumChannels LookupStartIndex
        LookupEndIndex MaxAmplitude ChannelIndex (by omega) ⟨hL0, hL⟩ hS hE
        with herr | ⟨s, hs, _⟩
      · exact absurd herr (hsafe ChannelIndex h0 h1)
      · exact ⟨s, hs⟩
    unfold SampleAudio
    rw [if_neg (by omega)]
    obtain ⟨s0, hs0⟩ := hok 0 (le_refl 0) (by omega)
    rw [hs0]
    simp only []
    rcases hN with hN | hN
    · rw [if_pos (by omega)]
      exact ⟨_, rfl⟩
    · rw [if_neg (by omega)]
      obtain ⟨s1, hs1⟩ := hok 1 (by norm_num) (by omega)
      rw [hs1]
      simp only []
      rw [if_pos (by omega)]
      exact ⟨_, rfl⟩

/-- C22 at the silent stereo lookup of 100 data points with the start index -5 and the end
index 250: the window is clamped to the indices 0 to 100 with the step 4, and both
channels take 25 samples; with the indices -7 and 3 the loop runs from -8 and the channel 1
takes 4 zero samples and 2 samples read at the indices 1 and 3. -/
theorem SampleAudio_reads_inside_witness :
    ((2 : Int) = 1 ∨ (2 : Int) = 2) ∧ (silentLookup.length : Int) = 100 ∧
    (100 : Int) % 2 = 0 ∧
    SampleAudio (fun x => x) 100 ([], []) 2 silentLookup (-5) 250 50
      = Except.ok ([{ RMS := 0, Peak := 0, NumSamples := 25 }],
          [{ RMS := 0, Peak := 0, NumSamples := 25 }]) ∧
    sampleWindow 100 2 (-5) 250 = (0, 100, 4) ∧
    sampleWindow 100 2 (-7) 3 = (-8, 3, 2) ∧
    sampleChannel (fun x => x) 100 silentLookup 2 (-7) 3 50 1
      = Except.ok { RMS := 0, Peak := 0, NumSamples := 6 } ∧
    SampleAudio (fun x => x) 100 ([], []) 2 silentLookup (-5) 250 50
      ≠ Except.error SampleFault.ReadOutOfBounds :=
  ⟨by decide, by decide, by decide, by decide!, by decide, by decide, by decide!,
    (SampleAudio_reads_inside (fun x => x) 100 ([], []) 2 silentLookup (-5) 250 50
      (by decide) (by decide) (by decide) (by decide)).2.1⟩

/-- C28: the work of the column sampler per column is bounded by twice the cap. For every
channel count of at least 1, every lookup size and every start and end index (all of at
most 2^29 in size, so that no `int32` overflows), the loop of a channel never runs out of
passes; when it returns, the `NumSamples` of the sample it made is the number of its
passes, the least `n` with `End <= Start + n * Step` for the loop bounds and the step after
lines 456-474; that number is at most 120, and it is 0 only when `SampleCount` is above
the cap of 60 and the adjustment of the cap clamps the start and the end to the same index.
For one or two channels and a lookup whose size is a multiple of the channel count the
loop does return. -/
theorem SampleAudio_work_bounded (Sqrt : ℚ → ℚ) (LookupSize : Int) (LookupData : List Int)
    (NumChannels LookupStartIndex LookupEndIndex MaxAmplitude ChannelIndex : Int)
    (hC : 1 ≤ NumChannels ∧ NumChannels ≤ 536870912)
    (hL : 0 ≤ LookupSize ∧ LookupSize ≤ 536870912)
    (hS : -536870912 ≤ LookupStartIndex ∧ LookupStartIndex ≤ 536870912)
    (hE : -536870912 ≤ LookupEndIndex ∧ LookupEndIndex ≤ 536870912) :
    sampleChannel Sqrt LookupSize LookupData NumChannels LookupStartIndex LookupEndIndex
      MaxAmplitude ChannelIndex ≠ Except.error SampleFault.NoProgress ∧
    (∀ s, sampleChannel Sqrt LookupSize LookupData NumChannels LookupStartIndex
        LookupEndIndex MaxAmplitude ChannelIndex = Except.ok s →
      0 ≤ s.NumSamples ∧ s.NumSamples ≤ 120 ∧
      ((sampleWindow LookupSize NumChannels LookupStartIndex LookupEndIndex).1
          < (sampleWindow LookupSize NumChannels LookupStartIndex LookupEndIndex).2.1 →
        1 ≤ s.NumSamples ∧
        (s.NumSamples - 1)
            * (sampleWindow LookupSize NumChannels LookupStartIndex LookupEndIndex).2.2
          < (sampleWindow LookupSize NumChannels LookupStartIndex LookupEndIndex).2.1
            - (sampleWindow LookupSize NumChannels LookupStartIndex LookupEndIndex).1 ∧
        (sampleWindow LookupSize NumChannels LookupStartIndex LookupEndIndex).2.1
            - (sampleWindow LookupSize NumChannels LookupStartIndex LookupEndIndex).1
          ≤ s.NumSamples
            * (sampleWindow LookupSize NumChannels LookupStartIndex LookupEndIndex).2.2) ∧
      (s.NumSamples = 0 →
        sampleCount NumChannels LookupStartIndex LookupEndIndex > MaxSamplesPerPixel ∧
        (sampleWindow LookupSize NumChannels LookupStartIndex LookupEndIndex).1
          = (sampleWindow LookupSize NumChannels LookupStartIndex LookupEndIndex).2.1)) ∧
    (NumChannels ≤ 2 → 0 ≤ ChannelIndex ∧ ChannelIndex < NumChannels →
      (LookupData.length : Int) = LookupSize → LookupSize % NumChannels = 0 →
      ∃ s, sampleChannel Sqrt LookupSize LookupData NumChannels LookupStartIndex
        LookupEndIndex MaxAmplitude ChannelIndex = Except.ok s) := by
  have hout := sampleChannel_outcome Sqrt LookupSize LookupData NumChannels
    LookupStartIndex LookupEndIndex MaxAmplitude ChannelIndex hC hL hS hE
  refine ⟨?_, ?_, ?_⟩
  · rcases hout with herr | ⟨s, hs, _⟩
    · rw [herr]
      simp
    · rw [hs]
      simp
  · intro s hs
    rcases hout with herr | ⟨s1, hs1, hfacts⟩
    · rw [herr] at hs
      simp at hs
    · rw [hs1, Except.ok.injEq] at hs
      subst hs
      exact hfacts
  · intro hC2 hch hlen hmul
    rcases hout with herr | ⟨s, hs, _⟩
    · exact absurd herr (sampleChannel_reads_inside Sqrt LookupSize LookupData NumChannels
        LookupStartIndex LookupEndIndex MaxAmplitude ChannelIndex (by omega) hch hlen
        (by omega) hmul)
    · exact ⟨s, hs⟩

/-- C28 at three columns: a stereo column of the indices 0 to 239 over a silent lookup of
240 data points takes 120 samples per channel; a mono column of the indices 200 to 400
over the lookup of 100 data points has `SampleCount = 200`, both loop bounds are clamped
to 100, and the sample has `NumSamples = 0`. -/
theorem SampleAudio_work_bounded_witness :
    ((1 : Int) ≤ 1 ∧ (1 : Int) ≤ 536870912) ∧ ((0 : Int) ≤ 100 ∧ (100 : Int) ≤ 536870912) ∧
    sampleChannel (fun x => x) 240 (List.replicate 240 0) 2 0 239 50 1
      = Except.ok { RMS := 0, Peak := 0, NumSamples := 120 } ∧
    sampleWindow 240 2 0 239 = (0, 239, 2) ∧
    sampleChannel (fun x => x) 100 silentLookup 1 200 400 50 0
      = Except.ok { RMS := 0, Peak := 0, NumSamples := 0 } ∧
    sampleWindow 100 1 200 400 = (100, 100, 3) ∧ sampleCount 1 200 400 = 200 ∧
    sampleChannel (fun x => x) 100 silentLookup 1 200 400 50 0
      ≠ Except.error SampleFault.NoProgress :=
  ⟨by decide, by decide, by decide!, by decide, by decide!, by decide, by decide,
    (SampleAudio_work_bounded (fun x => x) 100 silentLookup 1 200 400 50 0 (by decide)
      (by decide) (by decide) (by decide)).1⟩

end AudioVisualization
